import Mathlib

/-!
# CPU recompiler code generator: constant folding, block compilation, dirty flags

A shallow embedding of `src/core/cpu_recompiler_code_generator.cpp`, and of the texture
coordinate packing of `src/pse/gpu_hw.h`.

* Machine integers are natural numbers (unsigned) or integers (signed) with the
  wrap-around written out.
* The code generator is a record that is passed through every member function.
* The host code buffer is the list of abstract host operations appended by the
  `Emit...` primitives, in emission order.
* The emitted code can be run on a machine state (`execOps`), with the interpreter behind
  the fallback call as a parameter.
* A C++ expression without a defined result (a `u64` shift by 64 or more, the
  `UnreachableCode()` panic, a dereference of a null `m_block`) makes the embedded
  function return `none`.
-/

namespace CPU.Recompiler

/-! ## Integer helpers -/

/-- Conversion of a signed integer to `u32` (`static_cast<u32>`). -/
def toU32 (i : Int) : Nat := (i % 2 ^ 32).toNat

/-- Two's complement wrap of an integer into the range of `s32`. -/
def wrapS32 (i : Int) : Int := (i + 2 ^ 31) % 2 ^ 32 - 2 ^ 31

/-- Bitwise complement of a `u32` (`~u32(x)`). -/
def notU32 (x : Nat) : Nat := 2 ^ 32 - 1 - x % 2 ^ 32

/-- Value of the low `w` bits of `v` read as a two's complement signed integer
(`static_cast` of an unsigned `w`-bit integer to the signed type of the same width). -/
def toSigned (w : Nat) (v : Nat) : Int :=
  if v % 2 ^ w < 2 ^ (w - 1) then ((v % 2 ^ w : Nat) : Int) else ((v % 2 ^ w : Nat) : Int) - 2 ^ w

/-- Conversion of a signed integer to the unsigned type of `w` bits. -/
def toUnsigned (w : Nat) (i : Int) : Nat := (i % 2 ^ w).toNat

/-- Modelled from the spec: `Truncate8` of `common/types.h` (absent), the cast to `u8`. -/
def Truncate8 (v : Nat) : Nat := v % 2 ^ 8

/-- Modelled from the spec: `Truncate16` of `common/types.h` (absent), the cast to `u16`. -/
def Truncate16 (v : Nat) : Nat := v % 2 ^ 16

/-- Modelled from the spec: `Truncate32` of `common/types.h` (absent), the cast to `u32`. -/
def Truncate32 (v : Nat) : Nat := v % 2 ^ 32

/-- Modelled from the spec: `ZeroExtend16` of `common/types.h` (absent); the argument is an
unsigned integer of `from_bits` bits and the result is the same number as a `u16`. -/
def ZeroExtend16 (from_bits : Nat) (v : Nat) : Nat := (v % 2 ^ from_bits) % 2 ^ 16

/-- Modelled from the spec: `ZeroExtend32` of `common/types.h` (absent). -/
def ZeroExtend32 (from_bits : Nat) (v : Nat) : Nat := (v % 2 ^ from_bits) % 2 ^ 32

/-- Modelled from the spec: `SignExtend16` of `common/types.h` (absent): the argument, an
unsigned integer of `from_bits` bits, is cast to the signed type of its own width, widened,
and cast to `u16`. -/
def SignExtend16 (from_bits : Nat) (v : Nat) : Nat := toUnsigned 16 (toSigned from_bits v)

/-- Modelled from the spec: `SignExtend32` of `common/types.h` (absent). -/
def SignExtend32 (from_bits : Nat) (v : Nat) : Nat := toUnsigned 32 (toSigned from_bits v)

/-- The `u64` left shift `a << b`. The C++ shift has no defined result when the shift
amount is not smaller than the width of the left operand. -/
def ShlU64 (a b : Nat) : Option Nat :=
  if b < 64 then some ((a * 2 ^ b) % 2 ^ 64) else none

/-! ## Values -/

/-- Operand widths. -/
inductive RegSize
  | RegSize_8
  | RegSize_16
  | RegSize_32
  | RegSize_64
  deriving DecidableEq, Repr

/-- Number of bits of a width. -/
def RegSize.bits : RegSize → Nat
  | .RegSize_8 => 8
  | .RegSize_16 => 16
  | .RegSize_32 => 32
  | .RegSize_64 => 64

/-- Host register handle. -/
abbrev HostReg := Nat

/-- Guest register index (`Reg`). -/
abbrev Reg := Nat

/-- Modelled from the spec: the kind of a `Value` (the header declaring `Value` is absent):
a compile-time constant, a value resident in a host register, or the invalid value `Value{}`. -/
inductive ValueKind
  | Invalid
  | Constant
  | HostRegister
  deriving DecidableEq, Repr

/-- Modelled from the spec: `Value`, a tagged operand (the header declaring it is absent):
kind, width, constant payload (`u64`), host-register handle, scratch flag and dirty flag. -/
structure Value where
  kind : ValueKind
  size : RegSize
  constant_value : Nat
  host_reg : HostReg
  scratch : Bool
  dirty : Bool
  deriving DecidableEq, Repr

namespace Value

/-- The default-constructed `Value{}`. -/
def invalid : Value :=
  { kind := .Invalid, size := .RegSize_8, constant_value := 0, host_reg := 0,
    scratch := false, dirty := false }

/-- The test `IsConstant()`. -/
def IsConstant (v : Value) : Bool := v.kind == .Constant

/-- The test `IsInHostRegister()`. -/
def IsInHostRegister (v : Value) : Bool := v.kind == .HostRegister

/-- The test `IsScratch()`. -/
def IsScratch (v : Value) : Bool := v.scratch

/-- A constant of the given width and payload. -/
def FromConstant (cv : Nat) (size : RegSize) : Value :=
  { kind := .Constant, size := size, constant_value := cv, host_reg := 0,
    scratch := false, dirty := false }

/-- `Value::FromConstantU8`: the argument is converted to the `u8` parameter. -/
def FromConstantU8 (v : Nat) : Value := FromConstant (v % 2 ^ 8) .RegSize_8

/-- `Value::FromConstantU16`: the argument is converted to the `u16` parameter. -/
def FromConstantU16 (v : Nat) : Value := FromConstant (v % 2 ^ 16) .RegSize_16

/-- `Value::FromConstantU32`: the argument is converted to the `u32` parameter. -/
def FromConstantU32 (v : Nat) : Value := FromConstant (v % 2 ^ 32) .RegSize_32

/-- `Value::FromConstantU64`: the argument is converted to the `u64` parameter. -/
def FromConstantU64 (v : Nat) : Value := FromConstant (v % 2 ^ 64) .RegSize_64

/-- A scratch value resident in host register `r`. -/
def scratchIn (r : HostReg) (size : RegSize) : Value :=
  { kind := .HostRegister, size := size, constant_value := 0, host_reg := r,
    scratch := true, dirty := false }

end Value

/-! ## Guest instructions and blocks -/

/-- Modelled from the spec: a 32-bit instruction word (`cpu_types.h` is absent); the fields
follow the MIPS I immediate layout: opcode in bits 26..31, `rt` in bits 16..20, the
immediate in bits 0..15. -/
structure Instruction where
  bits : Nat
  deriving DecidableEq, Repr

/-- The opcode field `instruction.op`. -/
def Instruction.op (i : Instruction) : Nat := (i.bits / 2 ^ 26) % 2 ^ 6

/-- The destination register field `instruction.i.rt`. -/
def Instruction.rt (i : Instruction) : Reg := (i.bits / 2 ^ 16) % 2 ^ 5

/-- The immediate field `instruction.i.imm`. -/
def Instruction.imm (i : Instruction) : Nat := i.bits % 2 ^ 16

/-- The accessor `instruction.i.imm_zext32()`: the immediate zero-extended to `u32`. -/
def Instruction.imm_zext32 (i : Instruction) : Nat := ZeroExtend32 16 i.imm

/-- Modelled from the spec: the opcode number of `InstructionOp::lui` (MIPS I). -/
def InstructionOp_lui : Nat := 15

/-- Modelled from the spec: `INSTRUCTION_SIZE`, the fixed instruction width in bytes. -/
def INSTRUCTION_SIZE : Nat := 4

/-- Modelled from the spec: `Reg::count`, the number of guest registers
(32 general registers, hi, lo, pc, npc); no result depends on the number. -/
def Reg_count : Nat := 36

/-- Modelled from the spec: one decoded instruction of a block. -/
structure CodeBlockInstruction where
  instruction : Instruction
  pc : Nat
  is_branch_delay_slot : Bool
  deriving DecidableEq, Repr

/-- Modelled from the spec: the key of a block. -/
structure CodeBlockKey where
  user_mode : Bool
  aligned_pc : Nat
  deriving DecidableEq, Repr

/-- Modelled from the spec: a block, its key and its instructions in program order. -/
structure CodeBlock where
  key : CodeBlockKey
  instructions : List CodeBlockInstruction
  deriving DecidableEq, Repr

/-! ## Host operations -/

/-- Fields of the `Core` structure addressed by `offsetof(Core, ...)`. -/
inductive CoreField
  | m_exception_raised
  | m_next_instruction_is_branch_delay_slot
  | m_branch_was_taken
  | m_current_instruction_was_branch_taken
  | m_current_instruction_in_branch_delay_slot
  | m_regs_pc
  | m_regs_npc
  | m_current_instruction_pc
  | m_pending_ticks
  | m_downcount
  | m_next_load_delay_reg
  | m_load_delay_reg
  | m_next_load_delay_old_value
  | m_load_delay_old_value
  | m_current_instruction_bits
  deriving DecidableEq, Repr

/-- Modelled from the spec: the emission interface. Each `Emit...` primitive of the opaque
backend appends one abstract host operation to the code buffer. -/
inductive HostOp
  | BeginBlock
  | EndBlock
  | CopyValue (to_reg : HostReg) (value : Value)
  | SignExtend (to_reg : HostReg) (to_size : RegSize) (from_reg : HostReg) (from_size : RegSize)
  | ZeroExtend (to_reg : HostReg) (to_size : RegSize) (from_reg : HostReg) (from_size : RegSize)
  | Add (to_reg : HostReg) (value : Value)
  | Shl (to_reg : HostReg) (size : RegSize) (amount : Value)
  | LoadCPUStructField (host_reg : HostReg) (size : RegSize) (field : CoreField)
  | StoreCPUStructField (field : CoreField) (value : Value)
  | AddCPUStructField (field : CoreField) (value : Value)
  | StoreGuestRegister (reg : Reg) (value : Value)
  | FunctionCallInterpretInstruction (return_value : Option Value)
  | BlockExitOnBool (value : Value)
  deriving DecidableEq, Repr

/-- The field of the `Core` structure that a host operation loads, stores or adds to. -/
def HostOp.field : HostOp → Option CoreField
  | .LoadCPUStructField _ _ f => some f
  | .StoreCPUStructField f _ => some f
  | .AddCPUStructField f _ => some f
  | _ => none

/-- The host operation writes (stores or adds to) the given field of `Core`. -/
def HostOp.writesField (f : CoreField) : HostOp → Bool
  | .StoreCPUStructField f1 _ => f1 == f
  | .AddCPUStructField f1 _ => f1 == f
  | _ => false

/-- The host operation writes pc, npc, the pending-ticks counter or the downcount. -/
def HostOp.writesPcOrCycles (op : HostOp) : Bool :=
  op.writesField .m_regs_pc || op.writesField .m_regs_npc ||
    op.writesField .m_pending_ticks || op.writesField .m_downcount

/-- The host operation is the call of the interpreter. -/
def HostOp.isInterpreterCall : HostOp → Bool
  | .FunctionCallInterpretInstruction _ => true
  | _ => false

/-- The host operation is a block exit. -/
def HostOp.isBlockExit : HostOp → Bool
  | .BlockExitOnBool _ => true
  | _ => false

/-- The host operation loads, stores or adds to the branch-was-taken field or the
current-instruction-was-branch-taken field. -/
def HostOp.accessesBranchTaken (op : HostOp) : Bool :=
  op.field == some .m_branch_was_taken ||
    op.field == some .m_current_instruction_was_branch_taken

/-- The host operation writes current-instruction-pc, pc, npc or the pending-ticks counter. -/
def HostOp.writesPcOrTicks (op : HostOp) : Bool :=
  op.writesField .m_current_instruction_pc || op.writesField .m_regs_pc ||
    op.writesField .m_regs_npc || op.writesField .m_pending_ticks

/-! ## Register cache and code generator state -/

/-- Modelled from the spec: the register cache (its source is absent): the host registers
that are allocated, and the guest registers that are bound to a `Value`. -/
structure RegisterCache where
  m_host_register_allocated : List HostReg
  m_guest_reg_cache : List (Reg × Value)
  deriving DecidableEq, Repr

/-- The host registers that back the bindings of a list of guest register bindings. -/
def boundOf (l : List (Reg × Value)) : List HostReg :=
  (l.filter (fun b => b.2.IsInHostRegister)).map (fun b => b.2.host_reg)

/-- The host registers that back a guest register binding. -/
def RegisterCache.boundHostRegs (rc : RegisterCache) : List HostReg :=
  boundOf rc.m_guest_reg_cache

/-- The binding of a guest register, when it has one. -/
def RegisterCache.binding (rc : RegisterCache) (reg : Reg) : Option Value :=
  rc.m_guest_reg_cache.lookup reg

/-- The members of `CodeGenerator` that the translation reads and writes. The header that
declares them is absent: `m_delayed_pc_add` is taken as a `u32`, `m_delayed_cycles_add` as a
`TickCount` (`s32`), the block pointers as optional (`none` is `nullptr`, the instruction
pointers are indices into the block), and `m_emit` as the code emitted so far. -/
structure CodeGenerator where
  m_block : Option CodeBlock
  m_block_start : Option Nat
  m_block_end : Option Nat
  m_register_cache : RegisterCache
  m_emit : List HostOp
  m_operand_memory_addresses : List Value
  m_delayed_pc_add : Nat
  m_delayed_cycles_add : Int
  m_branch_was_taken_dirty : Bool
  m_current_instruction_was_branch_taken_dirty : Bool
  m_current_instruction_in_branch_delay_slot_dirty : Bool
  m_load_delay_dirty : Bool
  m_next_load_delay_dirty : Bool
  deriving DecidableEq, Repr

namespace CodeGenerator

/-! ### Emission primitives -/

/-- Append one host operation to the code buffer. -/
def Emit (op : HostOp) (g : CodeGenerator) : CodeGenerator :=
  { g with m_emit := g.m_emit ++ [op] }

/-- The primitive `EmitBeginBlock()`. -/
def EmitBeginBlock (g : CodeGenerator) : CodeGenerator := g.Emit .BeginBlock

/-- The primitive `EmitEndBlock()`. -/
def EmitEndBlock (g : CodeGenerator) : CodeGenerator := g.Emit .EndBlock

/-- The primitive `EmitCopyValue(to_reg, value)`. -/
def EmitCopyValue (to_reg : HostReg) (value : Value) (g : CodeGenerator) : CodeGenerator :=
  g.Emit (.CopyValue to_reg value)

/-- The primitive `EmitSignExtend(to_reg, to_size, from_reg, from_size)`. -/
def EmitSignExtend (to_reg : HostReg) (to_size : RegSize) (from_reg : HostReg)
    (from_size : RegSize) (g : CodeGenerator) : CodeGenerator :=
  g.Emit (.SignExtend to_reg to_size from_reg from_size)

/-- The primitive `EmitZeroExtend(to_reg, to_size, from_reg, from_size)`. -/
def EmitZeroExtend (to_reg : HostReg) (to_size : RegSize) (from_reg : HostReg)
    (from_size : RegSize) (g : CodeGenerator) : CodeGenerator :=
  g.Emit (.ZeroExtend to_reg to_size from_reg from_size)

/-- The primitive `EmitAdd(to_reg, value)`. -/
def EmitAdd (to_reg : HostReg) (value : Value) (g : CodeGenerator) : CodeGenerator :=
  g.Emit (.Add to_reg value)

/-- The primitive `EmitShl(to_reg, size, amount)`. -/
def EmitShl (to_reg : HostReg) (size : RegSize) (amount : Value) (g : CodeGenerator) :
    CodeGenerator :=
  g.Emit (.Shl to_reg size amount)

/-- The primitive `EmitLoadCPUStructField(host_reg, size, offset)`. -/
def EmitLoadCPUStructField (host_reg : HostReg) (size : RegSize) (field : CoreField)
    (g : CodeGenerator) : CodeGenerator :=
  g.Emit (.LoadCPUStructField host_reg size field)

/-- The primitive `EmitStoreCPUStructField(offset, value)`. -/
def EmitStoreCPUStructField (field : CoreField) (value : Value) (g : CodeGenerator) :
    CodeGenerator :=
  g.Emit (.StoreCPUStructField field value)

/-- The primitive `EmitAddCPUStructField(offset, value)`. -/
def EmitAddCPUStructField (field : CoreField) (value : Value) (g : CodeGenerator) :
    CodeGenerator :=
  g.Emit (.AddCPUStructField field value)

/-- The primitive `EmitFunctionCall(return_value, &Thunks::InterpretInstruction, cpu)`. -/
def EmitFunctionCall (return_value : Option Value) (g : CodeGenerator) : CodeGenerator :=
  g.Emit (.FunctionCallInterpretInstruction return_value)

/-- The primitive `EmitBlockExitOnBool(value)`. -/
def EmitBlockExitOnBool (value : Value) (g : CodeGenerator) : CodeGenerator :=
  g.Emit (.BlockExitOnBool value)

/-! ### Register cache -/

/-- Modelled from the spec: `RegisterCache::GetUsedHostRegisters` (the register cache source
is absent), the number of host registers that are allocated. -/
def GetUsedHostRegisters (g : CodeGenerator) : Nat :=
  g.m_register_cache.m_host_register_allocated.length

/-- Modelled from the spec: allocation of a host register (the register cache source is
absent): a handle that is not allocated is marked allocated. -/
def AllocateHostReg (g : CodeGenerator) : HostReg × CodeGenerator :=
  let r := g.m_register_cache.m_host_register_allocated.foldr max 0 + 1
  (r, { g with m_register_cache :=
          { g.m_register_cache with
            m_host_register_allocated := r :: g.m_register_cache.m_host_register_allocated } })

/-- Modelled from the spec: the release of a host register (the register cache source is
absent). -/
def FreeHostReg (r : HostReg) (g : CodeGenerator) : CodeGenerator :=
  { g with m_register_cache :=
      { g.m_register_cache with
        m_host_register_allocated := g.m_register_cache.m_host_register_allocated.erase r } }

/-- Modelled from the spec: `RegisterCache::AllocateScratch(size)` (the register cache source
is absent): a freshly allocated host register as a scratch `Value` of the given width. -/
def AllocateScratch (size : RegSize) (g : CodeGenerator) : Value × CodeGenerator :=
  (Value.scratchIn g.AllocateHostReg.1 size, g.AllocateHostReg.2)

/-- Modelled from the spec: the release of a `Value` back to the cache, which the destructor
of `Value` runs at the end of the scope of a local: a scratch host register is freed, any
other value owns no register. -/
def ReleaseValue (v : Value) (g : CodeGenerator) : CodeGenerator :=
  if v.IsInHostRegister && v.IsScratch then g.FreeHostReg v.host_reg else g

/-- Modelled from the spec: invalidation of one guest register binding (the register cache
source is absent): the binding is dropped and the host register that backs it is freed. -/
def InvalidateGuestRegister (reg : Reg) (g : CodeGenerator) : CodeGenerator :=
  match g.m_register_cache.binding reg with
  | none => g
  | some v =>
    let g1 := if v.IsInHostRegister then g.FreeHostReg v.host_reg else g
    { g1 with m_register_cache :=
        { g1.m_register_cache with
          m_guest_reg_cache := g1.m_register_cache.m_guest_reg_cache.eraseP (fun b => b.1 == reg) } }

/-- Modelled from the spec: `RegisterCache::WriteGuestRegister(reg, value)` (the register
cache source is absent): the previous binding of `reg` is invalidated and `reg` is bound to
`value`, marked dirty; a constant needs no host register and its store is deferred. -/
def WriteGuestRegister (reg : Reg) (value : Value) (g : CodeGenerator) : CodeGenerator :=
  let g1 := g.InvalidateGuestRegister reg
  { g1 with m_register_cache :=
      { g1.m_register_cache with
        m_guest_reg_cache :=
          (reg, { value with dirty := true, scratch := false }) ::
            g1.m_register_cache.m_guest_reg_cache } }

/-- Modelled from the spec: the flush of one binding inside
`RegisterCache::FlushAllGuestRegisters(invalidate, clear_dirty)`: a dirty binding is written
back to the guest register, and with `invalidate` the host register that backs it is freed. -/
def FlushGuestRegister (invalidate : Bool) (b : Reg × Value) (g : CodeGenerator) :
    CodeGenerator :=
  let g1 := if b.2.dirty then g.Emit (.StoreGuestRegister b.1 b.2) else g
  if invalidate && b.2.IsInHostRegister then g1.FreeHostReg b.2.host_reg else g1

/-- Modelled from the spec: `RegisterCache::FlushAllGuestRegisters(invalidate, clear_dirty)`
(the register cache source is absent): every binding is flushed in turn; with `invalidate`
no binding remains, otherwise the bindings stay and `clear_dirty` marks them clean. -/
def FlushAllGuestRegisters (invalidate clear_dirty : Bool) (g : CodeGenerator) : CodeGenerator :=
  let bindings := g.m_register_cache.m_guest_reg_cache
  let g1 := bindings.foldl (fun acc b => FlushGuestRegister invalidate b acc) g
  { g1 with m_register_cache :=
      { g1.m_register_cache with
        m_guest_reg_cache :=
          if invalidate then []
          else if clear_dirty then bindings.map (fun b => (b.1, { b.2 with dirty := false }))
          else bindings } }

/-! ### Value conversion and arithmetic -/

/-- The member `CodeGenerator::ConvertValueSize(value, size, sign_extend)`; `none` is the
`UnreachableCode()` panic. -/
def ConvertValueSize (value : Value) (size : RegSize) (sign_extend : Bool) (g : CodeGenerator) :
    Option (Value × CodeGenerator) :=
  if value.IsConstant then
    -- compile-time conversion
    match size with
    | .RegSize_8 => some (Value.FromConstantU8 (value.constant_value &&& 0xFF), g)
    | .RegSize_16 =>
      match value.size with
      | .RegSize_8 =>
        some (Value.FromConstantU16
          (if sign_extend then SignExtend16 8 (Truncate8 value.constant_value)
           else ZeroExtend16 8 (Truncate8 value.constant_value)), g)
      | _ => some (Value.FromConstantU16 (value.constant_value &&& 0xFFFF), g)
    | .RegSize_32 =>
      match value.size with
      | .RegSize_8 =>
        some (Value.FromConstantU32
          (if sign_extend then SignExtend32 8 (Truncate8 value.constant_value)
           else ZeroExtend32 8 (Truncate8 value.constant_value)), g)
      | .RegSize_16 =>
        some (Value.FromConstantU32
          (if sign_extend then SignExtend32 16 (Truncate16 value.constant_value)
           else ZeroExtend32 16 (Truncate16 value.constant_value)), g)
      | .RegSize_32 => some (value, g)
      | _ => none
    | _ => none
  else
    let new_value := (g.AllocateScratch size).1
    let g1 := (g.AllocateScratch size).2
    if size.bits < value.size.bits then
      some (new_value, g1.EmitCopyValue new_value.host_reg value)
    else if sign_extend then
      some (new_value, g1.EmitSignExtend new_value.host_reg size value.host_reg value.size)
    else
      some (new_value, g1.EmitZeroExtend new_value.host_reg size value.host_reg value.size)

/-- The member `CodeGenerator::AddValues(lhs, rhs)`. -/
def AddValues (lhs rhs : Value) (g : CodeGenerator) : Value × CodeGenerator :=
  if lhs.IsConstant && rhs.IsConstant then
    -- compile-time
    let new_cv := (lhs.constant_value + rhs.constant_value) % 2 ^ 64
    match lhs.size with
    | .RegSize_8 => (Value.FromConstantU8 (Truncate8 new_cv), g)
    | .RegSize_16 => (Value.FromConstantU16 (Truncate16 new_cv), g)
    | .RegSize_32 => (Value.FromConstantU32 (Truncate32 new_cv), g)
    | .RegSize_64 => (Value.FromConstantU64 new_cv, g)
  else
    let res := (g.AllocateScratch lhs.size).1
    let g1 := (g.AllocateScratch lhs.size).2
    let g2 := g1.EmitCopyValue res.host_reg lhs
    (res, g2.EmitAdd res.host_reg rhs)

/-- The member `CodeGenerator::ShlValues(lhs, rhs)`; `none` is a `u64` shift without a
defined result. -/
def ShlValues (lhs rhs : Value) (g : CodeGenerator) : Option (Value × CodeGenerator) :=
  if lhs.IsConstant && rhs.IsConstant then
    -- compile-time
    match ShlU64 lhs.constant_value rhs.constant_value with
    | none => none
    | some new_cv =>
      match lhs.size with
      | .RegSize_8 => some (Value.FromConstantU8 (Truncate8 new_cv), g)
      | .RegSize_16 => some (Value.FromConstantU16 (Truncate16 new_cv), g)
      | .RegSize_32 => some (Value.FromConstantU32 (Truncate32 new_cv), g)
      | .RegSize_64 => some (Value.FromConstantU64 new_cv, g)
  else
    let res := (g.AllocateScratch lhs.size).1
    let g1 := (g.AllocateScratch lhs.size).2
    let g2 := g1.EmitCopyValue res.host_reg lhs
    some (res, g2.EmitShl res.host_reg res.size rhs)

/-! ### Block and instruction compilation -/

/-- The member `CodeGenerator::BlockPrologue()`. -/
def BlockPrologue (g : CodeGenerator) : CodeGenerator :=
  g.EmitStoreCPUStructField .m_exception_raised (Value.FromConstantU8 0)

/-- The member `CodeGenerator::SyncInstructionPointer()`. -/
def SyncInstructionPointer (g : CodeGenerator) : CodeGenerator :=
  let g1 :=
    if g.m_delayed_pc_add > 0 then
      { g.EmitAddCPUStructField .m_regs_npc (Value.FromConstantU32 g.m_delayed_pc_add) with
        m_delayed_pc_add := 0 }
    else g
  if g1.m_delayed_cycles_add > 0 then
    let g2 := g1.EmitAddCPUStructField .m_pending_ticks
      (Value.FromConstantU32 (toU32 g1.m_delayed_cycles_add))
    let g3 := g2.EmitAddCPUStructField .m_downcount
      (Value.FromConstantU32 (notU32 (toU32 (g1.m_delayed_cycles_add - 1))))
    { g3 with m_delayed_cycles_add := 0 }
  else g1

/-- The member `CodeGenerator::BlockEpilogue()`. -/
def BlockEpilogue (g : CodeGenerator) : CodeGenerator :=
  let g1 := g.FlushAllGuestRegisters true false
  let g2 := g1.SyncInstructionPointer
  g2.EmitStoreCPUStructField .m_next_instruction_is_branch_delay_slot (Value.FromConstantU8 0)

/-- The first part of `CodeGenerator::InstructionPrologue`, under the comment
`reset dirty flags`: the two statements that write the branch-taken fields and the
branch-delay-slot field lazily. -/
def InstructionPrologue_resetDirtyFlags (cbi : CodeBlockInstruction) (g : CodeGenerator) :
    CodeGenerator :=
  let g1 :=
    if g.m_branch_was_taken_dirty then
      let temp := (g.AllocateScratch .RegSize_8).1
      let a := (g.AllocateScratch .RegSize_8).2
      let a := a.EmitLoadCPUStructField temp.host_reg .RegSize_8 .m_branch_was_taken
      let a := a.EmitStoreCPUStructField .m_current_instruction_was_branch_taken temp
      let a := a.EmitStoreCPUStructField .m_branch_was_taken (Value.FromConstantU8 0)
      let a := { a with m_current_instruction_was_branch_taken_dirty := true,
                        m_branch_was_taken_dirty := false }
      a.ReleaseValue temp
    else if g.m_current_instruction_was_branch_taken_dirty then
      let a := g.EmitStoreCPUStructField .m_current_instruction_was_branch_taken
        (Value.FromConstantU8 0)
      { a with m_current_instruction_was_branch_taken_dirty := false }
    else g
  if g1.m_current_instruction_in_branch_delay_slot_dirty && !cbi.is_branch_delay_slot then
    let a := g1.EmitStoreCPUStructField .m_current_instruction_in_branch_delay_slot
      (Value.FromConstantU8 0)
    { a with m_current_instruction_in_branch_delay_slot_dirty := false }
  else g1

/-- The last part of `CodeGenerator::InstructionPrologue`, after the deferral test: the
synchronisation of the delay-slot flag, pc, npc, pending ticks and downcount. -/
def InstructionPrologue_sync (cbi : CodeBlockInstruction) (cycles : Int) (g : CodeGenerator) :
    CodeGenerator :=
  let g3 :=
    if cbi.is_branch_delay_slot then
      let a := g.EmitStoreCPUStructField .m_current_instruction_in_branch_delay_slot
        (Value.FromConstantU8 1)
      { a with m_current_instruction_in_branch_delay_slot_dirty := true }
    else g
  -- m_current_instruction_pc = m_regs.pc
  let pc_value := (g3.AllocateScratch .RegSize_32).1
  let g4 := (g3.AllocateScratch .RegSize_32).2
  let g4 := g4.EmitLoadCPUStructField pc_value.host_reg .RegSize_32 .m_regs_pc
  let g4 := g4.EmitStoreCPUStructField .m_current_instruction_pc pc_value
  let g4 := g4.ReleaseValue pc_value
  -- m_regs.pc = m_regs.npc
  let npc_value := (g4.AllocateScratch .RegSize_32).1
  let g5 := (g4.AllocateScratch .RegSize_32).2
  let g5 := g5.EmitLoadCPUStructField npc_value.host_reg .RegSize_32 .m_regs_npc
  let g5 := g5.EmitStoreCPUStructField .m_regs_pc npc_value
  let g5 := g5.ReleaseValue npc_value
  -- m_regs.npc += INSTRUCTION_SIZE
  let g6 := g5.EmitAddCPUStructField .m_regs_npc
    (Value.FromConstantU32 (g5.m_delayed_pc_add + INSTRUCTION_SIZE))
  let g6 := { g6 with m_delayed_pc_add := 0 }
  -- Add pending cycles for this instruction.
  let g7 := g6.EmitAddCPUStructField .m_pending_ticks
    (Value.FromConstantU32 (toU32 (g6.m_delayed_cycles_add + cycles)))
  let g7 := g7.EmitAddCPUStructField .m_downcount
    (Value.FromConstantU32 (notU32 (toU32 (g7.m_delayed_cycles_add + cycles - 1))))
  { g7 with m_delayed_cycles_add := 0 }

/-- The member `CodeGenerator::InstructionPrologue(cbi, cycles, force_sync)`: the reset of
the dirty flags, the deferral test, and the synchronisation. The function
`CanInstructionTrap` is declared outside the file and is a parameter; `none` is the
dereference of a null `m_block`. -/
def InstructionPrologue (CanInstructionTrap : Instruction → Bool → Bool)
    (cbi : CodeBlockInstruction) (cycles : Int) (force_sync : Bool) (g : CodeGenerator) :
    Option CodeGenerator :=
  let g2 := g.InstructionPrologue_resetDirtyFlags cbi
  match g2.m_block with
  | none => none
  | some block =>
    if !CanInstructionTrap cbi.instruction block.key.user_mode && !force_sync then
      -- Defer updates for non-faulting instructions.
      some { g2 with
        m_delayed_pc_add := (g2.m_delayed_pc_add + INSTRUCTION_SIZE) % 2 ^ 32,
        m_delayed_cycles_add := wrapS32 (g2.m_delayed_cycles_add + cycles) }
    else
      some (g2.InstructionPrologue_sync cbi cycles)

/-- The member `CodeGenerator::InstructionEpilogue(cbi)`. -/
def InstructionEpilogue (_cbi : CodeBlockInstruction) (g : CodeGenerator) : CodeGenerator :=
  -- copy if the previous instruction was a load, reset the current value on the next instruction
  if g.m_load_delay_dirty then
    -- cpu->m_load_delay_reg = cpu->m_next_load_delay_reg;
    -- cpu->m_next_load_delay_reg = Reg::count;
    let temp := (g.AllocateScratch .RegSize_8).1
    let a := (g.AllocateScratch .RegSize_8).2
    let a := a.EmitLoadCPUStructField temp.host_reg .RegSize_8 .m_next_load_delay_reg
    let a := a.EmitStoreCPUStructField .m_next_load_delay_reg (Value.FromConstantU8 Reg_count)
    let a := a.EmitStoreCPUStructField .m_load_delay_reg temp
    let a := a.ReleaseValue temp
    -- cpu->m_load_delay_old_value = cpu->m_next_load_delay_old_value;
    -- cpu->m_next_load_delay_old_value = 0;
    let temp2 := (a.AllocateScratch .RegSize_32).1
    let b := (a.AllocateScratch .RegSize_32).2
    let b := b.EmitLoadCPUStructField temp2.host_reg .RegSize_32 .m_next_load_delay_old_value
    let b := b.EmitStoreCPUStructField .m_next_load_delay_old_value (Value.FromConstantU32 0)
    let b := b.EmitStoreCPUStructField .m_load_delay_old_value temp2
    let b := b.ReleaseValue temp2
    { b with m_load_delay_dirty := false, m_next_load_delay_dirty := true }
  else if g.m_next_load_delay_dirty then
    -- cpu->m_load_delay_reg = Reg::count;
    -- cpu->m_load_delay_old_value = 0;
    let a := g.EmitStoreCPUStructField .m_load_delay_reg (Value.FromConstantU8 Reg_count)
    let a := a.EmitStoreCPUStructField .m_load_delay_old_value (Value.FromConstantU32 0)
    { a with m_next_load_delay_dirty := false }
  else g

/-- The statement of `CodeGenerator::Compile_Fallback` under the comment
`emit the function call`; `can_trap` is the value of
`CanInstructionTrap(cbi.instruction, m_block->key.user_mode)`. -/
def Compile_Fallback_call (can_trap : Bool) (g : CodeGenerator) : CodeGenerator :=
  if can_trap then
    let return_value := (g.AllocateScratch .RegSize_8).1
    let a := (g.AllocateScratch .RegSize_8).2
    let a := a.EmitFunctionCall (some return_value)
    let a := a.EmitBlockExitOnBool return_value
    a.ReleaseValue return_value
  else
    g.EmitFunctionCall none

/-- The member `CodeGenerator::Compile_Fallback(cbi)`. -/
def Compile_Fallback (CanInstructionTrap : Instruction → Bool → Bool)
    (cbi : CodeBlockInstruction) (g : CodeGenerator) : Option (Bool × CodeGenerator) :=
  match InstructionPrologue CanInstructionTrap cbi 1 true g with
  | none => none
  | some g1 =>
    -- flush and invalidate all guest registers, since the fallback could change any of them
    let g2 := g1.FlushAllGuestRegisters true true
    let g3 := g2.EmitStoreCPUStructField .m_current_instruction_bits
      (Value.FromConstantU32 cbi.instruction.bits)
    -- emit the function call
    match g3.m_block with
    | none => none
    | some block =>
      let g4 := g3.Compile_Fallback_call (CanInstructionTrap cbi.instruction block.key.user_mode)
      let g5 := { g4 with m_current_instruction_in_branch_delay_slot_dirty := true,
                          m_branch_was_taken_dirty := true,
                          m_load_delay_dirty := true }
      some (true, g5.InstructionEpilogue cbi)

/-- The member `CodeGenerator::Compile_lui(cbi)`. -/
def Compile_lui (CanInstructionTrap : Instruction → Bool → Bool)
    (cbi : CodeBlockInstruction) (g : CodeGenerator) : Option (Bool × CodeGenerator) :=
  match InstructionPrologue CanInstructionTrap cbi 1 true g with
  | none => none
  | some g1 =>
    -- rt <- (imm << 16)
    let g2 := g1.WriteGuestRegister cbi.instruction.rt
      (Value.FromConstantU32 ((cbi.instruction.imm_zext32 * 2 ^ 16) % 2 ^ 32))
    some (true, g2.InstructionEpilogue cbi)

/-- Modelled from the spec: `Value::ReleaseAndClear()` on every temporary effective address
(the header declaring it is absent): each one is released back to the register cache and
becomes the invalid value. -/
def ReleaseOperandMemoryAddresses (g : CodeGenerator) : CodeGenerator :=
  let g1 := g.m_operand_memory_addresses.foldl (fun acc v => acc.ReleaseValue v) g
  { g1 with m_operand_memory_addresses := g.m_operand_memory_addresses.map (fun _ => Value.invalid) }

/-- The member `CodeGenerator::CompileInstruction(instruction)`. -/
def CompileInstruction (CanInstructionTrap : Instruction → Bool → Bool)
    (instruction : CodeBlockInstruction) (g : CodeGenerator) : Option (Bool × CodeGenerator) :=
  let r :=
    if instruction.instruction.op = InstructionOp_lui then
      Compile_lui CanInstructionTrap instruction g
    else
      Compile_Fallback CanInstructionTrap instruction g
  match r with
  | none => none
  | some (result, g1) =>
    -- release temporary effective addresses
    some (result, g1.ReleaseOperandMemoryAddresses)

/-- The first statements of `CodeGenerator::CompileBlock`, up to the instruction loop. -/
def CompileBlock_begin (block : CodeBlock) (g : CodeGenerator) : CodeGenerator :=
  let g1 := { g with
    m_block := some block,
    m_block_start := some 0,
    m_block_end := some block.instructions.length }
  let g2 := { g1 with
    m_current_instruction_in_branch_delay_slot_dirty := true,
    m_branch_was_taken_dirty := true,
    m_current_instruction_was_branch_taken_dirty := false,
    m_load_delay_dirty := true }
  g2.EmitBeginBlock.BlockPrologue

/-- The instruction loop of `CodeGenerator::CompileBlock`, from `cbi` to `m_block_end`, over
the instruction compiler `compile` that the loop calls as `CompileInstruction(*cbi)`: the
result is `false` at the first instruction that fails to compile, and no later instruction
is compiled. -/
def CompileBlock_loop_with
    (compile : CodeBlockInstruction → CodeGenerator → Option (Bool × CodeGenerator)) :
    List CodeBlockInstruction → CodeGenerator → Option (Bool × CodeGenerator)
  | [], g => some (true, g)
  | cbi :: rest, g =>
    match compile cbi g with
    | none => none
    | some (false, g1) => some (false, g1)
    | some (true, g1) => CompileBlock_loop_with compile rest g1

/-- The instruction loop of `CodeGenerator::CompileBlock` as the file has it: the loop over
the member `CompileInstruction`. -/
def CompileBlock_loop (CanInstructionTrap : Instruction → Bool → Bool) :
    List CodeBlockInstruction → CodeGenerator → Option (Bool × CodeGenerator) :=
  CompileBlock_loop_with (CompileInstruction CanInstructionTrap)

/-- Modelled from the spec: `FinalizeBlock(out_function_ptr, out_code_size)` of the absent
backend: the emitted code becomes the function and its length the code size. -/
def FinalizeBlock (g : CodeGenerator) : List HostOp × Nat := (g.m_emit, g.m_emit.length)

/-- What `CompileBlock` hands back: the returned flag, the two output parameters (`none`
when they are left unwritten) and the generator afterwards. -/
structure CompileBlockResult where
  result : Bool
  out_function_ptr : Option (List HostOp)
  out_code_size : Option Nat
  gen : CodeGenerator
  deriving DecidableEq, Repr

/-- The body of the member `CodeGenerator::CompileBlock(block, out_function_ptr,
out_code_size)`, over the instruction compiler `compile` that it calls as
`CompileInstruction(*cbi)`: the start of the block, the instruction loop, and then either
the failure return (the three block pointers cleared, the output parameters not written) or
the epilogue, `FinalizeBlock` and the success return. -/
def CompileBlock_with
    (compile : CodeBlockInstruction → CodeGenerator → Option (Bool × CodeGenerator))
    (block : CodeBlock) (g : CodeGenerator) : Option CompileBlockResult :=
  match CompileBlock_loop_with compile block.instructions (g.CompileBlock_begin block) with
  | none => none
  | some (false, g1) =>
    some { result := false, out_function_ptr := none, out_code_size := none,
           gen := { g1 with m_block_end := none, m_block_start := none, m_block := none } }
  | some (true, g1) =>
    let g2 := g1.BlockEpilogue.EmitEndBlock
    some { result := true, out_function_ptr := some (FinalizeBlock g2).1,
           out_code_size := some (FinalizeBlock g2).2,
           gen := { g2 with m_block_end := none, m_block_start := none, m_block := none } }

/-- The member `CodeGenerator::CompileBlock(block, out_function_ptr, out_code_size)` as the
file has it: the body over the member `CompileInstruction`. -/
def CompileBlock (CanInstructionTrap : Instruction → Bool → Bool) (block : CodeBlock)
    (g : CodeGenerator) : Option CompileBlockResult :=
  CompileBlock_with (CompileInstruction CanInstructionTrap) block g

/-! ### Sample inputs -/

/-- A generator as constructed: no block, an empty register cache, an empty code buffer,
zero accumulators and clean flags. -/
def fresh : CodeGenerator :=
  { m_block := none, m_block_start := none, m_block_end := none,
    m_register_cache := { m_host_register_allocated := [], m_guest_reg_cache := [] },
    m_emit := [], m_operand_memory_addresses := [],
    m_delayed_pc_add := 0, m_delayed_cycles_add := 0,
    m_branch_was_taken_dirty := false,
    m_current_instruction_was_branch_taken_dirty := false,
    m_current_instruction_in_branch_delay_slot_dirty := false,
    m_load_delay_dirty := false,
    m_next_load_delay_dirty := false }

/-- The host operations that `InstructionPrologue_sync` appends to the code buffer: the store
of the delay-slot flag (for an instruction in a delay slot), the copy of pc into
current-instruction-pc, the copy of npc into pc, and the additions to npc, pending ticks
and downcount. -/
def syncCode (cbi : CodeBlockInstruction) (cycles : Int) (g : CodeGenerator) : List HostOp :=
  (if cbi.is_branch_delay_slot then
      [HostOp.StoreCPUStructField .m_current_instruction_in_branch_delay_slot
        (Value.FromConstantU8 1)]
    else []) ++
  [ .LoadCPUStructField g.AllocateHostReg.1 .RegSize_32 .m_regs_pc,
    .StoreCPUStructField .m_current_instruction_pc
      (Value.scratchIn g.AllocateHostReg.1 .RegSize_32),
    .LoadCPUStructField g.AllocateHostReg.1 .RegSize_32 .m_regs_npc,
    .StoreCPUStructField .m_regs_pc (Value.scratchIn g.AllocateHostReg.1 .RegSize_32),
    .AddCPUStructField .m_regs_npc
      (Value.FromConstantU32 (g.m_delayed_pc_add + INSTRUCTION_SIZE)),
    .AddCPUStructField .m_pending_ticks
      (Value.FromConstantU32 (toU32 (g.m_delayed_cycles_add + cycles))),
    .AddCPUStructField .m_downcount
      (Value.FromConstantU32 (notU32 (toU32 (g.m_delayed_cycles_add + cycles - 1)))) ]

/-- The generator in `Compile_Fallback` just before the epilogue, for a generator whose
`m_block` is `block`: prologue, flush, store of the instruction bits, call, dirty flags. -/
def fallbackBody (CanInstructionTrap : Instruction → Bool → Bool)
    (cbi : CodeBlockInstruction) (block : CodeBlock) (g : CodeGenerator) : CodeGenerator :=
  let g1 := (g.InstructionPrologue_resetDirtyFlags cbi).InstructionPrologue_sync cbi 1
  let g2 := g1.FlushAllGuestRegisters true true
  let g3 := g2.EmitStoreCPUStructField .m_current_instruction_bits
    (Value.FromConstantU32 cbi.instruction.bits)
  let g4 := g3.Compile_Fallback_call (CanInstructionTrap cbi.instruction block.key.user_mode)
  { g4 with m_current_instruction_in_branch_delay_slot_dirty := true,
            m_branch_was_taken_dirty := true,
            m_load_delay_dirty := true }

/-- No host register is leaked: every allocated host register backs a guest register
binding (counted with multiplicity). A generator as constructed satisfies it. -/
def NoLeakedHostRegs (g : CodeGenerator) : Prop :=
  g.m_register_cache.m_host_register_allocated.Subperm g.m_register_cache.boundHostRegs

/-- A run of `InstructionPrologue` calls with `force_sync = false`, one per instruction with
its cycle cost, in order. -/
def prologueRun (CanInstructionTrap : Instruction → Bool → Bool) :
    List (CodeBlockInstruction × Int) → CodeGenerator → Option CodeGenerator
  | [], g => some g
  | x :: rest, g =>
    match InstructionPrologue CanInstructionTrap x.1 x.2 false g with
    | none => none
    | some g1 => prologueRun CanInstructionTrap rest g1

/-- A sample `CanInstructionTrap`: `lui` cannot trap, every other opcode can. -/
def sampleCanTrap (i : Instruction) (_in_user_mode : Bool) : Bool := i.op != InstructionOp_lui

/-- The instruction `lui $5, 0x1234` at address `0x80000000`. -/
def sampleLui : CodeBlockInstruction :=
  { instruction := { bits := 0x3C051234 }, pc := 0x80000000, is_branch_delay_slot := false }

/-- The instruction `lw $2, 0($3)` at address `0x80000004`; its opcode has no dedicated
compiler and goes through the fallback. -/
def sampleLw : CodeBlockInstruction :=
  { instruction := { bits := 0x8C620000 }, pc := 0x80000004, is_branch_delay_slot := false }

/-- The block of the two sample instructions, in kernel mode. -/
def sampleBlock : CodeBlock :=
  { key := { user_mode := false, aligned_pc := 0x80000000 },
    instructions := [sampleLui, sampleLw] }

/-- A fresh generator whose `m_block` points to the sample block. -/
def freshInBlock : CodeGenerator := { fresh with m_block := some sampleBlock }

/-- A generator whose register cache holds guest register 4 in host register 3 (dirty) and
guest register 7 as a clean constant. -/
def cachedGenerator : CodeGenerator :=
  { fresh with
    m_register_cache :=
      { m_host_register_allocated := [3],
        m_guest_reg_cache :=
          [ (4, { kind := .HostRegister, size := .RegSize_32, constant_value := 0,
                  host_reg := 3, scratch := false, dirty := true }),
            (7, Value.FromConstantU32 9) ] } }

/-- A generator left with every dirty flag set, `m_block` pointing to the sample block. -/
def allDirtyInBlock : CodeGenerator :=
  { freshInBlock with
    m_branch_was_taken_dirty := true,
    m_current_instruction_was_branch_taken_dirty := true,
    m_current_instruction_in_branch_delay_slot_dirty := true,
    m_load_delay_dirty := true,
    m_next_load_delay_dirty := true }

end CodeGenerator

/-- The two's complement sign extension of the `w1`-bit number `c` to `w0` bits, as a
natural number: `c` itself when its sign bit is clear, `c + 2^w0 - 2^w1` otherwise. -/
def signExtendSpec (w1 w0 : Nat) (c : Nat) : Nat :=
  if c < 2 ^ (w1 - 1) then c else c + 2 ^ w0 - 2 ^ w1

/-- Payload of the constant that `ConvertValueSize` is meant to produce: the low bits when
narrowing, the sign or zero extension of the low `from_bits` bits when widening. -/
def convertSpec (from_bits to_bits : Nat) (sign_extend : Bool) (c : Nat) : Nat :=
  if to_bits < from_bits then c % 2 ^ to_bits
  else if sign_extend then signExtendSpec from_bits to_bits (c % 2 ^ from_bits)
  else c % 2 ^ from_bits

end CPU.Recompiler

namespace GPU_HW

namespace HWVertex

/-- The static member `HWVertex::DecodeTexcoord(texcoord)` of `src/pse/gpu_hw.h`: the casts
to `u8` of the texture coordinate and of the coordinate shifted right by 8. -/
def DecodeTexcoord (texcoord : Nat) : Nat × Nat :=
  (texcoord % 2 ^ 8, (texcoord >>> 8) % 2 ^ 8)

/-- The static member `HWVertex::EncodeTexcoord(x, y)` of `src/pse/gpu_hw.h`; the result of
the bitwise or is converted to the `u16` return type. -/
def EncodeTexcoord (x y : Nat) : Nat :=
  (CPU.Recompiler.ZeroExtend16 8 x ||| (CPU.Recompiler.ZeroExtend16 8 y <<< 8)) % 2 ^ 16

end HWVertex

end GPU_HW

namespace CPU.Recompiler

namespace CodeGenerator

/-- The host operations that `InstructionPrologue_resetDirtyFlags` appends to the code
buffer: the lazy writes of the branch-taken fields and of the branch-delay-slot field. -/
def resetDirtyFlagsCode (cbi : CodeBlockInstruction) (g : CodeGenerator) : List HostOp :=
  (if g.m_branch_was_taken_dirty then
      [ HostOp.LoadCPUStructField g.AllocateHostReg.1 .RegSize_8 .m_branch_was_taken,
        .StoreCPUStructField .m_current_instruction_was_branch_taken
          (Value.scratchIn g.AllocateHostReg.1 .RegSize_8),
        .StoreCPUStructField .m_branch_was_taken (Value.FromConstantU8 0) ]
    else if g.m_current_instruction_was_branch_taken_dirty then
      [ HostOp.StoreCPUStructField .m_current_instruction_was_branch_taken
          (Value.FromConstantU8 0) ]
    else []) ++
  (if g.m_current_instruction_in_branch_delay_slot_dirty && !cbi.is_branch_delay_slot then
      [ HostOp.StoreCPUStructField .m_current_instruction_in_branch_delay_slot
          (Value.FromConstantU8 0) ]
    else [])

/-- The host operations that `InstructionEpilogue` appends to the code buffer. -/
def epilogueCode (g : CodeGenerator) : List HostOp :=
  if g.m_load_delay_dirty then
    [ HostOp.LoadCPUStructField g.AllocateHostReg.1 .RegSize_8 .m_next_load_delay_reg,
      .StoreCPUStructField .m_next_load_delay_reg (Value.FromConstantU8 Reg_count),
      .StoreCPUStructField .m_load_delay_reg (Value.scratchIn g.AllocateHostReg.1 .RegSize_8),
      .LoadCPUStructField g.AllocateHostReg.1 .RegSize_32 .m_next_load_delay_old_value,
      .StoreCPUStructField .m_next_load_delay_old_value (Value.FromConstantU32 0),
      .StoreCPUStructField .m_load_delay_old_value
        (Value.scratchIn g.AllocateHostReg.1 .RegSize_32) ]
  else if g.m_next_load_delay_dirty then
    [ HostOp.StoreCPUStructField .m_load_delay_reg (Value.FromConstantU8 Reg_count),
      .StoreCPUStructField .m_load_delay_old_value (Value.FromConstantU32 0) ]
  else []

/-- The host operations that `SyncInstructionPointer` appends to the code buffer. -/
def syncPointerCode (g : CodeGenerator) : List HostOp :=
  (if g.m_delayed_pc_add > 0 then
      [ HostOp.AddCPUStructField .m_regs_npc (Value.FromConstantU32 g.m_delayed_pc_add) ]
    else []) ++
  (if g.m_delayed_cycles_add > 0 then
      [ HostOp.AddCPUStructField .m_pending_ticks
          (Value.FromConstantU32 (toU32 g.m_delayed_cycles_add)),
        .AddCPUStructField .m_downcount
          (Value.FromConstantU32 (notU32 (toU32 (g.m_delayed_cycles_add - 1)))) ]
    else [])

/-- The host operations that a flush of the given bindings appends to the code buffer: the
write-back of every dirty binding, in order. -/
def flushCode (bindings : List (Reg × Value)) : List HostOp :=
  (bindings.filter (fun b => b.2.dirty)).map (fun b => HostOp.StoreGuestRegister b.1 b.2)

/-- The host operations that `Compile_Fallback_call` appends to the code buffer. -/
def callCode (can_trap : Bool) (g : CodeGenerator) : List HostOp :=
  if can_trap then
    [ HostOp.FunctionCallInterpretInstruction (some (Value.scratchIn g.AllocateHostReg.1 .RegSize_8)),
      .BlockExitOnBool (Value.scratchIn g.AllocateHostReg.1 .RegSize_8) ]
  else [ HostOp.FunctionCallInterpretInstruction none ]

/-- A run of `InstructionPrologue` calls, one per instruction with its cycle cost and its
`force_sync` argument, in order. -/
def prologueCalls (CanInstructionTrap : Instruction → Bool → Bool) :
    List (CodeBlockInstruction × Int × Bool) → CodeGenerator → Option CodeGenerator
  | [], g => some g
  | x :: rest, g =>
    match InstructionPrologue CanInstructionTrap x.1 x.2.1 x.2.2 g with
    | none => none
    | some g1 => prologueCalls CanInstructionTrap rest g1

end CodeGenerator

/-! ## Execution of the emitted code -/

/-- Modelled from the spec: the machine state that emitted code runs on (the backend and the
`Core` structure are absent): the fields of `Core` addressed by offset, the guest registers
inside `Core`, the host registers, and whether the block has been left through a block
exit. -/
structure HostState where
  core : CoreField → Nat
  guest_regs : Reg → Nat
  host_regs : HostReg → Nat
  exited : Bool

/-- The number that an operand denotes in a machine state, as an unsigned integer of the
width of the operand. -/
def Value.eval (v : Value) (s : HostState) : Nat :=
  match v.kind with
  | .Constant => v.constant_value % 2 ^ v.size.bits
  | .HostRegister => s.host_regs v.host_reg % 2 ^ v.size.bits
  | .Invalid => 0

/-- Modelled from the spec: the effect of one host operation (the backend is absent; the
meaning is the one in the names of the emission primitives and in the comments of the
source: load a field into a host register, store an operand to a field, add an operand to a
field, and so on, at the width of the operand). The interpreter behind
`Thunks::InterpretInstruction` is the parameter `interp`: it maps the `Core` fields and guest
registers to new ones and returns whether an exception was raised. After a block exit no
further operation has an effect. -/
def execOp (interp : HostState → HostState × Bool) (op : HostOp) (s : HostState) : HostState :=
  if s.exited then s
  else
    match op with
    | .BeginBlock => s
    | .EndBlock => s
    | .CopyValue to_reg value =>
      { s with host_regs := Function.update s.host_regs to_reg (value.eval s) }
    | .SignExtend to_reg to_size from_reg from_size =>
      let x := toUnsigned to_size.bits (toSigned from_size.bits (s.host_regs from_reg))
      { s with host_regs := Function.update s.host_regs to_reg x }
    | .ZeroExtend to_reg to_size from_reg from_size =>
      let x := (s.host_regs from_reg % 2 ^ from_size.bits) % 2 ^ to_size.bits
      { s with host_regs := Function.update s.host_regs to_reg x }
    | .Add to_reg value =>
      let x := (s.host_regs to_reg + value.eval s) % 2 ^ value.size.bits
      { s with host_regs := Function.update s.host_regs to_reg x }
    | .Shl to_reg size amount =>
      let x := (s.host_regs to_reg * 2 ^ amount.eval s) % 2 ^ size.bits
      { s with host_regs := Function.update s.host_regs to_reg x }
    | .LoadCPUStructField host_reg size field =>
      { s with host_regs := Function.update s.host_regs host_reg (s.core field % 2 ^ size.bits) }
    | .StoreCPUStructField field value =>
      { s with core := Function.update s.core field (value.eval s) }
    | .AddCPUStructField field value =>
      let x := (s.core field + value.eval s) % 2 ^ value.size.bits
      { s with core := Function.update s.core field x }
    | .StoreGuestRegister reg value =>
      { s with guest_regs := Function.update s.guest_regs reg (value.eval s) }
    | .FunctionCallInterpretInstruction return_value =>
      let r := interp s
      let regs :=
        match return_value with
        | some v => Function.update s.host_regs v.host_reg (if r.2 then 1 else 0)
        | none => s.host_regs
      { s with core := r.1.core, guest_regs := r.1.guest_regs, host_regs := regs }
    | .BlockExitOnBool value =>
      if value.eval s ≠ 0 then { s with exited := true } else s

/-- The effect of a sequence of host operations, in order. -/
def execOps (interp : HostState → HostState × Bool) (ops : List HostOp) (s : HostState) :
    HostState :=
  ops.foldl (fun acc op => execOp interp op acc) s

/-- The sum of the pending-ticks counter and the downcount, modulo `2^32`. -/
def cycleSum (s : HostState) : Nat :=
  (s.core .m_pending_ticks + s.core .m_downcount) % 2 ^ 32

/-- A sample interpreter: it raises no exception and changes nothing. -/
def sampleInterp (s : HostState) : HostState × Bool := (s, false)

/-- A sample machine state: pc `0x80000000`, npc `0x80000004`, 10 pending ticks, downcount
100, branch-was-taken set, a load of register 9 with old value 77 staged, everything else
zero. -/
def sampleHostState : HostState :=
  { core := fun f =>
      match f with
      | .m_regs_pc => 0x80000000
      | .m_regs_npc => 0x80000004
      | .m_pending_ticks => 10
      | .m_downcount => 100
      | .m_branch_was_taken => 1
      | .m_next_load_delay_reg => 9
      | .m_next_load_delay_old_value => 77
      | _ => 0,
    guest_regs := fun _ => 0,
    host_regs := fun _ => 0,
    exited := false }

namespace CodeGenerator

/-- A generator with 8 bytes and 2 cycles accumulated by two deferred instructions. -/
def accumulated : CodeGenerator :=
  { freshInBlock with m_delayed_pc_add := 8, m_delayed_cycles_add := 2 }

/-- The generator `cachedGenerator` with `m_block` pointing to the sample block. -/
def cachedInBlock : CodeGenerator := { cachedGenerator with m_block := some sampleBlock }

end CodeGenerator

/-- The host operation writes the pending-ticks counter or the downcount. -/
def HostOp.writesCycles (op : HostOp) : Bool :=
  op.writesField .m_pending_ticks || op.writesField .m_downcount

/-- Running the code leaves the sum of pending ticks and downcount, modulo `2^32`, as it
was, from every machine state. -/
def CycleNeutral (interp : HostState → HostState × Bool) (ops : List HostOp) : Prop :=
  ∀ s, cycleSum (execOps interp ops s) = cycleSum s

/-! ## Arithmetic lemmas -/

theorem land_0xFF (x : Nat) : x &&& 0xFF = x % 2 ^ 8 :=
  Nat.and_pow_two_sub_one_eq_mod x 8

theorem land_0xFFFF (x : Nat) : x &&& 0xFFFF = x % 2 ^ 16 :=
  Nat.and_pow_two_sub_one_eq_mod x 16

theorem SignExtend16_8 (c : Nat) :
    SignExtend16 8 (c % 256) % 65536 = signExtendSpec 8 16 (c % 256) := by
  unfold SignExtend16 toUnsigned toSigned signExtendSpec
  norm_num
  split <;> omega

theorem SignExtend32_8 (c : Nat) :
    SignExtend32 8 (c % 256) % 4294967296 = signExtendSpec 8 32 (c % 256) := by
  unfold SignExtend32 toUnsigned toSigned signExtendSpec
  norm_num
  split <;> omega

theorem SignExtend32_16 (c : Nat) :
    SignExtend32 16 (c % 65536) % 4294967296 = signExtendSpec 16 32 (c % 65536) := by
  unfold SignExtend32 toUnsigned toSigned signExtendSpec
  norm_num
  split <;> omega

/-! ## Constant folding -/

namespace CodeGenerator

/-- C1: for constant operands `lhs`, `rhs` of one width `w`, `AddValues` returns the constant
of width `w` with payload `(lhs + rhs) mod 2^w`, and the generator is unchanged: no host
operation is emitted and no scratch register is allocated. -/
theorem AddValues_constant_fold (lhs rhs : Value) (g : CodeGenerator)
    (hl : lhs.IsConstant = true) (hr : rhs.IsConstant = true) (_hs : lhs.size = rhs.size) :
    g.AddValues lhs rhs =
      (Value.FromConstant ((lhs.constant_value + rhs.constant_value) % 2 ^ lhs.size.bits)
        lhs.size, g) := by
  unfold AddValues
  rw [hl, hr]
  cases hsz : lhs.size <;>
    simp [Value.FromConstantU8, Value.FromConstantU16, Value.FromConstantU32,
      Value.FromConstantU64, Truncate8, Truncate16, Truncate32, RegSize.bits]
  all_goals (congr 1; omega)

/-- Witness of C1: `0xFF + 0x01` at 8 bits folds to the 8-bit constant `0`. -/
theorem AddValues_constant_fold_witness :
    fresh.AddValues (Value.FromConstantU8 0xFF) (Value.FromConstantU8 0x01) =
      (Value.FromConstant 0 .RegSize_8, fresh) :=
  AddValues_constant_fold (Value.FromConstantU8 0xFF) (Value.FromConstantU8 0x01) fresh
    rfl rfl rfl

/-- C2 (as amended): for constant operands of one width `w` and a shift amount below 64,
`ShlValues` returns the constant of width `w` with payload `(lhs * 2^rhs) mod 2^w`
(which is `0` for shift amounts from `w` up to 63), and the generator is unchanged. -/
theorem ShlValues_constant_fold (lhs rhs : Value) (g : CodeGenerator)
    (hl : lhs.IsConstant = true) (hr : rhs.IsConstant = true) (_hs : lhs.size = rhs.size)
    (hb : rhs.constant_value < 64) :
    g.ShlValues lhs rhs =
      some (Value.FromConstant ((lhs.constant_value * 2 ^ rhs.constant_value) % 2 ^ lhs.size.bits)
        lhs.size, g) := by
  unfold ShlValues ShlU64
  rw [hl, hr]
  cases hsz : lhs.size <;>
    simp [hb, Value.FromConstantU8, Value.FromConstantU16, Value.FromConstantU32,
      Value.FromConstantU64, Truncate8, Truncate16, Truncate32, RegSize.bits]
  all_goals (congr 1; omega)

/-- Witness of C2 (as amended): `1 << 40` at 32 bits folds to the 32-bit constant `0`. -/
theorem ShlValues_constant_fold_witness :
    fresh.ShlValues (Value.FromConstantU32 1) (Value.FromConstantU32 40) =
      some (Value.FromConstant 0 .RegSize_32, fresh) :=
  ShlValues_constant_fold (Value.FromConstantU32 1) (Value.FromConstantU32 40) fresh
    rfl rfl rfl (by decide)

/-- Counterexample to C2: for the 32-bit constants `1` and `64` the `u64` shift `1 << 64` has
no defined result, so `ShlValues` does not return the constant `(1 * 2^64) mod 2^32 = 0`. -/
theorem ShlValues_shift_64_undefined :
    fresh.ShlValues (Value.FromConstantU32 1) (Value.FromConstantU32 64) = none ∧
    fresh.ShlValues (Value.FromConstantU32 1) (Value.FromConstantU32 64) ≠
      some (Value.FromConstant ((1 * 2 ^ 64) % 2 ^ 32) .RegSize_32, fresh) := by
  constructor
  · rfl
  · intro h
    have h2 : fresh.ShlValues (Value.FromConstantU32 1) (Value.FromConstantU32 64) = none := rfl
    rw [h2] at h
    exact Option.noConfusion h

/-! ## Width conversion of constants -/

/-- C3 (as amended): for a constant `v` and a target width `s` different from the width of
`v`: when `s` is 8, 16 or 32 bits and the conversion is not 64 to 32, `ConvertValueSize`
returns the constant of width `s` (payload truncated when narrowing, sign or zero extended
per the flag when widening) and leaves the generator unchanged, so no host register is
allocated; when `s` is 64 bits, or the conversion is 64 to 32, it reaches
`UnreachableCode()`. -/
theorem ConvertValueSize_constant (v : Value) (s : RegSize) (sign_extend : Bool)
    (g : CodeGenerator) (hc : v.IsConstant = true) (hne : v.size ≠ s) :
    (s ≠ .RegSize_64 → ¬ (v.size = .RegSize_64 ∧ s = .RegSize_32) →
      g.ConvertValueSize v s sign_extend =
        some (Value.FromConstant (convertSpec v.size.bits s.bits sign_extend v.constant_value) s,
          g)) ∧
    (s = .RegSize_64 ∨ (v.size = .RegSize_64 ∧ s = .RegSize_32) →
      g.ConvertValueSize v s sign_extend = none) := by
  unfold ConvertValueSize
  rw [hc]
  cases hsz : v.size <;> cases s <;> cases sign_extend <;>
    simp [hsz, Value.FromConstantU8, Value.FromConstantU16, Value.FromConstantU32,
      land_0xFF, land_0xFFFF, SignExtend16_8, SignExtend32_8, SignExtend32_16,
      ZeroExtend16, ZeroExtend32, Truncate8, Truncate16, convertSpec, RegSize.bits] at hne ⊢
  all_goals (congr 1; omega)

/-- Witness of C3 (as amended): the 16-bit constant `0x8001` sign-extends to 32 bits at
compile time, and its conversion to 64 bits reaches `UnreachableCode()`. -/
theorem ConvertValueSize_constant_witness :
    fresh.ConvertValueSize (Value.FromConstantU16 0x8001) .RegSize_32 true =
        some (Value.FromConstant 0xFFFF8001 .RegSize_32, fresh) ∧
    fresh.ConvertValueSize (Value.FromConstantU16 0x8001) .RegSize_64 true = none :=
  ⟨(ConvertValueSize_constant (Value.FromConstantU16 0x8001) .RegSize_32 true fresh rfl
      (by decide)).1 (by decide) (by decide),
   (ConvertValueSize_constant (Value.FromConstantU16 0x8001) .RegSize_64 true fresh rfl
      (by decide)).2 (Or.inl rfl)⟩

/-- Counterexample to C3: the conversions 64 to 32, 8 to 64, 16 to 64 and 32 to 64 of a
constant reach `UnreachableCode()` and return no constant. -/
theorem ConvertValueSize_to_64_unreachable :
    fresh.ConvertValueSize (Value.FromConstantU64 5) .RegSize_32 false = none ∧
    fresh.ConvertValueSize (Value.FromConstantU8 5) .RegSize_64 false = none ∧
    fresh.ConvertValueSize (Value.FromConstantU16 5) .RegSize_64 false = none ∧
    fresh.ConvertValueSize (Value.FromConstantU32 5) .RegSize_64 false = none :=
  ⟨rfl, rfl, rfl, rfl⟩

/-- C4 (as amended): for a constant `v` of width `w0` of 16 or 32 bits and a narrower width
`w1`, converting `v` down to `w1` and back up to `w0` with zero extension yields the constant
of width `w0` with payload `v mod 2^w1`, and the generator is unchanged. -/
theorem ConvertValueSize_narrow_then_widen (v : Value) (w1 : RegSize) (sign_extend : Bool)
    (g : CodeGenerator) (hc : v.IsConstant = true) (hlt : w1.bits < v.size.bits)
    (h64 : v.size ≠ .RegSize_64) :
    (g.ConvertValueSize v w1 sign_extend).bind
        (fun r => r.2.ConvertValueSize r.1 v.size false) =
      some (Value.FromConstant (v.constant_value % 2 ^ w1.bits) v.size, g) := by
  unfold ConvertValueSize
  rw [hc]
  cases hsz : v.size <;> cases w1 <;>
    simp [hsz, RegSize.bits] at hlt h64 ⊢ <;>
    simp [Value.IsConstant, Value.FromConstant, Value.FromConstantU8, Value.FromConstantU16,
      Value.FromConstantU32, land_0xFF, land_0xFFFF, ZeroExtend16, ZeroExtend32, Truncate8,
      Truncate16]
  all_goals omega

/-- Witness of C4 (as amended): the 32-bit constant `0x12345678` narrowed to 8 bits and
widened back is the 32-bit constant `0x78`. -/
theorem ConvertValueSize_narrow_then_widen_witness :
    (fresh.ConvertValueSize (Value.FromConstantU32 0x12345678) .RegSize_8 true).bind
        (fun r => r.2.ConvertValueSize r.1 .RegSize_32 false) =
      some (Value.FromConstant 0x78 .RegSize_32, fresh) :=
  ConvertValueSize_narrow_then_widen (Value.FromConstantU32 0x12345678) .RegSize_8 true fresh
    rfl (by decide) (by decide)

/-- Counterexample to C4: for original width 64, narrowing the constant `0x1FF` to 8 bits
succeeds but widening back to 64 bits reaches `UnreachableCode()`; narrowing from 64 to 32
bits reaches it at once. -/
theorem ConvertValueSize_round_trip_64_unreachable :
    (fresh.ConvertValueSize (Value.FromConstantU64 0x1FF) .RegSize_8 false).bind
        (fun r => r.2.ConvertValueSize r.1 .RegSize_64 false) = none ∧
    (fresh.ConvertValueSize (Value.FromConstantU64 0x1FF) .RegSize_32 false).bind
        (fun r => r.2.ConvertValueSize r.1 .RegSize_64 false) = none :=
  ⟨rfl, rfl⟩

/-- C5: for a constant `v` of width `w1` (payload below `2^w1`) and a wider width `w0`,
both among 8, 16 and 32 bits, `ConvertValueSize` with `sign_extend = true` returns the
constant of width `w0` that is the two's complement sign extension of `v`: `v` itself when
`v < 2^(w1-1)`, and `v + 2^w0 - 2^w1` otherwise; the generator is unchanged. -/
theorem ConvertValueSize_sign_extend (v : Value) (w0 : RegSize) (g : CodeGenerator)
    (hc : v.IsConstant = true) (hlt : v.size.bits < w0.bits) (h64 : w0 ≠ .RegSize_64)
    (hwf : v.constant_value < 2 ^ v.size.bits) :
    g.ConvertValueSize v w0 true =
      some (Value.FromConstant
        (if v.constant_value < 2 ^ (v.size.bits - 1) then v.constant_value
         else v.constant_value + 2 ^ w0.bits - 2 ^ v.size.bits) w0, g) := by
  unfold ConvertValueSize
  rw [hc]
  cases hsz : v.size <;> cases w0 <;>
    simp [hsz, RegSize.bits] at hlt h64 hwf ⊢ <;>
    simp [Value.FromConstantU16, Value.FromConstantU32, Truncate8, Truncate16,
      SignExtend16, SignExtend32, toUnsigned, toSigned]
  all_goals (congr 1; split_ifs <;> omega)

/-- Witness of C5: the 8-bit constant `0xFF` sign-extended to 32 bits is `0xFFFFFFFF`. -/
theorem ConvertValueSize_sign_extend_witness :
    fresh.ConvertValueSize (Value.FromConstantU8 0xFF) .RegSize_32 true =
      some (Value.FromConstant 0xFFFFFFFF .RegSize_32, fresh) :=
  ConvertValueSize_sign_extend (Value.FromConstantU8 0xFF) .RegSize_32 fresh
    rfl (by decide) (by decide) (by decide)

/-! ## Unfolding of the block loop -/

theorem CompileBlock_loop_cons (canTrap : Instruction → Bool → Bool)
    (cbi : CodeBlockInstruction) (rest : List CodeBlockInstruction) (g : CodeGenerator) :
    CompileBlock_loop canTrap (cbi :: rest) g =
      match CompileInstruction canTrap cbi g with
      | none => none
      | some (false, g1) => some (false, g1)
      | some (true, g1) => CompileBlock_loop canTrap rest g1 := rfl

theorem CompileBlock_unfold (canTrap : Instruction → Bool → Bool) (block : CodeBlock)
    (g : CodeGenerator) :
    CompileBlock canTrap block g =
      match CompileBlock_loop canTrap block.instructions (g.CompileBlock_begin block) with
      | none => none
      | some (false, g1) =>
        some { result := false, out_function_ptr := none, out_code_size := none,
               gen := { g1 with m_block_end := none, m_block_start := none, m_block := none } }
      | some (true, g1) =>
        some { result := true,
               out_function_ptr := some (FinalizeBlock g1.BlockEpilogue.EmitEndBlock).1,
               out_code_size := some (FinalizeBlock g1.BlockEpilogue.EmitEndBlock).2,
               gen := { g1.BlockEpilogue.EmitEndBlock with
                        m_block_end := none, m_block_start := none, m_block := none } } := rfl

/-! ## Frame lemmas -/

theorem resetDirtyFlags_frame (cbi : CodeBlockInstruction) (g : CodeGenerator) :
    (g.InstructionPrologue_resetDirtyFlags cbi).m_register_cache = g.m_register_cache ∧
    (g.InstructionPrologue_resetDirtyFlags cbi).m_block = g.m_block ∧
    (g.InstructionPrologue_resetDirtyFlags cbi).m_operand_memory_addresses =
      g.m_operand_memory_addresses ∧
    (g.InstructionPrologue_resetDirtyFlags cbi).m_delayed_pc_add = g.m_delayed_pc_add ∧
    (g.InstructionPrologue_resetDirtyFlags cbi).m_delayed_cycles_add = g.m_delayed_cycles_add ∧
    (g.InstructionPrologue_resetDirtyFlags cbi).m_load_delay_dirty = g.m_load_delay_dirty ∧
    (g.InstructionPrologue_resetDirtyFlags cbi).m_next_load_delay_dirty =
      g.m_next_load_delay_dirty := by
  unfold InstructionPrologue_resetDirtyFlags
  cases h1 : g.m_branch_was_taken_dirty <;>
  cases h2 : g.m_current_instruction_was_branch_taken_dirty <;>
  cases h3 : g.m_current_instruction_in_branch_delay_slot_dirty <;>
  cases h4 : cbi.is_branch_delay_slot <;>
  simp [h1, h2, h3, h4, ReleaseValue, AllocateScratch, AllocateHostReg, FreeHostReg,
    Value.scratchIn, Value.IsInHostRegister, Value.IsScratch, EmitLoadCPUStructField,
    EmitStoreCPUStructField, Emit]

theorem sync_frame (cbi : CodeBlockInstruction) (cycles : Int) (g : CodeGenerator) :
    (g.InstructionPrologue_sync cbi cycles).m_register_cache = g.m_register_cache ∧
    (g.InstructionPrologue_sync cbi cycles).m_block = g.m_block ∧
    (g.InstructionPrologue_sync cbi cycles).m_operand_memory_addresses =
      g.m_operand_memory_addresses ∧
    (g.InstructionPrologue_sync cbi cycles).m_delayed_pc_add = 0 ∧
    (g.InstructionPrologue_sync cbi cycles).m_delayed_cycles_add = 0 ∧
    (g.InstructionPrologue_sync cbi cycles).m_load_delay_dirty = g.m_load_delay_dirty ∧
    (g.InstructionPrologue_sync cbi cycles).m_next_load_delay_dirty =
      g.m_next_load_delay_dirty ∧
    (g.InstructionPrologue_sync cbi cycles).m_branch_was_taken_dirty =
      g.m_branch_was_taken_dirty ∧
    (g.InstructionPrologue_sync cbi cycles).m_current_instruction_was_branch_taken_dirty =
      g.m_current_instruction_was_branch_taken_dirty := by
  unfold InstructionPrologue_sync
  cases h4 : cbi.is_branch_delay_slot <;>
  simp [h4, ReleaseValue, AllocateScratch, AllocateHostReg, FreeHostReg,
    Value.scratchIn, Value.IsInHostRegister, Value.IsScratch, EmitLoadCPUStructField,
    EmitStoreCPUStructField, EmitAddCPUStructField, Emit]

/-- With a block in place and `force_sync = true` the prologue returns, and it is the reset
of the dirty flags followed by the synchronisation. -/
theorem InstructionPrologue_forced (canTrap : Instruction → Bool → Bool)
    (cbi : CodeBlockInstruction) (cycles : Int) (g : CodeGenerator) (block : CodeBlock)
    (hb : g.m_block = some block) :
    InstructionPrologue canTrap cbi cycles true g =
      some ((g.InstructionPrologue_resetDirtyFlags cbi).InstructionPrologue_sync cbi cycles) := by
  unfold InstructionPrologue
  simp [(resetDirtyFlags_frame cbi g).2.1, hb]

theorem InstructionEpilogue_frame (cbi : CodeBlockInstruction) (g : CodeGenerator) :
    (g.InstructionEpilogue cbi).m_register_cache = g.m_register_cache ∧
    (g.InstructionEpilogue cbi).m_block = g.m_block ∧
    (g.InstructionEpilogue cbi).m_operand_memory_addresses = g.m_operand_memory_addresses ∧
    (g.InstructionEpilogue cbi).m_delayed_pc_add = g.m_delayed_pc_add ∧
    (g.InstructionEpilogue cbi).m_delayed_cycles_add = g.m_delayed_cycles_add ∧
    (g.InstructionEpilogue cbi).m_branch_was_taken_dirty = g.m_branch_was_taken_dirty ∧
    (g.InstructionEpilogue cbi).m_current_instruction_was_branch_taken_dirty =
      g.m_current_instruction_was_branch_taken_dirty ∧
    (g.InstructionEpilogue cbi).m_current_instruction_in_branch_delay_slot_dirty =
      g.m_current_instruction_in_branch_delay_slot_dirty := by
  unfold InstructionEpilogue
  cases h1 : g.m_load_delay_dirty <;> cases h2 : g.m_next_load_delay_dirty <;>
  simp [h1, h2, ReleaseValue, AllocateScratch, AllocateHostReg, FreeHostReg,
    Value.scratchIn, Value.IsInHostRegister, Value.IsScratch, EmitLoadCPUStructField,
    EmitStoreCPUStructField, Emit]

/-! ## Guest register writes -/

theorem lookup_eraseP_ne (l : List (Reg × Value)) (r r1 : Reg) (h : r1 ≠ r) :
    (l.eraseP (fun b => b.1 == r)).lookup r1 = l.lookup r1 := by
  induction l with
  | nil => rfl
  | cons b t ih =>
    obtain ⟨k, v⟩ := b
    by_cases hk : k = r
    · subst hk
      have hne : (r1 == k) = false := by simpa using h
      simp [List.eraseP_cons, List.lookup_cons, hne]
    · have hk2 : (k == r) = false := by simpa using hk
      simp [List.eraseP_cons, hk2, List.lookup_cons, ih]

theorem WriteGuestRegister_binding (reg : Reg) (value : Value) (g : CodeGenerator) :
    (g.WriteGuestRegister reg value).m_register_cache.binding reg =
        some { value with dirty := true, scratch := false } ∧
    ∀ r1, r1 ≠ reg →
      (g.WriteGuestRegister reg value).m_register_cache.binding r1 =
        g.m_register_cache.binding r1 := by
  unfold WriteGuestRegister InvalidateGuestRegister RegisterCache.binding
  constructor
  · simp [List.lookup_cons]
  · intro r1 h1
    have hne : (r1 == reg) = false := by simpa using h1
    cases hl : g.m_register_cache.m_guest_reg_cache.lookup reg with
    | none => simp [List.lookup_cons, hne, RegisterCache.binding, hl]
    | some v =>
      cases hv : v.IsInHostRegister <;>
        simp [List.lookup_cons, hne, RegisterCache.binding, hl, hv, FreeHostReg,
          lookup_eraseP_ne _ _ _ h1]

theorem WriteGuestRegister_regcache (reg : Reg) (value : Value) (g g2 : CodeGenerator)
    (h : g2.m_register_cache = g.m_register_cache) :
    (g2.WriteGuestRegister reg value).m_register_cache =
      (g.WriteGuestRegister reg value).m_register_cache := by
  unfold WriteGuestRegister InvalidateGuestRegister
  rw [h]
  cases g.m_register_cache.binding reg with
  | none => simp [h]
  | some v => cases hv : v.IsInHostRegister <;> simp [hv, h, FreeHostReg]

/-! ## The immediate load -/

/-- C6: with a block in place, `Compile_lui` succeeds, and its effect on the register cache
is that of the single call `WriteGuestRegister(rt, imm * 2^16)`: `rt` is bound to the dirty
32-bit constant `imm * 2^16`, and the binding of every other guest register is as before.
The constant does not overflow 32 bits and its low 16 bits are zero. -/
theorem Compile_lui_writes_rt (canTrap : Instruction → Bool → Bool)
    (cbi : CodeBlockInstruction) (g : CodeGenerator) (block : CodeBlock)
    (hb : g.m_block = some block) :
    ∃ g1, g.Compile_lui canTrap cbi = some (true, g1) ∧
      g1.m_register_cache =
        (g.WriteGuestRegister cbi.instruction.rt
          (Value.FromConstant (cbi.instruction.imm * 2 ^ 16) .RegSize_32)).m_register_cache ∧
      g1.m_register_cache.binding cbi.instruction.rt =
        some { Value.FromConstant (cbi.instruction.imm * 2 ^ 16) .RegSize_32 with
               dirty := true } ∧
      (∀ r1, r1 ≠ cbi.instruction.rt →
        g1.m_register_cache.binding r1 = g.m_register_cache.binding r1) ∧
      cbi.instruction.imm * 2 ^ 16 < 2 ^ 32 ∧
      (cbi.instruction.imm * 2 ^ 16) % 2 ^ 16 = 0 := by
  have himm : cbi.instruction.imm < 2 ^ 16 := Nat.mod_lt _ (by decide)
  have hlt : cbi.instruction.imm * 2 ^ 16 < 2 ^ 32 := by omega
  have hval : Value.FromConstantU32 ((cbi.instruction.imm_zext32 * 2 ^ 16) % 2 ^ 32) =
      Value.FromConstant (cbi.instruction.imm * 2 ^ 16) .RegSize_32 := by
    unfold Value.FromConstantU32 Instruction.imm_zext32 ZeroExtend32
    congr 1
    omega
  have hrun : g.Compile_lui canTrap cbi = some (true,
      ((((g.InstructionPrologue_resetDirtyFlags cbi).InstructionPrologue_sync cbi 1).WriteGuestRegister
        cbi.instruction.rt
        (Value.FromConstantU32 ((cbi.instruction.imm_zext32 * 2 ^ 16) % 2 ^ 32))).InstructionEpilogue
        cbi)) := by
    unfold Compile_lui
    rw [InstructionPrologue_forced canTrap cbi 1 g block hb]
  have hpro : ((g.InstructionPrologue_resetDirtyFlags cbi).InstructionPrologue_sync cbi
      1).m_register_cache = g.m_register_cache := by
    rw [(sync_frame cbi 1 _).1, (resetDirtyFlags_frame cbi g).1]
  refine ⟨_, hrun, ?_, ?_, ?_, hlt, by omega⟩
  · rw [(InstructionEpilogue_frame cbi _).1, hval]
    exact WriteGuestRegister_regcache _ _ _ _ hpro
  · rw [(InstructionEpilogue_frame cbi _).1, hval]
    exact (WriteGuestRegister_binding _ _ _).1
  · intro r1 h1
    rw [(InstructionEpilogue_frame cbi _).1, (WriteGuestRegister_binding _ _ _).2 r1 h1,
      (sync_frame cbi 1 _).1, (resetDirtyFlags_frame cbi g).1]

/-- Witness of C6: `lui $5, 0x1234` binds guest register 5 to the 32-bit constant
`0x12340000`. -/
theorem Compile_lui_writes_rt_witness :
    ∃ g1, freshInBlock.Compile_lui sampleCanTrap sampleLui = some (true, g1) ∧
      g1.m_register_cache =
        (freshInBlock.WriteGuestRegister 5
          (Value.FromConstant 0x12340000 .RegSize_32)).m_register_cache ∧
      g1.m_register_cache.binding 5 =
        some { Value.FromConstant 0x12340000 .RegSize_32 with dirty := true } ∧
      (∀ r1, r1 ≠ 5 → g1.m_register_cache.binding r1 = freshInBlock.m_register_cache.binding r1) ∧
      0x12340000 < 2 ^ 32 ∧ 0x12340000 % 2 ^ 16 = 0 :=
  Compile_lui_writes_rt sampleCanTrap sampleLui freshInBlock sampleBlock rfl

/-! ## Emitted code of the prologue -/

theorem FromConstantU32_congr (a b : Nat) (h : a % 2 ^ 32 = b % 2 ^ 32) :
    Value.FromConstantU32 a = Value.FromConstantU32 b := by
  unfold Value.FromConstantU32
  rw [h]

theorem resetDirtyFlags_emit (cbi : CodeBlockInstruction) (g : CodeGenerator) :
    ∃ ops, (g.InstructionPrologue_resetDirtyFlags cbi).m_emit = g.m_emit ++ ops ∧
      ∀ op ∈ ops, op.field ≠ some .m_regs_pc ∧ op.field ≠ some .m_regs_npc ∧
        op.field ≠ some .m_current_instruction_pc ∧ op.field ≠ some .m_pending_ticks ∧
        op.field ≠ some .m_downcount := by
  unfold InstructionPrologue_resetDirtyFlags
  cases h1 : g.m_branch_was_taken_dirty <;>
  cases h2 : g.m_current_instruction_was_branch_taken_dirty <;>
  cases h3 : g.m_current_instruction_in_branch_delay_slot_dirty <;>
  cases h4 : cbi.is_branch_delay_slot <;>
  simp [h1, h2, h3, h4, ReleaseValue, AllocateScratch, AllocateHostReg, FreeHostReg,
    Value.scratchIn, Value.IsInHostRegister, Value.IsScratch, EmitLoadCPUStructField,
    EmitStoreCPUStructField, Emit, HostOp.field]

theorem field_ne_writes (op : HostOp)
    (h : op.field ≠ some .m_regs_pc ∧ op.field ≠ some .m_regs_npc ∧
        op.field ≠ some .m_current_instruction_pc ∧ op.field ≠ some .m_pending_ticks ∧
        op.field ≠ some .m_downcount) :
    op.writesPcOrCycles = false := by
  cases op <;> simp_all [HostOp.field, HostOp.writesPcOrCycles, HostOp.writesField]

/-- The synchronising part of the prologue appends `syncCode`. -/
theorem sync_emit (cbi : CodeBlockInstruction) (cycles : Int) (g : CodeGenerator) :
    (g.InstructionPrologue_sync cbi cycles).m_emit = g.m_emit ++ g.syncCode cbi cycles := by
  unfold InstructionPrologue_sync syncCode
  cases h4 : cbi.is_branch_delay_slot <;>
  simp [h4, ReleaseValue, AllocateScratch, AllocateHostReg, FreeHostReg,
    Value.scratchIn, Value.IsInHostRegister, Value.IsScratch, EmitLoadCPUStructField,
    EmitStoreCPUStructField, EmitAddCPUStructField, Emit]

/-- A prologue call that defers: the instruction cannot trap and `force_sync = false`. -/
theorem InstructionPrologue_deferred (canTrap : Instruction → Bool → Bool)
    (cbi : CodeBlockInstruction) (cycles : Int) (g : CodeGenerator) (block : CodeBlock)
    (hb : g.m_block = some block)
    (hc : canTrap cbi.instruction block.key.user_mode = false) :
    InstructionPrologue canTrap cbi cycles false g =
      some { g.InstructionPrologue_resetDirtyFlags cbi with
        m_delayed_pc_add := (g.m_delayed_pc_add + INSTRUCTION_SIZE) % 2 ^ 32,
        m_delayed_cycles_add := wrapS32 (g.m_delayed_cycles_add + cycles) } := by
  unfold InstructionPrologue
  obtain ⟨-, h2, -, h4, h5, -⟩ := resetDirtyFlags_frame cbi g
  simp [h2, hb, hc, h4, h5]

/-- A prologue call that synchronises: the instruction can trap or `force_sync = true`. -/
theorem InstructionPrologue_synced (canTrap : Instruction → Bool → Bool)
    (cbi : CodeBlockInstruction) (cycles : Int) (force_sync : Bool) (g : CodeGenerator)
    (block : CodeBlock) (hb : g.m_block = some block)
    (hc : canTrap cbi.instruction block.key.user_mode = true ∨ force_sync = true) :
    InstructionPrologue canTrap cbi cycles force_sync g =
      some ((g.InstructionPrologue_resetDirtyFlags cbi).InstructionPrologue_sync cbi cycles) := by
  unfold InstructionPrologue
  have h2 := (resetDirtyFlags_frame cbi g).2.1
  rcases hc with hc | hc <;> simp [h2, hb, hc]

/-- C7 (as amended): a run of `InstructionPrologue` calls with `force_sync = false` on `N`
instructions that cannot trap, followed by one call on an instruction that can trap. The `N`
calls return and the code they emit writes neither pc, npc, pending ticks nor downcount; the
last call returns and emits exactly one write to npc, the addition of the accumulator at the
start plus `4 * (N + 1)`, and exactly one write to pending ticks, the addition of the
accumulator at the start plus the cycle costs of all `N + 1` instructions (as `u32`). -/
theorem InstructionPrologue_deferral (canTrap : Instruction → Bool → Bool)
    (xs : List (CodeBlockInstruction × Int)) (last : CodeBlockInstruction × Int)
    (g : CodeGenerator) (block : CodeBlock) (hb : g.m_block = some block)
    (hxs : ∀ x ∈ xs, canTrap x.1.instruction block.key.user_mode = false)
    (hlast : canTrap last.1.instruction block.key.user_mode = true) :
    ∃ g1 g2 ops1 ops2,
      prologueRun canTrap xs g = some g1 ∧
      InstructionPrologue canTrap last.1 last.2 false g1 = some g2 ∧
      g1.m_emit = g.m_emit ++ ops1 ∧ (∀ op ∈ ops1, op.writesPcOrCycles = false) ∧
      g2.m_emit = g1.m_emit ++ ops2 ∧
      ops2.filter (HostOp.writesField .m_regs_npc) =
        [.AddCPUStructField .m_regs_npc
          (Value.FromConstantU32 (g.m_delayed_pc_add + 4 * (xs.length + 1)))] ∧
      ops2.filter (HostOp.writesField .m_pending_ticks) =
        [.AddCPUStructField .m_pending_ticks
          (Value.FromConstantU32
            (toU32 (g.m_delayed_cycles_add + (xs.map (fun x => x.2)).sum + last.2)))] := by
  induction xs generalizing g with
  | nil =>
    obtain ⟨opsA, hA, hAn⟩ := resetDirtyFlags_emit last.1 g
    obtain ⟨-, -, -, h4, h5, -⟩ := resetDirtyFlags_frame last.1 g
    refine ⟨g, _, [],
      opsA ++ (g.InstructionPrologue_resetDirtyFlags last.1).syncCode last.1 last.2, rfl,
      InstructionPrologue_synced canTrap last.1 last.2 false g block hb (Or.inl hlast),
      by simp, by simp, ?_, ?_, ?_⟩
    · rw [sync_emit, hA, List.append_assoc]
    · have hf : opsA.filter (HostOp.writesField .m_regs_npc) = [] := by
        rw [List.filter_eq_nil_iff]
        intro op hop
        have := hAn op hop
        cases op <;> simp_all [HostOp.field, HostOp.writesField]
      rw [List.filter_append, hf, syncCode, h4]
      cases last.1.is_branch_delay_slot <;>
        simp [HostOp.writesField, INSTRUCTION_SIZE]
    · have hf : opsA.filter (HostOp.writesField .m_pending_ticks) = [] := by
        rw [List.filter_eq_nil_iff]
        intro op hop
        have := hAn op hop
        cases op <;> simp_all [HostOp.field, HostOp.writesField]
      rw [List.filter_append, hf, syncCode, h5]
      cases last.1.is_branch_delay_slot <;>
        simp [HostOp.writesField]
  | cons x rest ih =>
    have hx := hxs x (List.mem_cons_self _ _)
    have hstep := InstructionPrologue_deferred canTrap x.1 x.2 g block hb hx
    obtain ⟨opsA, hA, hAn⟩ := resetDirtyFlags_emit x.1 g
    obtain ⟨-, h2, -, -⟩ := resetDirtyFlags_frame x.1 g
    obtain ⟨g1, g2, ops1, ops2, hr, hl, he1, hn1, he2, hnpc, hticks⟩ :=
      ih { g.InstructionPrologue_resetDirtyFlags x.1 with
            m_delayed_pc_add := (g.m_delayed_pc_add + INSTRUCTION_SIZE) % 2 ^ 32,
            m_delayed_cycles_add := wrapS32 (g.m_delayed_cycles_add + x.2) }
        (by simpa [h2] using hb)
        (fun y hy => hxs y (List.mem_cons_of_mem _ hy))
    refine ⟨g1, g2, opsA ++ ops1, ops2, ?_, hl, ?_, ?_, he2, ?_, ?_⟩
    · simp only [prologueRun, hstep]
      exact hr
    · rw [he1]
      simp [hA]
    · intro op hop
      rcases List.mem_append.mp hop with h | h
      · exact field_ne_writes op (hAn op h)
      · exact hn1 op h
    · rw [hnpc]
      congr 2
      apply FromConstantU32_congr
      simp only [INSTRUCTION_SIZE, List.length_cons]
      omega
    · rw [hticks]
      congr 2
      simp only [List.map_cons, List.sum_cons]
      unfold toU32 wrapS32
      congr 1
      omega

/-- Witness of C7 (as amended): one deferred `lui` with cost 1, then a trapping `lw` with
cost 1, from zero accumulators: the single npc addition is 8 and the single pending-ticks
addition is 2. -/
theorem InstructionPrologue_deferral_witness :
    ∃ g1 g2 ops1 ops2,
      prologueRun sampleCanTrap [(sampleLui, 1)] freshInBlock = some g1 ∧
      InstructionPrologue sampleCanTrap sampleLw 1 false g1 = some g2 ∧
      g1.m_emit = freshInBlock.m_emit ++ ops1 ∧ (∀ op ∈ ops1, op.writesPcOrCycles = false) ∧
      g2.m_emit = g1.m_emit ++ ops2 ∧
      ops2.filter (HostOp.writesField .m_regs_npc) =
        [.AddCPUStructField .m_regs_npc (Value.FromConstantU32 8)] ∧
      ops2.filter (HostOp.writesField .m_pending_ticks) =
        [.AddCPUStructField .m_pending_ticks (Value.FromConstantU32 2)] :=
  InstructionPrologue_deferral sampleCanTrap [(sampleLui, 1)] (sampleLw, 1) freshInBlock
    sampleBlock rfl (by decide) (by decide)

/-- Counterexample to C7: in the sample block `lui` cannot trap and `lw` can, yet
`CompileBlock` defers nothing, because `Compile_lui` and `Compile_Fallback` call the prologue
with `force_sync = true`: the code for the `lui` alone already adds 4 to npc and 1 to pending
ticks and writes the downcount, and in the whole block the writes to npc are two additions of
4 (not one of 8) and the writes to pending ticks two additions of 1 (not one of 2). -/
theorem CompileBlock_never_defers :
    sampleCanTrap sampleLui.instruction sampleBlock.key.user_mode = false ∧
    sampleCanTrap sampleLw.instruction sampleBlock.key.user_mode = true ∧
    ((CompileInstruction sampleCanTrap sampleLui (fresh.CompileBlock_begin sampleBlock)).map
        (fun r => r.2.m_emit.filter HostOp.writesPcOrCycles)) =
      some [ .StoreCPUStructField .m_regs_pc (Value.scratchIn 1 .RegSize_32),
             .AddCPUStructField .m_regs_npc (Value.FromConstantU32 4),
             .AddCPUStructField .m_pending_ticks (Value.FromConstantU32 1),
             .AddCPUStructField .m_downcount (Value.FromConstantU32 0xFFFFFFFF) ] ∧
    ((CompileBlock sampleCanTrap sampleBlock fresh).map
        (fun r => r.gen.m_emit.filter (HostOp.writesField .m_regs_npc))) =
      some [ .AddCPUStructField .m_regs_npc (Value.FromConstantU32 4),
             .AddCPUStructField .m_regs_npc (Value.FromConstantU32 4) ] ∧
    ((CompileBlock sampleCanTrap sampleBlock fresh).map
        (fun r => r.gen.m_emit.filter (HostOp.writesField .m_pending_ticks))) =
      some [ .AddCPUStructField .m_pending_ticks (Value.FromConstantU32 1),
             .AddCPUStructField .m_pending_ticks (Value.FromConstantU32 1) ] := by
  refine ⟨by decide, by decide, ?_, ?_, ?_⟩ <;> rfl

/-! ## The fallback and the dirty flags -/

/-- A projection of the generator that emission and the host register table do not touch
is the same after `FlushAllGuestRegisters`. -/
theorem FlushAllGuestRegisters_preserves {α : Type} (P : CodeGenerator → α)
    (hE : ∀ op g, P (g.Emit op) = P g) (hF : ∀ r g, P (g.FreeHostReg r) = P g)
    (hR : ∀ (g : CodeGenerator) rc, P { g with m_register_cache := rc } = P g)
    (invalidate clear_dirty : Bool) (g : CodeGenerator) :
    P (g.FlushAllGuestRegisters invalidate clear_dirty) = P g := by
  have hstep : ∀ b g, P (FlushGuestRegister invalidate b g) = P g := by
    intro b g
    unfold FlushGuestRegister
    cases b.2.dirty <;> cases (invalidate && b.2.IsInHostRegister) <;> simp [hE, hF]
  have hfold : ∀ (l : List (Reg × Value)) g,
      P (l.foldl (fun acc b => FlushGuestRegister invalidate b acc) g) = P g := by
    intro l
    induction l with
    | nil => intro g; rfl
    | cons b t ih => intro g; rw [List.foldl_cons, ih, hstep]
  unfold FlushAllGuestRegisters
  rw [hR, hfold]

theorem resetDirtyFlags_flags (cbi : CodeBlockInstruction) (g : CodeGenerator) :
    (g.InstructionPrologue_resetDirtyFlags cbi).m_branch_was_taken_dirty = false ∧
    (g.InstructionPrologue_resetDirtyFlags cbi).m_current_instruction_was_branch_taken_dirty =
      g.m_branch_was_taken_dirty := by
  unfold InstructionPrologue_resetDirtyFlags
  cases h1 : g.m_branch_was_taken_dirty <;>
  cases h2 : g.m_current_instruction_was_branch_taken_dirty <;>
  cases h3 : g.m_current_instruction_in_branch_delay_slot_dirty <;>
  cases h4 : cbi.is_branch_delay_slot <;>
  simp [h1, h2, h3, h4, ReleaseValue, AllocateScratch, AllocateHostReg, FreeHostReg,
    Value.scratchIn, Value.IsInHostRegister, Value.IsScratch, EmitLoadCPUStructField,
    EmitStoreCPUStructField, Emit]

theorem InstructionEpilogue_load_delay_dirty (cbi : CodeBlockInstruction) (g : CodeGenerator)
    (h : g.m_load_delay_dirty = true) :
    (g.InstructionEpilogue cbi).m_load_delay_dirty = false ∧
    (g.InstructionEpilogue cbi).m_next_load_delay_dirty = true := by
  unfold InstructionEpilogue
  simp [h, ReleaseValue, AllocateScratch, AllocateHostReg, FreeHostReg,
    Value.scratchIn, Value.IsInHostRegister, Value.IsScratch, EmitLoadCPUStructField,
    EmitStoreCPUStructField, Emit]

theorem Compile_Fallback_call_frame (can_trap : Bool) (g : CodeGenerator) :
    (g.Compile_Fallback_call can_trap).m_register_cache = g.m_register_cache ∧
    (g.Compile_Fallback_call can_trap).m_block = g.m_block ∧
    (g.Compile_Fallback_call can_trap).m_operand_memory_addresses =
      g.m_operand_memory_addresses ∧
    (g.Compile_Fallback_call can_trap).m_current_instruction_was_branch_taken_dirty =
      g.m_current_instruction_was_branch_taken_dirty ∧
    (g.Compile_Fallback_call can_trap).m_next_load_delay_dirty = g.m_next_load_delay_dirty ∧
    (g.Compile_Fallback_call can_trap).m_delayed_pc_add = g.m_delayed_pc_add ∧
    (g.Compile_Fallback_call can_trap).m_delayed_cycles_add = g.m_delayed_cycles_add := by
  unfold Compile_Fallback_call
  cases can_trap <;>
  simp [ReleaseValue, AllocateScratch, AllocateHostReg, FreeHostReg, Value.scratchIn,
    Value.IsInHostRegister, Value.IsScratch, EmitFunctionCall, EmitBlockExitOnBool, Emit]

/-- The generator just before the epilogue of `Compile_Fallback`. -/
theorem Compile_Fallback_eq (canTrap : Instruction → Bool → Bool)
    (cbi : CodeBlockInstruction) (g : CodeGenerator) (block : CodeBlock)
    (hb : g.m_block = some block) :
    g.Compile_Fallback canTrap cbi =
      some (true, (g.fallbackBody canTrap cbi block).InstructionEpilogue cbi) := by
  have hb3 : ((((g.InstructionPrologue_resetDirtyFlags cbi).InstructionPrologue_sync cbi
      1).FlushAllGuestRegisters true true).EmitStoreCPUStructField .m_current_instruction_bits
        (Value.FromConstantU32 cbi.instruction.bits)).m_block = some block := by
    show (((g.InstructionPrologue_resetDirtyFlags cbi).InstructionPrologue_sync cbi
      1).FlushAllGuestRegisters true true).m_block = some block
    rw [FlushAllGuestRegisters_preserves (fun g => g.m_block) (fun _ _ => rfl) (fun _ _ => rfl)
      (fun _ _ => rfl), (sync_frame cbi 1 _).2.1, (resetDirtyFlags_frame cbi g).2.1, hb]
  unfold Compile_Fallback
  rw [InstructionPrologue_forced canTrap cbi 1 g block hb]
  simp only [hb3]
  rfl

/-- C8 (as amended): with a block in place, `Compile_Fallback` returns `true` and afterwards
`m_branch_was_taken_dirty` and `m_current_instruction_in_branch_delay_slot_dirty` are true;
`m_load_delay_dirty`, set before the epilogue, has been consumed by it and is false, with
`m_next_load_delay_dirty` true; `m_current_instruction_was_branch_taken_dirty` is not written
by the fallback and is what the prologue left, the value of `m_branch_was_taken_dirty` on
entry. -/
theorem Compile_Fallback_dirty_flags (canTrap : Instruction → Bool → Bool)
    (cbi : CodeBlockInstruction) (g : CodeGenerator) (block : CodeBlock)
    (hb : g.m_block = some block) :
    ∃ g1, g.Compile_Fallback canTrap cbi = some (true, g1) ∧
      g1.m_branch_was_taken_dirty = true ∧
      g1.m_current_instruction_in_branch_delay_slot_dirty = true ∧
      g1.m_load_delay_dirty = false ∧
      g1.m_next_load_delay_dirty = true ∧
      g1.m_current_instruction_was_branch_taken_dirty = g.m_branch_was_taken_dirty := by
  refine ⟨_, Compile_Fallback_eq canTrap cbi g block hb, ?_, ?_, ?_, ?_, ?_⟩
  · rw [(InstructionEpilogue_frame cbi _).2.2.2.2.2.1]
    rfl
  · rw [(InstructionEpilogue_frame cbi _).2.2.2.2.2.2.2]
    rfl
  · exact (InstructionEpilogue_load_delay_dirty cbi _ rfl).1
  · exact (InstructionEpilogue_load_delay_dirty cbi _ rfl).2
  · rw [(InstructionEpilogue_frame cbi _).2.2.2.2.2.2.1]
    show (Compile_Fallback_call _ _).m_current_instruction_was_branch_taken_dirty = _
    rw [(Compile_Fallback_call_frame _ _).2.2.2.1]
    show (((g.InstructionPrologue_resetDirtyFlags cbi).InstructionPrologue_sync cbi
        1).FlushAllGuestRegisters true true).m_current_instruction_was_branch_taken_dirty =
        g.m_branch_was_taken_dirty
    rw [FlushAllGuestRegisters_preserves
      (fun g => g.m_current_instruction_was_branch_taken_dirty) (fun _ _ => rfl)
      (fun _ _ => rfl) (fun _ _ => rfl), (sync_frame cbi 1 _).2.2.2.2.2.2.2.2,
      (resetDirtyFlags_flags cbi g).2]

/-- Witness of C8 (as amended): the fallback for `lw` at the start of the sample block, where
`m_branch_was_taken_dirty` is set. -/
theorem Compile_Fallback_dirty_flags_witness :
    ∃ g1, (fresh.CompileBlock_begin sampleBlock).Compile_Fallback sampleCanTrap sampleLw =
        some (true, g1) ∧
      g1.m_branch_was_taken_dirty = true ∧
      g1.m_current_instruction_in_branch_delay_slot_dirty = true ∧
      g1.m_load_delay_dirty = false ∧
      g1.m_next_load_delay_dirty = true ∧
      g1.m_current_instruction_was_branch_taken_dirty = true :=
  Compile_Fallback_dirty_flags sampleCanTrap sampleLw (fresh.CompileBlock_begin sampleBlock)
    sampleBlock rfl

/-- Counterexample to C8: after `Compile_Fallback` the flag `m_load_delay_dirty` is false,
from clean flags and from all flags dirty alike, and from clean flags
`m_current_instruction_was_branch_taken_dirty` is false as well. The four flags are listed in
the order branch-was-taken, current-instruction-was-branch-taken,
current-instruction-in-branch-delay-slot, load-delay. -/
theorem Compile_Fallback_not_all_dirty :
    (freshInBlock.Compile_Fallback sampleCanTrap sampleLw).map
        (fun r => (r.2.m_branch_was_taken_dirty,
          r.2.m_current_instruction_was_branch_taken_dirty,
          r.2.m_current_instruction_in_branch_delay_slot_dirty,
          r.2.m_load_delay_dirty)) = some (true, false, true, false) ∧
    (allDirtyInBlock.Compile_Fallback sampleCanTrap sampleLw).map
        (fun r => (r.2.m_branch_was_taken_dirty,
          r.2.m_current_instruction_was_branch_taken_dirty,
          r.2.m_current_instruction_in_branch_delay_slot_dirty,
          r.2.m_load_delay_dirty)) = some (true, true, true, false) :=
  ⟨rfl, rfl⟩

/-! ## The start of a block -/

/-- C9 (as amended): at the start of `CompileBlock`, before the first instruction is
compiled, the branch-taken, current-instruction-in-branch-delay-slot and load-delay dirty
flags are set to dirty and the current-instruction-was-branch-taken dirty flag is set to
clean, whatever the state of the generator; `m_next_load_delay_dirty` is left as it was. -/
theorem CompileBlock_begin_flags (block : CodeBlock) (g : CodeGenerator) :
    (g.CompileBlock_begin block).m_branch_was_taken_dirty = true ∧
    (g.CompileBlock_begin block).m_current_instruction_was_branch_taken_dirty = false ∧
    (g.CompileBlock_begin block).m_current_instruction_in_branch_delay_slot_dirty = true ∧
    (g.CompileBlock_begin block).m_load_delay_dirty = true ∧
    (g.CompileBlock_begin block).m_next_load_delay_dirty = g.m_next_load_delay_dirty :=
  ⟨rfl, rfl, rfl, rfl, rfl⟩

/-- Counterexample to C9: from a generator left with all flags dirty, the start of
`CompileBlock` sets `m_current_instruction_was_branch_taken_dirty` to false, not to dirty. -/
theorem CompileBlock_begin_clears_current_branch_taken :
    allDirtyInBlock.m_current_instruction_was_branch_taken_dirty = true ∧
    (allDirtyInBlock.CompileBlock_begin sampleBlock).m_current_instruction_was_branch_taken_dirty
      = false :=
  ⟨rfl, rfl⟩

/-! ## Host register balance -/

theorem boundOf_eraseP (l : List (Reg × Value)) (reg : Reg) (v : Value)
    (h : l.lookup reg = some v) :
    (v.IsInHostRegister = true →
      (boundOf l).Perm (v.host_reg :: boundOf (l.eraseP (fun b => b.1 == reg)))) ∧
    (v.IsInHostRegister = false → boundOf (l.eraseP (fun b => b.1 == reg)) = boundOf l) := by
  induction l with
  | nil => simp at h
  | cons b t ih =>
    obtain ⟨k, w⟩ := b
    by_cases hk : reg = k
    · subst hk
      have hw : w = v := by simpa [List.lookup_cons] using h
      subst hw
      constructor
      · intro hv
        simp [boundOf, List.eraseP_cons, hv]
      · intro hv
        simp [boundOf, List.eraseP_cons, hv]
    · have hk1 : (reg == k) = false := by simpa using hk
      have hk2 : (k == reg) = false := by simpa using fun e : k = reg => hk e.symm
      have ht : t.lookup reg = some v := by simpa [List.lookup_cons, hk1] using h
      obtain ⟨ih1, ih2⟩ := ih ht
      constructor
      · intro hv
        have := ih1 hv
        cases hw : w.IsInHostRegister
        · simpa [boundOf, List.eraseP_cons, hk2, hw] using this
        · have h2 : boundOf ((k, w) :: t) = w.host_reg :: boundOf t := by
            simp [boundOf, hw]
          have h3 : boundOf (((k, w) :: t).eraseP (fun b => b.1 == reg)) =
              w.host_reg :: boundOf (t.eraseP (fun b => b.1 == reg)) := by
            simp [boundOf, List.eraseP_cons, hk2, hw]
          rw [h2, h3]
          exact (List.Perm.cons _ this).trans (List.Perm.swap _ _ _)
      · intro hv
        have := ih2 hv
        cases hw : w.IsInHostRegister <;>
          simpa [boundOf, List.eraseP_cons, hk2, hw] using this

theorem InvalidateGuestRegister_noLeak (reg : Reg) (g : CodeGenerator)
    (h : g.NoLeakedHostRegs) : (g.InvalidateGuestRegister reg).NoLeakedHostRegs := by
  unfold NoLeakedHostRegs RegisterCache.boundHostRegs at h ⊢
  unfold InvalidateGuestRegister RegisterCache.binding
  cases hl : g.m_register_cache.m_guest_reg_cache.lookup reg with
  | none => simpa using h
  | some v =>
    obtain ⟨h1, h2⟩ := boundOf_eraseP _ reg v hl
    cases hv : v.IsInHostRegister
    · simpa [hv, h2 hv] using h
    · have h3 := (h.erase v.host_reg).trans ((h1 hv).erase v.host_reg).subperm
      simpa [hv, FreeHostReg] using h3

theorem WriteGuestRegister_noLeak (reg : Reg) (value : Value) (g : CodeGenerator)
    (h : g.NoLeakedHostRegs) : (g.WriteGuestRegister reg value).NoLeakedHostRegs := by
  have h1 := InvalidateGuestRegister_noLeak reg g h
  unfold NoLeakedHostRegs RegisterCache.boundHostRegs at h1 ⊢
  unfold WriteGuestRegister
  cases hv : value.kind <;>
    simp [boundOf, Value.IsInHostRegister, hv] <;>
    first
      | exact h1
      | exact List.Subperm.cons_right _ h1

theorem flush_fold_alloc (l : List (Reg × Value)) (g : CodeGenerator) :
    (l.foldl (fun acc b => FlushGuestRegister true b acc) g).m_register_cache.m_host_register_allocated
      = g.m_register_cache.m_host_register_allocated.diff (boundOf l) := by
  induction l generalizing g with
  | nil => simp [boundOf]
  | cons b t ih =>
    rw [List.foldl_cons, ih]
    unfold FlushGuestRegister
    cases hd : b.2.dirty <;> cases hv : b.2.IsInHostRegister <;>
      simp [boundOf, hd, hv, FreeHostReg, Emit]

theorem diff_eq_nil_of_subperm (a b : List HostReg) (h : a.Subperm b) : a.diff b = [] := by
  induction b generalizing a with
  | nil => simpa using List.subperm_nil.mp h
  | cons x t ih =>
    rw [List.diff_cons]
    apply ih
    simpa using h.erase x

/-- After a flush with invalidation no guest register is bound, and when no host register
was leaked none is allocated. -/
theorem FlushAllGuestRegisters_invalidate (clear_dirty : Bool) (g : CodeGenerator) :
    (g.FlushAllGuestRegisters true clear_dirty).m_register_cache.m_guest_reg_cache = [] ∧
    (g.NoLeakedHostRegs →
      (g.FlushAllGuestRegisters true clear_dirty).m_register_cache.m_host_register_allocated
        = []) := by
  unfold FlushAllGuestRegisters
  refine ⟨by simp, fun h => ?_⟩
  simp only [flush_fold_alloc]
  exact diff_eq_nil_of_subperm _ _ h

theorem ReleaseOperandMemoryAddresses_frame (g : CodeGenerator) :
    g.ReleaseOperandMemoryAddresses.m_block = g.m_block ∧
    g.ReleaseOperandMemoryAddresses.m_register_cache.m_guest_reg_cache =
      g.m_register_cache.m_guest_reg_cache ∧
    g.ReleaseOperandMemoryAddresses.m_register_cache.m_host_register_allocated.Subperm
      g.m_register_cache.m_host_register_allocated := by
  have hfold : ∀ (l : List Value) (a : CodeGenerator),
      (l.foldl (fun acc v => acc.ReleaseValue v) a).m_block = a.m_block ∧
      (l.foldl (fun acc v => acc.ReleaseValue v) a).m_register_cache.m_guest_reg_cache =
        a.m_register_cache.m_guest_reg_cache ∧
      (l.foldl (fun acc v => acc.ReleaseValue v) a).m_register_cache.m_host_register_allocated.Subperm
        a.m_register_cache.m_host_register_allocated := by
    intro l
    induction l with
    | nil => intro a; exact ⟨rfl, rfl, List.Subperm.refl _⟩
    | cons v t ih =>
      intro a
      obtain ⟨i1, i2, i3⟩ := ih (a.ReleaseValue v)
      have hstep : (a.ReleaseValue v).m_block = a.m_block ∧
          (a.ReleaseValue v).m_register_cache.m_guest_reg_cache =
            a.m_register_cache.m_guest_reg_cache ∧
          (a.ReleaseValue v).m_register_cache.m_host_register_allocated.Subperm
            a.m_register_cache.m_host_register_allocated := by
        unfold ReleaseValue
        cases (v.IsInHostRegister && v.IsScratch)
        · exact ⟨rfl, rfl, List.Subperm.refl _⟩
        · exact ⟨rfl, rfl, List.erase_subperm _ _⟩
      rw [List.foldl_cons]
      exact ⟨i1.trans hstep.1, i2.trans hstep.2.1, i3.trans hstep.2.2⟩
  unfold ReleaseOperandMemoryAddresses
  exact hfold _ g

/-- One instruction of a block: compilation succeeds, the block stays in place and no host
register is leaked. -/
theorem CompileInstruction_invariant (canTrap : Instruction → Bool → Bool)
    (cbi : CodeBlockInstruction) (g : CodeGenerator) (block : CodeBlock)
    (hb : g.m_block = some block) (h : g.NoLeakedHostRegs) :
    ∃ g1, CompileInstruction canTrap cbi g = some (true, g1) ∧ g1.m_block = some block ∧
      g1.NoLeakedHostRegs := by
  have hpro : ((g.InstructionPrologue_resetDirtyFlags cbi).InstructionPrologue_sync cbi
      1).m_register_cache = g.m_register_cache := by
    rw [(sync_frame cbi 1 _).1, (resetDirtyFlags_frame cbi g).1]
  have hprob : ((g.InstructionPrologue_resetDirtyFlags cbi).InstructionPrologue_sync cbi
      1).m_block = some block := by
    rw [(sync_frame cbi 1 _).2.1, (resetDirtyFlags_frame cbi g).2.1, hb]
  have hfinish : ∀ g2 : CodeGenerator, g2.m_block = some block → g2.NoLeakedHostRegs →
      g2.ReleaseOperandMemoryAddresses.m_block = some block ∧
      g2.ReleaseOperandMemoryAddresses.NoLeakedHostRegs := by
    intro g2 hb2 hn2
    obtain ⟨r1, r2, r3⟩ := ReleaseOperandMemoryAddresses_frame g2
    refine ⟨r1.trans hb2, ?_⟩
    unfold NoLeakedHostRegs RegisterCache.boundHostRegs at hn2 ⊢
    rw [r2]
    exact r3.trans hn2
  unfold CompileInstruction
  by_cases hop : cbi.instruction.op = InstructionOp_lui
  · -- the immediate load
    have hrun : g.Compile_lui canTrap cbi = some (true,
        ((((g.InstructionPrologue_resetDirtyFlags cbi).InstructionPrologue_sync cbi
          1).WriteGuestRegister cbi.instruction.rt
          (Value.FromConstantU32 ((cbi.instruction.imm_zext32 * 2 ^ 16) % 2 ^ 32))).InstructionEpilogue
          cbi)) := by
      unfold Compile_lui
      rw [InstructionPrologue_forced canTrap cbi 1 g block hb]
    simp only [hop, if_true, hrun]
    refine ⟨_, rfl, hfinish _ ?_ ?_⟩
    · rw [(InstructionEpilogue_frame cbi _).2.1]
      unfold WriteGuestRegister InvalidateGuestRegister
      split <;> first | exact hprob | (split <;> exact hprob)
    · have hw := WriteGuestRegister_noLeak cbi.instruction.rt
        (Value.FromConstantU32 ((cbi.instruction.imm_zext32 * 2 ^ 16) % 2 ^ 32))
        ((g.InstructionPrologue_resetDirtyFlags cbi).InstructionPrologue_sync cbi 1)
        (by unfold NoLeakedHostRegs; rw [hpro]; exact h)
      unfold NoLeakedHostRegs at hw ⊢
      rw [(InstructionEpilogue_frame cbi _).1]
      exact hw
  · -- the fallback
    simp only [hop, if_false, Compile_Fallback_eq canTrap cbi g block hb]
    refine ⟨_, rfl, hfinish _ ?_ ?_⟩
    · rw [(InstructionEpilogue_frame cbi _).2.1]
      show (Compile_Fallback_call _ _).m_block = some block
      rw [(Compile_Fallback_call_frame _ _).2.1]
      show (((g.InstructionPrologue_resetDirtyFlags cbi).InstructionPrologue_sync cbi
        1).FlushAllGuestRegisters true true).m_block = some block
      rw [FlushAllGuestRegisters_preserves (fun g => g.m_block) (fun _ _ => rfl)
        (fun _ _ => rfl) (fun _ _ => rfl), hprob]
    · unfold NoLeakedHostRegs
      rw [(InstructionEpilogue_frame cbi _).1]
      show (Compile_Fallback_call _ _).m_register_cache.m_host_register_allocated.Subperm
        (Compile_Fallback_call _ _).m_register_cache.boundHostRegs
      rw [(Compile_Fallback_call_frame _ _).1]
      show (((g.InstructionPrologue_resetDirtyFlags cbi).InstructionPrologue_sync cbi
        1).FlushAllGuestRegisters true true).m_register_cache.m_host_register_allocated.Subperm
        (((g.InstructionPrologue_resetDirtyFlags cbi).InstructionPrologue_sync cbi
        1).FlushAllGuestRegisters true true).m_register_cache.boundHostRegs
      rw [(FlushAllGuestRegisters_invalidate true _).2
        (by unfold NoLeakedHostRegs; rw [hpro]; exact h)]
      exact List.nil_subperm

/-- The instruction loop of a block: every instruction compiles, the block stays in place
and no host register is leaked. -/
theorem CompileBlock_loop_invariant (canTrap : Instruction → Bool → Bool)
    (instrs : List CodeBlockInstruction) (g : CodeGenerator) (block : CodeBlock)
    (hb : g.m_block = some block) (h : g.NoLeakedHostRegs) :
    ∃ g1, CompileBlock_loop canTrap instrs g = some (true, g1) ∧ g1.m_block = some block ∧
      g1.NoLeakedHostRegs := by
  induction instrs generalizing g with
  | nil => exact ⟨g, rfl, hb, h⟩
  | cons cbi rest ih =>
    obtain ⟨g1, h1, hb1, hn1⟩ := CompileInstruction_invariant canTrap cbi g block hb h
    obtain ⟨g2, h2, hb2, hn2⟩ := ih g1 hb1 hn1
    exact ⟨g2, by simp only [CompileBlock_loop_cons, h1, h2], hb2, hn2⟩

theorem SyncInstructionPointer_regcache (g : CodeGenerator) :
    g.SyncInstructionPointer.m_register_cache = g.m_register_cache := by
  unfold SyncInstructionPointer
  by_cases h1 : g.m_delayed_pc_add > 0 <;> by_cases h2 : g.m_delayed_cycles_add > 0 <;>
    simp [h1, h2, EmitAddCPUStructField, Emit]

/-- C10: from a generator without leaked host registers (every allocated host register backs
a guest register binding, as in a generator as constructed), `CompileBlock` returns success
for every block, and on return the register cache holds zero allocated host registers and no
guest register binding; the generator is again without leaked host registers. -/
theorem CompileBlock_register_balance (canTrap : Instruction → Bool → Bool)
    (block : CodeBlock) (g : CodeGenerator) (h : g.NoLeakedHostRegs) :
    ∃ r, CompileBlock canTrap block g = some r ∧ r.result = true ∧
      r.gen.GetUsedHostRegisters = 0 ∧ r.gen.m_register_cache.m_guest_reg_cache = [] ∧
      r.gen.NoLeakedHostRegs := by
  obtain ⟨g1, h1, -, hn1⟩ := CompileBlock_loop_invariant canTrap block.instructions
    (g.CompileBlock_begin block) block rfl h
  have hrun : CompileBlock canTrap block g = some
      { result := true,
        out_function_ptr := some (FinalizeBlock g1.BlockEpilogue.EmitEndBlock).1,
        out_code_size := some (FinalizeBlock g1.BlockEpilogue.EmitEndBlock).2,
        gen := { g1.BlockEpilogue.EmitEndBlock with
                 m_block_end := none, m_block_start := none, m_block := none } } := by
    simp only [CompileBlock_unfold, h1]
  have halloc : (g1.FlushAllGuestRegisters true
      false).SyncInstructionPointer.m_register_cache.m_host_register_allocated = [] := by
    rw [SyncInstructionPointer_regcache, (FlushAllGuestRegisters_invalidate false g1).2 hn1]
  refine ⟨_, hrun, rfl, ?_, ?_, ?_⟩
  · show (g1.FlushAllGuestRegisters true
      false).SyncInstructionPointer.m_register_cache.m_host_register_allocated.length = 0
    rw [halloc]
    rfl
  rotate_left
  · show (g1.FlushAllGuestRegisters true
      false).SyncInstructionPointer.m_register_cache.m_host_register_allocated.Subperm _
    rw [halloc]
    exact List.nil_subperm
  · show (g1.FlushAllGuestRegisters true false).SyncInstructionPointer.m_register_cache.m_guest_reg_cache = []
    rw [SyncInstructionPointer_regcache, (FlushAllGuestRegisters_invalidate false g1).1]

/-- Witness of C10: the sample block compiled from a generator that holds guest register 4
in host register 3. -/
theorem CompileBlock_register_balance_witness :
    ∃ r, CompileBlock sampleCanTrap sampleBlock cachedGenerator = some r ∧ r.result = true ∧
      r.gen.GetUsedHostRegisters = 0 ∧ r.gen.m_register_cache.m_guest_reg_cache = [] ∧
      r.gen.NoLeakedHostRegs :=
  CompileBlock_register_balance sampleCanTrap sampleBlock cachedGenerator (List.Subperm.refl _)

/-! ## Failure of an instruction -/

/-- Both opcode compilers of the file end in `return true`, so a result of the member
`CompileInstruction` is never `false`: the failure return of `CompileBlock` is reached only
with an instruction compiler that can fail, which is why it is stated over
`CompileBlock_with`. -/
theorem CompileInstruction_result (canTrap : Instruction → Bool → Bool)
    (cbi : CodeBlockInstruction) (g g1 : CodeGenerator) (b : Bool)
    (h : CompileInstruction canTrap cbi g = some (b, g1)) : b = true := by
  unfold CompileInstruction Compile_lui Compile_Fallback at h
  by_cases hop : cbi.instruction.op = InstructionOp_lui
  · simp only [hop, if_true] at h
    cases hp : InstructionPrologue canTrap cbi 1 true g with
    | none => rw [hp] at h; simp at h
    | some g2 => rw [hp] at h; simp at h; exact h.1
  · simp only [hop, if_false] at h
    cases hp : InstructionPrologue canTrap cbi 1 true g with
    | none => rw [hp] at h; simp at h
    | some g2 =>
      rw [hp] at h
      simp only at h
      cases hb : (EmitStoreCPUStructField .m_current_instruction_bits
          (Value.FromConstantU32 cbi.instruction.bits)
          (FlushAllGuestRegisters true true g2)).m_block with
      | none => rw [hb] at h; simp at h
      | some blk => rw [hb] at h; simp at h; exact h.1

theorem resetDirtyFlags_emit_eq (cbi : CodeBlockInstruction) (g : CodeGenerator) :
    (g.InstructionPrologue_resetDirtyFlags cbi).m_emit = g.m_emit ++ g.resetDirtyFlagsCode cbi := by
  unfold InstructionPrologue_resetDirtyFlags resetDirtyFlagsCode
  cases h1 : g.m_branch_was_taken_dirty <;>
  cases h2 : g.m_current_instruction_was_branch_taken_dirty <;>
  cases h3 : g.m_current_instruction_in_branch_delay_slot_dirty <;>
  cases h4 : cbi.is_branch_delay_slot <;>
  simp [h1, h2, h3, h4, ReleaseValue, AllocateScratch, AllocateHostReg, FreeHostReg,
    Value.scratchIn, Value.IsInHostRegister, Value.IsScratch, EmitLoadCPUStructField,
    EmitStoreCPUStructField, Emit]

theorem InstructionEpilogue_emit (cbi : CodeBlockInstruction) (g : CodeGenerator) :
    (g.InstructionEpilogue cbi).m_emit = g.m_emit ++ g.epilogueCode := by
  unfold InstructionEpilogue epilogueCode
  cases h1 : g.m_load_delay_dirty <;> cases h2 : g.m_next_load_delay_dirty <;>
  simp [h1, h2, ReleaseValue, AllocateScratch, AllocateHostReg, FreeHostReg,
    Value.scratchIn, Value.IsInHostRegister, Value.IsScratch, EmitLoadCPUStructField,
    EmitStoreCPUStructField, Emit]

theorem SyncInstructionPointer_emit (g : CodeGenerator) :
    g.SyncInstructionPointer.m_emit = g.m_emit ++ g.syncPointerCode := by
  unfold SyncInstructionPointer syncPointerCode
  by_cases h1 : g.m_delayed_pc_add > 0 <;> by_cases h2 : g.m_delayed_cycles_add > 0 <;>
    simp [h1, h2, EmitAddCPUStructField, Emit]

theorem Compile_Fallback_call_emit (can_trap : Bool) (g : CodeGenerator) :
    (g.Compile_Fallback_call can_trap).m_emit = g.m_emit ++ g.callCode can_trap := by
  unfold Compile_Fallback_call callCode
  cases can_trap <;>
  simp [ReleaseValue, AllocateScratch, AllocateHostReg, FreeHostReg, Value.scratchIn,
    Value.IsInHostRegister, Value.IsScratch, EmitFunctionCall, EmitBlockExitOnBool, Emit]

theorem flush_fold_emit (invalidate : Bool) (l : List (Reg × Value)) (g : CodeGenerator) :
    (l.foldl (fun acc b => FlushGuestRegister invalidate b acc) g).m_emit =
      g.m_emit ++ flushCode l := by
  induction l generalizing g with
  | nil => simp [flushCode]
  | cons b t ih =>
    rw [List.foldl_cons, ih]
    unfold FlushGuestRegister
    cases hd : b.2.dirty <;> cases hv : (invalidate && b.2.IsInHostRegister) <;>
      simp [flushCode, hd, FreeHostReg, Emit]

theorem FlushAllGuestRegisters_emit (invalidate clear_dirty : Bool) (g : CodeGenerator) :
    (g.FlushAllGuestRegisters invalidate clear_dirty).m_emit =
      g.m_emit ++ flushCode g.m_register_cache.m_guest_reg_cache := by
  unfold FlushAllGuestRegisters
  exact flush_fold_emit invalidate _ g

/-! ## The downcount constant -/

theorem notU32_pred (c : Int) : notU32 (toU32 (c - 1)) = (2 ^ 32 - toU32 c) % 2 ^ 32 := by
  unfold notU32 toU32
  omega

theorem syncCode_downcount (cbi : CodeBlockInstruction) (cycles : Int) (g : CodeGenerator) :
    (g.syncCode cbi cycles).filter (HostOp.writesField .m_downcount) =
      [.AddCPUStructField .m_downcount
        (Value.FromConstantU32 (notU32 (toU32 (g.m_delayed_cycles_add + cycles - 1))))] := by
  unfold syncCode
  cases cbi.is_branch_delay_slot <;> simp [HostOp.writesField]

theorem resetDirtyFlagsCode_fields (cbi : CodeBlockInstruction) (g : CodeGenerator) :
    ∀ op ∈ g.resetDirtyFlagsCode cbi,
      op.field ≠ some .m_regs_pc ∧ op.field ≠ some .m_regs_npc ∧
      op.field ≠ some .m_current_instruction_pc ∧ op.field ≠ some .m_pending_ticks ∧
      op.field ≠ some .m_downcount := by
  unfold resetDirtyFlagsCode
  cases g.m_branch_was_taken_dirty <;>
  cases g.m_current_instruction_was_branch_taken_dirty <;>
  cases g.m_current_instruction_in_branch_delay_slot_dirty <;>
  cases cbi.is_branch_delay_slot <;>
  simp [HostOp.field]

theorem filter_writesField_eq_nil (ops : List HostOp) (f : CoreField)
    (h : ∀ op ∈ ops, op.field ≠ some f) : ops.filter (HostOp.writesField f) = [] := by
  rw [List.filter_eq_nil_iff]
  intro op hop
  have := h op hop
  cases op <;> simp_all [HostOp.field, HostOp.writesField]

/-- C13 (as amended): when `InstructionPrologue` synchronises with total cycle cost `c`
(the accumulated deferred cycles plus the cycles of this instruction), the only write to the
downcount that it emits is the addition of the 32-bit constant `~u32(c - 1)`, the bitwise
complement of `c - 1`, and that constant is the two's complement negation of `c` itself,
`(2^32 - c) mod 2^32`. -/
theorem InstructionPrologue_downcount_constant (canTrap : Instruction → Bool → Bool)
    (cbi : CodeBlockInstruction) (cycles : Int) (force_sync : Bool) (g : CodeGenerator)
    (block : CodeBlock) (hb : g.m_block = some block)
    (hc : canTrap cbi.instruction block.key.user_mode = true ∨ force_sync = true) :
    ∃ g1 ops, InstructionPrologue canTrap cbi cycles force_sync g = some g1 ∧
      g1.m_emit = g.m_emit ++ ops ∧
      ops.filter (HostOp.writesField .m_downcount) =
        [.AddCPUStructField .m_downcount
          (Value.FromConstantU32 (notU32 (toU32 (g.m_delayed_cycles_add + cycles - 1))))] ∧
      notU32 (toU32 (g.m_delayed_cycles_add + cycles - 1)) =
        (2 ^ 32 - toU32 (g.m_delayed_cycles_add + cycles)) % 2 ^ 32 := by
  refine ⟨_, g.resetDirtyFlagsCode cbi ++
      (g.InstructionPrologue_resetDirtyFlags cbi).syncCode cbi cycles,
    InstructionPrologue_synced canTrap cbi cycles force_sync g block hb hc, ?_, ?_,
    notU32_pred _⟩
  · rw [sync_emit, resetDirtyFlags_emit_eq, List.append_assoc]
  · rw [List.filter_append, filter_writesField_eq_nil _ _
      (fun op hop => (resetDirtyFlagsCode_fields cbi g op hop).2.2.2.2),
      syncCode_downcount, (resetDirtyFlags_frame cbi g).2.2.2.2.1]
    rfl

/-- Witness of C13 (as amended): the forced prologue of `lw` with cycle cost 1 from zero
accumulators adds `0xFFFFFFFF`, the negation of 1, to the downcount. -/
theorem InstructionPrologue_downcount_constant_witness :
    ∃ g1 ops, InstructionPrologue sampleCanTrap sampleLw 1 true freshInBlock = some g1 ∧
      g1.m_emit = freshInBlock.m_emit ++ ops ∧
      ops.filter (HostOp.writesField .m_downcount) =
        [.AddCPUStructField .m_downcount (Value.FromConstantU32 0xFFFFFFFF)] ∧
      (0xFFFFFFFF : Nat) = (2 ^ 32 - 1) % 2 ^ 32 :=
  InstructionPrologue_downcount_constant sampleCanTrap sampleLw 1 true freshInBlock sampleBlock
    rfl (Or.inr rfl)

/-- Counterexample to C13: for total cycle cost `c = 1` the constant added to the downcount
is `0xFFFFFFFF`, whereas the two's complement negation of `c - 1 = 0` is `0`. -/
theorem InstructionPrologue_downcount_not_negation_of_pred :
    (InstructionPrologue sampleCanTrap sampleLw 1 true freshInBlock).map
        (fun g1 => g1.m_emit.filter (HostOp.writesField .m_downcount)) =
      some [.AddCPUStructField .m_downcount (Value.FromConstant 0xFFFFFFFF .RegSize_32)] ∧
    Value.FromConstant 0xFFFFFFFF .RegSize_32 ≠
      Value.FromConstant ((2 ^ 32 - (1 - 1)) % 2 ^ 32) .RegSize_32 := by
  refine ⟨rfl, ?_⟩
  decide

/-! ## The deferral step and the flush of the accumulators -/

/-- C15: with a block in place, `InstructionPrologue` called with `force_sync = false` for an
instruction that cannot trap in the privilege mode of the block returns; the code it emits
(the lazy flag writes) contains no load, store or add of pc, npc, current-instruction-pc,
pending ticks or downcount; `m_delayed_pc_add` is increased by 4 and `m_delayed_cycles_add`
by the given cycle count, in `u32` and `s32` arithmetic, which is exact when the sums are in
range. -/
theorem InstructionPrologue_defers (canTrap : Instruction → Bool → Bool)
    (cbi : CodeBlockInstruction) (cycles : Int) (g : CodeGenerator) (block : CodeBlock)
    (hb : g.m_block = some block)
    (hc : canTrap cbi.instruction block.key.user_mode = false) :
    ∃ g1 ops, InstructionPrologue canTrap cbi cycles false g = some g1 ∧
      g1.m_emit = g.m_emit ++ ops ∧
      (∀ op ∈ ops, op.field ≠ some .m_regs_pc ∧ op.field ≠ some .m_regs_npc ∧
        op.field ≠ some .m_current_instruction_pc ∧ op.field ≠ some .m_pending_ticks ∧
        op.field ≠ some .m_downcount) ∧
      g1.m_delayed_pc_add = (g.m_delayed_pc_add + INSTRUCTION_SIZE) % 2 ^ 32 ∧
      (g.m_delayed_pc_add + 4 < 2 ^ 32 → g1.m_delayed_pc_add = g.m_delayed_pc_add + 4) ∧
      g1.m_delayed_cycles_add = wrapS32 (g.m_delayed_cycles_add + cycles) ∧
      (-2 ^ 31 ≤ g.m_delayed_cycles_add + cycles → g.m_delayed_cycles_add + cycles < 2 ^ 31 →
        g1.m_delayed_cycles_add = g.m_delayed_cycles_add + cycles) := by
  refine ⟨_, g.resetDirtyFlagsCode cbi,
    InstructionPrologue_deferred canTrap cbi cycles g block hb hc,
    resetDirtyFlags_emit_eq cbi g, resetDirtyFlagsCode_fields cbi g, rfl, ?_, rfl, ?_⟩
  · intro h
    show (g.m_delayed_pc_add + INSTRUCTION_SIZE) % 2 ^ 32 = g.m_delayed_pc_add + 4
    unfold INSTRUCTION_SIZE
    omega
  · intro h1 h2
    show wrapS32 (g.m_delayed_cycles_add + cycles) = g.m_delayed_cycles_add + cycles
    unfold wrapS32
    omega

/-- Witness of C15: the prologue of `lui` with `force_sync = false` and cycle cost 1, from
zero accumulators and clean flags, emits nothing and leaves the accumulators at 4 and 1. -/
theorem InstructionPrologue_defers_witness :
    ∃ g1 ops, InstructionPrologue sampleCanTrap sampleLui 1 false freshInBlock = some g1 ∧
      g1.m_emit = freshInBlock.m_emit ++ ops ∧
      (∀ op ∈ ops, op.field ≠ some .m_regs_pc ∧ op.field ≠ some .m_regs_npc ∧
        op.field ≠ some .m_current_instruction_pc ∧ op.field ≠ some .m_pending_ticks ∧
        op.field ≠ some .m_downcount) ∧
      g1.m_delayed_pc_add = 4 ∧
      (0 + 4 < 2 ^ 32 → g1.m_delayed_pc_add = 4) ∧
      g1.m_delayed_cycles_add = 1 ∧
      (-2 ^ 31 ≤ (0 : Int) + 1 → (0 : Int) + 1 < 2 ^ 31 → g1.m_delayed_cycles_add = 1) :=
  InstructionPrologue_defers sampleCanTrap sampleLui 1 freshInBlock sampleBlock rfl rfl

/-- C18: for a generator with a non-negative cycle accumulator, `SyncInstructionPointer`
emits nothing and changes nothing when both accumulators are zero; in general it emits an
addition of `m_delayed_pc_add` to npc when that is positive and an addition of
`m_delayed_cycles_add` to pending ticks (with the matching downcount addition) when that is
positive; afterwards both accumulators are zero, and a second call emits nothing and changes
nothing. -/
theorem SyncInstructionPointer_flushes (g : CodeGenerator)
    (hk : 0 ≤ g.m_delayed_cycles_add) :
    (g.m_delayed_pc_add = 0 → g.m_delayed_cycles_add = 0 → g.SyncInstructionPointer = g) ∧
    g.SyncInstructionPointer.m_emit = g.m_emit ++ g.syncPointerCode ∧
    g.syncPointerCode.filter (HostOp.writesField .m_regs_npc) =
      (if g.m_delayed_pc_add > 0 then
        [.AddCPUStructField .m_regs_npc (Value.FromConstantU32 g.m_delayed_pc_add)]
       else []) ∧
    g.syncPointerCode.filter (HostOp.writesField .m_pending_ticks) =
      (if g.m_delayed_cycles_add > 0 then
        [.AddCPUStructField .m_pending_ticks
          (Value.FromConstantU32 (toU32 g.m_delayed_cycles_add))]
       else []) ∧
    g.SyncInstructionPointer.m_delayed_pc_add = 0 ∧
    g.SyncInstructionPointer.m_delayed_cycles_add = 0 ∧
    g.SyncInstructionPointer.SyncInstructionPointer = g.SyncInstructionPointer := by
  have hzero : ∀ a : CodeGenerator, a.m_delayed_pc_add = 0 → a.m_delayed_cycles_add = 0 →
      a.SyncInstructionPointer = a := by
    intro a h1 h2
    unfold SyncInstructionPointer
    simp [h1, h2]
  have hp : g.SyncInstructionPointer.m_delayed_pc_add = 0 := by
    unfold SyncInstructionPointer
    by_cases h1 : g.m_delayed_pc_add > 0 <;> by_cases h2 : g.m_delayed_cycles_add > 0 <;>
      simp [h1, h2, EmitAddCPUStructField, Emit] <;> omega
  have hc : g.SyncInstructionPointer.m_delayed_cycles_add = 0 := by
    unfold SyncInstructionPointer
    by_cases h1 : g.m_delayed_pc_add > 0 <;> by_cases h2 : g.m_delayed_cycles_add > 0 <;>
      simp [h1, h2, EmitAddCPUStructField, Emit] <;> omega
  refine ⟨hzero g, SyncInstructionPointer_emit g, ?_, ?_, hp, hc, hzero _ hp hc⟩
  · unfold syncPointerCode
    by_cases h1 : g.m_delayed_pc_add > 0 <;> by_cases h2 : g.m_delayed_cycles_add > 0 <;>
      simp [h1, h2, HostOp.writesField]
  · unfold syncPointerCode
    by_cases h1 : g.m_delayed_pc_add > 0 <;> by_cases h2 : g.m_delayed_cycles_add > 0 <;>
      simp [h1, h2, HostOp.writesField]

/-- Witness of C18: with 8 bytes and 2 cycles accumulated, `SyncInstructionPointer` adds 8
to npc and 2 to pending ticks, and a second call changes nothing. -/
theorem SyncInstructionPointer_flushes_witness :
    (accumulated.m_delayed_pc_add = 0 → accumulated.m_delayed_cycles_add = 0 →
      accumulated.SyncInstructionPointer = accumulated) ∧
    accumulated.SyncInstructionPointer.m_emit = accumulated.m_emit ++ accumulated.syncPointerCode ∧
    accumulated.syncPointerCode.filter (HostOp.writesField .m_regs_npc) =
      (if 8 > 0 then [.AddCPUStructField .m_regs_npc (Value.FromConstantU32 8)] else []) ∧
    accumulated.syncPointerCode.filter (HostOp.writesField .m_pending_ticks) =
      (if (2 : Int) > 0 then [.AddCPUStructField .m_pending_ticks (Value.FromConstantU32 2)]
       else []) ∧
    accumulated.SyncInstructionPointer.m_delayed_pc_add = 0 ∧
    accumulated.SyncInstructionPointer.m_delayed_cycles_add = 0 ∧
    accumulated.SyncInstructionPointer.SyncInstructionPointer =
      accumulated.SyncInstructionPointer :=
  SyncInstructionPointer_flushes accumulated (by decide)

/-! ## Execution lemmas -/

theorem execOps_append (interp : HostState → HostState × Bool) (a b : List HostOp)
    (s : HostState) : execOps interp (a ++ b) s = execOps interp b (execOps interp a s) := by
  unfold execOps
  rw [List.foldl_append]

theorem execOp_core_of_no_write (interp : HostState → HostState × Bool) (op : HostOp)
    (s : HostState) (f : CoreField)
    (h : op.writesField f = false ∧ op.isInterpreterCall = false) :
    (execOp interp op s).core f = s.core f := by
  unfold execOp
  cases hs : s.exited
  · cases op <;>
      simp_all [HostOp.writesField, HostOp.isInterpreterCall, Function.update]
    all_goals first
      | (intro hf; exact absurd hf.symm (by simpa using h))
      | (split <;> rfl)
  · simp

theorem execOps_core_of_no_write (interp : HostState → HostState × Bool) (ops : List HostOp)
    (s : HostState) (f : CoreField)
    (h : ∀ op ∈ ops, op.writesField f = false ∧ op.isInterpreterCall = false) :
    (execOps interp ops s).core f = s.core f := by
  induction ops generalizing s with
  | nil => rfl
  | cons op t ih =>
    show (execOps interp t (execOp interp op s)).core f = s.core f
    rw [ih _ (fun o ho => h o (List.mem_cons_of_mem _ ho)),
      execOp_core_of_no_write interp op s f (h op (List.mem_cons_self _ _))]

theorem execOp_exited_of_no_exit (interp : HostState → HostState × Bool) (op : HostOp)
    (s : HostState) (h : op.isBlockExit = false) :
    (execOp interp op s).exited = s.exited := by
  unfold execOp
  cases hs : s.exited
  · cases op <;> simp_all [HostOp.isBlockExit]
  · simp [hs]

theorem execOps_exited_of_no_exit (interp : HostState → HostState × Bool) (ops : List HostOp)
    (s : HostState) (h : ∀ op ∈ ops, op.isBlockExit = false) :
    (execOps interp ops s).exited = s.exited := by
  induction ops generalizing s with
  | nil => rfl
  | cons op t ih =>
    show (execOps interp t (execOp interp op s)).exited = s.exited
    rw [ih _ (fun o ho => h o (List.mem_cons_of_mem _ ho)),
      execOp_exited_of_no_exit interp op s (h op (List.mem_cons_self _ _))]

theorem resetDirtyFlagsCode_kinds (cbi : CodeBlockInstruction) (g : CodeGenerator) :
    ∀ op ∈ g.resetDirtyFlagsCode cbi,
      op.isInterpreterCall = false ∧ op.isBlockExit = false := by
  unfold resetDirtyFlagsCode
  cases g.m_branch_was_taken_dirty <;>
  cases g.m_current_instruction_was_branch_taken_dirty <;>
  cases g.m_current_instruction_in_branch_delay_slot_dirty <;>
  cases cbi.is_branch_delay_slot <;>
  simp [HostOp.isInterpreterCall, HostOp.isBlockExit]

theorem writesField_of_field_ne (op : HostOp) (f : CoreField) (h : op.field ≠ some f) :
    op.writesField f = false := by
  cases op <;> simp_all [HostOp.field, HostOp.writesField]

/-- The effect of the code of the synchronising part of the prologue on a machine state. -/
theorem execOps_syncCode (interp : HostState → HostState × Bool) (cbi : CodeBlockInstruction)
    (cycles : Int) (g : CodeGenerator) (s : HostState) (hs : s.exited = false) :
    (execOps interp (g.syncCode cbi cycles) s).core .m_current_instruction_pc =
      s.core .m_regs_pc % 2 ^ 32 ∧
    (execOps interp (g.syncCode cbi cycles) s).core .m_regs_pc = s.core .m_regs_npc % 2 ^ 32 ∧
    (execOps interp (g.syncCode cbi cycles) s).core .m_regs_npc =
      (s.core .m_regs_npc + g.m_delayed_pc_add + 4) % 2 ^ 32 ∧
    (execOps interp (g.syncCode cbi cycles) s).core .m_pending_ticks =
      toU32 (s.core .m_pending_ticks + g.m_delayed_cycles_add + cycles) ∧
    (execOps interp (g.syncCode cbi cycles) s).core .m_downcount =
      toU32 (s.core .m_downcount - (g.m_delayed_cycles_add + cycles)) := by
  unfold syncCode
  cases cbi.is_branch_delay_slot <;>
    simp [execOps, execOp, hs, Function.update, Value.eval, Value.scratchIn,
      Value.FromConstantU32, Value.FromConstantU8, Value.FromConstant, RegSize.bits,
      INSTRUCTION_SIZE, toU32, notU32] <;>
    omega

/-! ## The effect of the synchronising prologue -/

theorem syncCode_writesPcOrTicks (cbi : CodeBlockInstruction) (cycles : Int)
    (g : CodeGenerator) :
    (g.syncCode cbi cycles).filter HostOp.writesPcOrTicks =
      [ .StoreCPUStructField .m_current_instruction_pc
          (Value.scratchIn g.AllocateHostReg.1 .RegSize_32),
        .StoreCPUStructField .m_regs_pc (Value.scratchIn g.AllocateHostReg.1 .RegSize_32),
        .AddCPUStructField .m_regs_npc
          (Value.FromConstantU32 (g.m_delayed_pc_add + INSTRUCTION_SIZE)),
        .AddCPUStructField .m_pending_ticks
          (Value.FromConstantU32 (toU32 (g.m_delayed_cycles_add + cycles))) ] := by
  unfold syncCode
  cases cbi.is_branch_delay_slot <;> simp [HostOp.writesPcOrTicks, HostOp.writesField]

theorem resetDirtyFlagsCode_writesPcOrTicks (cbi : CodeBlockInstruction) (g : CodeGenerator) :
    (g.resetDirtyFlagsCode cbi).filter HostOp.writesPcOrTicks = [] := by
  rw [List.filter_eq_nil_iff]
  intro op hop
  obtain ⟨h1, h2, h3, h4, -⟩ := resetDirtyFlagsCode_fields cbi g op hop
  simp [HostOp.writesPcOrTicks, writesField_of_field_ne op _ h1,
    writesField_of_field_ne op _ h2, writesField_of_field_ne op _ h3,
    writesField_of_field_ne op _ h4]

/-- C16: with a block in place, when `InstructionPrologue` synchronises (the instruction can
trap or `force_sync` is true) with accumulators `(p, k)` and cycle cost `c`, it returns; the
writes to current-instruction-pc, pc, npc and pending ticks in the emitted code are, in this
order, the store of the loaded pc to current-instruction-pc, the store of the loaded npc to
pc, the addition of `p + 4` to npc and the addition of `k + c` to pending ticks; run on a
machine state with 32-bit pc and npc, the emitted code leaves current-instruction-pc at the
old pc, pc at the old npc, npc at old npc `+ p + 4` modulo `2^32` and pending ticks at old
pending ticks `+ k + c` modulo `2^32`; afterwards both accumulators are zero. -/
theorem InstructionPrologue_sync_effect (canTrap : Instruction → Bool → Bool)
    (cbi : CodeBlockInstruction) (cycles : Int) (force_sync : Bool) (g : CodeGenerator)
    (block : CodeBlock) (hb : g.m_block = some block)
    (hc : canTrap cbi.instruction block.key.user_mode = true ∨ force_sync = true)
    (interp : HostState → HostState × Bool) (s : HostState) (hs : s.exited = false)
    (hpc : s.core .m_regs_pc < 2 ^ 32) (hnpc : s.core .m_regs_npc < 2 ^ 32) :
    ∃ g1 ops, InstructionPrologue canTrap cbi cycles force_sync g = some g1 ∧
      g1.m_emit = g.m_emit ++ ops ∧
      ops.filter HostOp.writesPcOrTicks =
        [ .StoreCPUStructField .m_current_instruction_pc
            (Value.scratchIn g.AllocateHostReg.1 .RegSize_32),
          .StoreCPUStructField .m_regs_pc (Value.scratchIn g.AllocateHostReg.1 .RegSize_32),
          .AddCPUStructField .m_regs_npc (Value.FromConstantU32 (g.m_delayed_pc_add + 4)),
          .AddCPUStructField .m_pending_ticks
            (Value.FromConstantU32 (toU32 (g.m_delayed_cycles_add + cycles))) ] ∧
      (execOps interp ops s).core .m_current_instruction_pc = s.core .m_regs_pc ∧
      (execOps interp ops s).core .m_regs_pc = s.core .m_regs_npc ∧
      (execOps interp ops s).core .m_regs_npc =
        (s.core .m_regs_npc + g.m_delayed_pc_add + 4) % 2 ^ 32 ∧
      (execOps interp ops s).core .m_pending_ticks =
        toU32 (s.core .m_pending_ticks + g.m_delayed_cycles_add + cycles) ∧
      g1.m_delayed_pc_add = 0 ∧ g1.m_delayed_cycles_add = 0 := by
  obtain ⟨hrc, -, -, hp, hk, -⟩ := resetDirtyFlags_frame cbi g
  have hreg : (g.InstructionPrologue_resetDirtyFlags cbi).AllocateHostReg.1 =
      g.AllocateHostReg.1 := by
    unfold AllocateHostReg
    simp only [hrc]
  -- the state after the lazy flag writes
  have hpre : ∀ f, (f = .m_regs_pc ∨ f = .m_regs_npc ∨ f = .m_current_instruction_pc ∨
      f = .m_pending_ticks ∨ f = .m_downcount) →
      (execOps interp (g.resetDirtyFlagsCode cbi) s).core f = s.core f := by
    intro f hf
    apply execOps_core_of_no_write
    intro op hop
    obtain ⟨h1, h2, h3, h4, h5⟩ := resetDirtyFlagsCode_fields cbi g op hop
    refine ⟨?_, (resetDirtyFlagsCode_kinds cbi g op hop).1⟩
    rcases hf with rfl | rfl | rfl | rfl | rfl <;>
      exact writesField_of_field_ne op _ (by assumption)
  have hex : (execOps interp (g.resetDirtyFlagsCode cbi) s).exited = false := by
    rw [execOps_exited_of_no_exit interp _ s
      (fun op hop => (resetDirtyFlagsCode_kinds cbi g op hop).2), hs]
  obtain ⟨e1, e2, e3, e4, -⟩ := execOps_syncCode interp cbi cycles
    (g.InstructionPrologue_resetDirtyFlags cbi)
    (execOps interp (g.resetDirtyFlagsCode cbi) s) hex
  refine ⟨_, g.resetDirtyFlagsCode cbi ++
      (g.InstructionPrologue_resetDirtyFlags cbi).syncCode cbi cycles,
    InstructionPrologue_synced canTrap cbi cycles force_sync g block hb hc, ?_, ?_, ?_, ?_,
    ?_, ?_, (sync_frame cbi cycles _).2.2.2.1, (sync_frame cbi cycles _).2.2.2.2.1⟩
  · rw [sync_emit, resetDirtyFlags_emit_eq, List.append_assoc]
  · rw [List.filter_append, resetDirtyFlagsCode_writesPcOrTicks, syncCode_writesPcOrTicks,
      hreg, hp, hk]
    rfl
  · rw [execOps_append, e1, hpre _ (Or.inl rfl)]
    exact Nat.mod_eq_of_lt hpc
  · rw [execOps_append, e2, hpre _ (Or.inr (Or.inl rfl))]
    exact Nat.mod_eq_of_lt hnpc
  · rw [execOps_append, e3, hpre _ (Or.inr (Or.inl rfl)), hp]
  · rw [execOps_append, e4, hpre _ (Or.inr (Or.inr (Or.inr (Or.inl rfl)))), hk]

/-- Witness of C16: the forced prologue of `lw` with cycle cost 1 after two deferred
instructions (8 bytes and 2 cycles accumulated), run on the sample machine state:
current-instruction-pc becomes `0x80000000`, pc `0x80000004`, npc `0x80000010` and pending
ticks 13. -/
theorem InstructionPrologue_sync_effect_witness :
    ∃ g1 ops, InstructionPrologue sampleCanTrap sampleLw 1 true accumulated = some g1 ∧
      g1.m_emit = accumulated.m_emit ++ ops ∧
      ops.filter HostOp.writesPcOrTicks =
        [ .StoreCPUStructField .m_current_instruction_pc (Value.scratchIn 1 .RegSize_32),
          .StoreCPUStructField .m_regs_pc (Value.scratchIn 1 .RegSize_32),
          .AddCPUStructField .m_regs_npc (Value.FromConstantU32 12),
          .AddCPUStructField .m_pending_ticks (Value.FromConstantU32 3) ] ∧
      (execOps sampleInterp ops sampleHostState).core .m_current_instruction_pc = 0x80000000 ∧
      (execOps sampleInterp ops sampleHostState).core .m_regs_pc = 0x80000004 ∧
      (execOps sampleInterp ops sampleHostState).core .m_regs_npc = 0x80000010 ∧
      (execOps sampleInterp ops sampleHostState).core .m_pending_ticks = 13 ∧
      g1.m_delayed_pc_add = 0 ∧ g1.m_delayed_cycles_add = 0 :=
  InstructionPrologue_sync_effect sampleCanTrap sampleLw 1 true accumulated sampleBlock rfl
    (Or.inr rfl) sampleInterp sampleHostState rfl (by decide) (by decide)

/-! ## The two-stage commit of the load delay -/

theorem InstructionEpilogue_eq_self (cbi : CodeBlockInstruction) (g : CodeGenerator)
    (h1 : g.m_load_delay_dirty = false) (h2 : g.m_next_load_delay_dirty = false) :
    g.InstructionEpilogue cbi = g := by
  unfold InstructionEpilogue
  simp [h1, h2]

theorem InstructionEpilogue_flags (cbi : CodeBlockInstruction) (g : CodeGenerator) :
    (g.m_load_delay_dirty = true →
      (g.InstructionEpilogue cbi).m_load_delay_dirty = false ∧
      (g.InstructionEpilogue cbi).m_next_load_delay_dirty = true) ∧
    (g.m_load_delay_dirty = false → g.m_next_load_delay_dirty = true →
      (g.InstructionEpilogue cbi).m_load_delay_dirty = false ∧
      (g.InstructionEpilogue cbi).m_next_load_delay_dirty = false) := by
  unfold InstructionEpilogue
  cases h1 : g.m_load_delay_dirty <;> cases h2 : g.m_next_load_delay_dirty <;>
  simp [h1, h2, ReleaseValue, AllocateScratch, AllocateHostReg, FreeHostReg,
    Value.scratchIn, Value.IsInHostRegister, Value.IsScratch, EmitLoadCPUStructField,
    EmitStoreCPUStructField, Emit]

/-- C12: three consecutive `InstructionEpilogue` calls from `m_load_delay_dirty = true`.
The first emits the code that copies the staged next-load-delay register and old value into
the visible load-delay fields and resets the staging fields to `Reg::count` and 0 (shown on
the emitted operations and on their effect on a machine state), and leaves
`m_load_delay_dirty` false and `m_next_load_delay_dirty` true; the second emits the code that
resets the visible load-delay register to `Reg::count` and the old value to 0, and leaves
both flags false; the third and every later call returns the generator unchanged: nothing
emitted, no flag changed. -/
theorem InstructionEpilogue_two_stage_commit (cbi1 cbi2 cbi3 : CodeBlockInstruction)
    (later : List CodeBlockInstruction) (g : CodeGenerator)
    (h : g.m_load_delay_dirty = true)
    (interp : HostState → HostState × Bool) (s : HostState) (hs : s.exited = false) :
    -- first call
    (g.InstructionEpilogue cbi1).m_emit = g.m_emit ++
      [ .LoadCPUStructField g.AllocateHostReg.1 .RegSize_8 .m_next_load_delay_reg,
        .StoreCPUStructField .m_next_load_delay_reg (Value.FromConstantU8 Reg_count),
        .StoreCPUStructField .m_load_delay_reg (Value.scratchIn g.AllocateHostReg.1 .RegSize_8),
        .LoadCPUStructField g.AllocateHostReg.1 .RegSize_32 .m_next_load_delay_old_value,
        .StoreCPUStructField .m_next_load_delay_old_value (Value.FromConstantU32 0),
        .StoreCPUStructField .m_load_delay_old_value
          (Value.scratchIn g.AllocateHostReg.1 .RegSize_32) ] ∧
    (execOps interp g.epilogueCode s).core .m_load_delay_reg =
      s.core .m_next_load_delay_reg % 2 ^ 8 ∧
    (execOps interp g.epilogueCode s).core .m_load_delay_old_value =
      s.core .m_next_load_delay_old_value % 2 ^ 32 ∧
    (execOps interp g.epilogueCode s).core .m_next_load_delay_reg = Reg_count ∧
    (execOps interp g.epilogueCode s).core .m_next_load_delay_old_value = 0 ∧
    (g.InstructionEpilogue cbi1).m_load_delay_dirty = false ∧
    (g.InstructionEpilogue cbi1).m_next_load_delay_dirty = true ∧
    -- second call
    ((g.InstructionEpilogue cbi1).InstructionEpilogue cbi2).m_emit =
      (g.InstructionEpilogue cbi1).m_emit ++
        [ .StoreCPUStructField .m_load_delay_reg (Value.FromConstantU8 Reg_count),
          .StoreCPUStructField .m_load_delay_old_value (Value.FromConstantU32 0) ] ∧
    (execOps interp (g.InstructionEpilogue cbi1).epilogueCode s).core .m_load_delay_reg =
      Reg_count ∧
    (execOps interp (g.InstructionEpilogue cbi1).epilogueCode s).core .m_load_delay_old_value
      = 0 ∧
    ((g.InstructionEpilogue cbi1).InstructionEpilogue cbi2).m_load_delay_dirty = false ∧
    ((g.InstructionEpilogue cbi1).InstructionEpilogue cbi2).m_next_load_delay_dirty = false ∧
    -- third call and every later one
    ((g.InstructionEpilogue cbi1).InstructionEpilogue cbi2).InstructionEpilogue cbi3 =
      (g.InstructionEpilogue cbi1).InstructionEpilogue cbi2 ∧
    later.foldl (fun a c => a.InstructionEpilogue c)
        ((g.InstructionEpilogue cbi1).InstructionEpilogue cbi2) =
      (g.InstructionEpilogue cbi1).InstructionEpilogue cbi2 := by
  obtain ⟨f1, f2⟩ := (InstructionEpilogue_flags cbi1 g).1 h
  obtain ⟨f3, f4⟩ := (InstructionEpilogue_flags cbi2 (g.InstructionEpilogue cbi1)).2 f1 f2
  have hcode1 : g.epilogueCode =
      [ .LoadCPUStructField g.AllocateHostReg.1 .RegSize_8 .m_next_load_delay_reg,
        .StoreCPUStructField .m_next_load_delay_reg (Value.FromConstantU8 Reg_count),
        .StoreCPUStructField .m_load_delay_reg (Value.scratchIn g.AllocateHostReg.1 .RegSize_8),
        .LoadCPUStructField g.AllocateHostReg.1 .RegSize_32 .m_next_load_delay_old_value,
        .StoreCPUStructField .m_next_load_delay_old_value (Value.FromConstantU32 0),
        .StoreCPUStructField .m_load_delay_old_value
          (Value.scratchIn g.AllocateHostReg.1 .RegSize_32) ] := by
    unfold epilogueCode
    simp [h]
  have hcode2 : (g.InstructionEpilogue cbi1).epilogueCode =
      [ .StoreCPUStructField .m_load_delay_reg (Value.FromConstantU8 Reg_count),
        .StoreCPUStructField .m_load_delay_old_value (Value.FromConstantU32 0) ] := by
    unfold epilogueCode
    simp [f1, f2]
  have hlater : ∀ (l : List CodeBlockInstruction) (a : CodeGenerator),
      a.m_load_delay_dirty = false → a.m_next_load_delay_dirty = false →
      l.foldl (fun a c => a.InstructionEpilogue c) a = a := by
    intro l
    induction l with
    | nil => intro a _ _; rfl
    | cons c t ih =>
      intro a h1 h2
      rw [List.foldl_cons, InstructionEpilogue_eq_self c a h1 h2]
      exact ih a h1 h2
  refine ⟨?_, ?_, ?_, ?_, ?_, f1, f2, ?_, ?_, ?_, f3, f4,
    InstructionEpilogue_eq_self cbi3 _ f3 f4, hlater later _ f3 f4⟩
  · rw [InstructionEpilogue_emit, hcode1]
  · rw [hcode1]
    simp [execOps, execOp, hs, Function.update, Value.eval, Value.scratchIn,
      Value.FromConstantU32, Value.FromConstantU8, Value.FromConstant, RegSize.bits]
  · rw [hcode1]
    simp [execOps, execOp, hs, Function.update, Value.eval, Value.scratchIn,
      Value.FromConstantU32, Value.FromConstantU8, Value.FromConstant, RegSize.bits]
  · rw [hcode1]
    simp [execOps, execOp, hs, Function.update, Value.eval, Value.scratchIn,
      Value.FromConstantU32, Value.FromConstantU8, Value.FromConstant, RegSize.bits, Reg_count]
  · rw [hcode1]
    simp [execOps, execOp, hs, Function.update, Value.eval, Value.scratchIn,
      Value.FromConstantU32, Value.FromConstantU8, Value.FromConstant, RegSize.bits]
  · rw [InstructionEpilogue_emit, hcode2]
  · rw [hcode2]
    simp [execOps, execOp, hs, Function.update, Value.eval, Value.scratchIn,
      Value.FromConstantU32, Value.FromConstantU8, Value.FromConstant, RegSize.bits, Reg_count]
  · rw [hcode2]
    simp [execOps, execOp, hs, Function.update, Value.eval, Value.scratchIn,
      Value.FromConstantU32, Value.FromConstantU8, Value.FromConstant, RegSize.bits]

/-- Witness of C12: three epilogues from the start of the sample block (where
`m_load_delay_dirty` is set), run on the sample machine state, in which register 9 with old
value 77 is staged: after the code of the first epilogue the visible load-delay register is
9 and the old value 77. -/
theorem InstructionEpilogue_two_stage_commit_witness :
    (execOps sampleInterp (fresh.CompileBlock_begin sampleBlock).epilogueCode
      sampleHostState).core .m_load_delay_reg = 9 ∧
    (execOps sampleInterp (fresh.CompileBlock_begin sampleBlock).epilogueCode
      sampleHostState).core .m_load_delay_old_value = 77 ∧
    (((fresh.CompileBlock_begin sampleBlock).InstructionEpilogue sampleLui).InstructionEpilogue
      sampleLw).InstructionEpilogue sampleLui =
      ((fresh.CompileBlock_begin sampleBlock).InstructionEpilogue sampleLui).InstructionEpilogue
        sampleLw :=
  have w := InstructionEpilogue_two_stage_commit sampleLui sampleLw sampleLui []
    (fresh.CompileBlock_begin sampleBlock) rfl sampleInterp sampleHostState rfl
  ⟨w.2.1, w.2.2.1, w.2.2.2.2.2.2.2.2.2.2.2.2.1⟩

/-! ## The lazy write of the branch-taken state -/

theorem syncCode_branch_taken (cbi : CodeBlockInstruction) (cycles : Int) (g : CodeGenerator) :
    ∀ op ∈ g.syncCode cbi cycles, op.accessesBranchTaken = false ∧
      op.writesField .m_branch_was_taken = false ∧
      op.writesField .m_current_instruction_was_branch_taken = false ∧
      op.isInterpreterCall = false := by
  unfold syncCode
  cases cbi.is_branch_delay_slot <;>
    simp [HostOp.accessesBranchTaken, HostOp.field, HostOp.writesField,
      HostOp.isInterpreterCall]

/-- One prologue call with a block in place: it returns, its code is the lazy flag writes
followed by a tail that does not touch the branch-taken fields, and the two branch-taken
dirty flags move on one stage. -/
theorem InstructionPrologue_step (canTrap : Instruction → Bool → Bool)
    (x : CodeBlockInstruction × Int × Bool) (g : CodeGenerator) (block : CodeBlock)
    (hb : g.m_block = some block) :
    ∃ g1 tail, InstructionPrologue canTrap x.1 x.2.1 x.2.2 g = some g1 ∧
      g1.m_emit = g.m_emit ++ (g.resetDirtyFlagsCode x.1 ++ tail) ∧
      (∀ op ∈ tail, op.accessesBranchTaken = false ∧
        op.writesField .m_branch_was_taken = false ∧
        op.writesField .m_current_instruction_was_branch_taken = false ∧
        op.isInterpreterCall = false) ∧
      g1.m_block = some block ∧
      g1.m_branch_was_taken_dirty = false ∧
      g1.m_current_instruction_was_branch_taken_dirty = g.m_branch_was_taken_dirty := by
  obtain ⟨fl1, fl2⟩ := resetDirtyFlags_flags x.1 g
  obtain ⟨-, hblk, -⟩ := resetDirtyFlags_frame x.1 g
  by_cases hd : canTrap x.1.instruction block.key.user_mode = false ∧ x.2.2 = false
  · obtain ⟨hc, hf⟩ := hd
    have hrun := InstructionPrologue_deferred canTrap x.1 x.2.1 g block hb hc
    rw [← hf] at hrun
    refine ⟨_, [], hrun, ?_, by simp, ?_, ?_, ?_⟩
    · show (g.InstructionPrologue_resetDirtyFlags x.1).m_emit = _
      rw [resetDirtyFlags_emit_eq, List.append_nil]
    · show (g.InstructionPrologue_resetDirtyFlags x.1).m_block = _
      rw [hblk, hb]
    · exact fl1
    · exact fl2
  · have hc : canTrap x.1.instruction block.key.user_mode = true ∨ x.2.2 = true := by
      cases h1 : canTrap x.1.instruction block.key.user_mode <;> cases h2 : x.2.2 <;>
        simp_all
    refine ⟨_, (g.InstructionPrologue_resetDirtyFlags x.1).syncCode x.1 x.2.1,
      InstructionPrologue_synced canTrap x.1 x.2.1 x.2.2 g block hb hc, ?_,
      syncCode_branch_taken _ _ _, ?_, ?_, ?_⟩
    · rw [sync_emit, resetDirtyFlags_emit_eq, List.append_assoc]
    · rw [(sync_frame _ _ _).2.1, hblk, hb]
    · rw [(sync_frame _ _ _).2.2.2.2.2.2.2.1]
      exact fl1
    · rw [(sync_frame _ _ _).2.2.2.2.2.2.2.2]
      exact fl2

theorem resetDirtyFlagsCode_branch_taken (cbi : CodeBlockInstruction) (g : CodeGenerator) :
    (g.resetDirtyFlagsCode cbi).filter HostOp.accessesBranchTaken =
      if g.m_branch_was_taken_dirty then
        [ .LoadCPUStructField g.AllocateHostReg.1 .RegSize_8 .m_branch_was_taken,
          .StoreCPUStructField .m_current_instruction_was_branch_taken
            (Value.scratchIn g.AllocateHostReg.1 .RegSize_8),
          .StoreCPUStructField .m_branch_was_taken (Value.FromConstantU8 0) ]
      else if g.m_current_instruction_was_branch_taken_dirty then
        [ .StoreCPUStructField .m_current_instruction_was_branch_taken (Value.FromConstantU8 0) ]
      else [] := by
  unfold resetDirtyFlagsCode
  cases g.m_branch_was_taken_dirty <;>
  cases g.m_current_instruction_was_branch_taken_dirty <;>
  cases g.m_current_instruction_in_branch_delay_slot_dirty <;>
  cases cbi.is_branch_delay_slot <;>
  simp [HostOp.accessesBranchTaken, HostOp.field]

theorem filter_accessesBranchTaken_tail (tail : List HostOp)
    (h : ∀ op ∈ tail, op.accessesBranchTaken = false ∧
        op.writesField .m_branch_was_taken = false ∧
        op.writesField .m_current_instruction_was_branch_taken = false ∧
        op.isInterpreterCall = false) :
    tail.filter HostOp.accessesBranchTaken = [] := by
  rw [List.filter_eq_nil_iff]
  intro op hop
  simp [(h op hop).1]

/-- Once both branch-taken dirty flags are clean, no later prologue call touches the
branch-taken fields, and the flags stay clean. -/
theorem prologueCalls_clean (canTrap : Instruction → Bool → Bool)
    (later : List (CodeBlockInstruction × Int × Bool)) (g : CodeGenerator) (block : CodeBlock)
    (hb : g.m_block = some block) (h1 : g.m_branch_was_taken_dirty = false)
    (h2 : g.m_current_instruction_was_branch_taken_dirty = false) :
    ∃ g3 ops3, prologueCalls canTrap later g = some g3 ∧ g3.m_emit = g.m_emit ++ ops3 ∧
      ops3.filter HostOp.accessesBranchTaken = [] ∧
      g3.m_branch_was_taken_dirty = false := by
  induction later generalizing g with
  | nil => exact ⟨g, [], rfl, by simp, rfl, h1⟩
  | cons x rest ih =>
    obtain ⟨g1, tail, hrun, hem, htail, hb1, f1, f2⟩ :=
      InstructionPrologue_step canTrap x g block hb
    obtain ⟨g3, ops3, hrun3, hem3, hf3, f3⟩ := ih g1 hb1 f1 (f2.trans h1)
    refine ⟨g3, (g.resetDirtyFlagsCode x.1 ++ tail) ++ ops3, ?_, ?_, ?_, f3⟩
    · simp only [prologueCalls, hrun]
      exact hrun3
    · rw [hem3, hem, List.append_assoc]
    · rw [List.filter_append, List.filter_append, resetDirtyFlagsCode_branch_taken, h1, h2,
        filter_accessesBranchTaken_tail tail htail, hf3]
      rfl

/-- C17: consecutive `InstructionPrologue` calls from `m_branch_was_taken_dirty = true`, with
a block in place, whatever the instructions, cycle costs and `force_sync` arguments. The
first call emits, as its only accesses to the two branch-taken fields, the load of
branch-was-taken, the store of the loaded value to current-instruction-was-branch-taken and
the store of 0 to branch-was-taken (run on a machine state, its code leaves
current-instruction-was-branch-taken at the old branch-was-taken and branch-was-taken at 0);
the second call emits a single store of 0 to current-instruction-was-branch-taken; the third
and every later call emits no access to either field. After every call
`m_branch_was_taken_dirty` is false. -/
theorem InstructionPrologue_lazy_branch_taken (canTrap : Instruction → Bool → Bool)
    (x1 x2 : CodeBlockInstruction × Int × Bool)
    (later : List (CodeBlockInstruction × Int × Bool)) (g : CodeGenerator) (block : CodeBlock)
    (hb : g.m_block = some block) (h : g.m_branch_was_taken_dirty = true)
    (interp : HostState → HostState × Bool) (s : HostState) (hs : s.exited = false) :
    ∃ g1 g2 g3 ops1 ops2 ops3,
      InstructionPrologue canTrap x1.1 x1.2.1 x1.2.2 g = some g1 ∧
      g1.m_emit = g.m_emit ++ ops1 ∧
      ops1.filter HostOp.accessesBranchTaken =
        [ .LoadCPUStructField g.AllocateHostReg.1 .RegSize_8 .m_branch_was_taken,
          .StoreCPUStructField .m_current_instruction_was_branch_taken
            (Value.scratchIn g.AllocateHostReg.1 .RegSize_8),
          .StoreCPUStructField .m_branch_was_taken (Value.FromConstantU8 0) ] ∧
      (execOps interp ops1 s).core .m_current_instruction_was_branch_taken =
        s.core .m_branch_was_taken % 2 ^ 8 ∧
      (execOps interp ops1 s).core .m_branch_was_taken = 0 ∧
      g1.m_branch_was_taken_dirty = false ∧
      InstructionPrologue canTrap x2.1 x2.2.1 x2.2.2 g1 = some g2 ∧
      g2.m_emit = g1.m_emit ++ ops2 ∧
      ops2.filter HostOp.accessesBranchTaken =
        [ .StoreCPUStructField .m_current_instruction_was_branch_taken
            (Value.FromConstantU8 0) ] ∧
      g2.m_branch_was_taken_dirty = false ∧
      prologueCalls canTrap later g2 = some g3 ∧
      g3.m_emit = g2.m_emit ++ ops3 ∧
      ops3.filter HostOp.accessesBranchTaken = [] ∧
      g3.m_branch_was_taken_dirty = false := by
  obtain ⟨g1, tail1, hrun1, hem1, htail1, hb1, f11, f12⟩ :=
    InstructionPrologue_step canTrap x1 g block hb
  obtain ⟨g2, tail2, hrun2, hem2, htail2, hb2, f21, f22⟩ :=
    InstructionPrologue_step canTrap x2 g1 block hb1
  obtain ⟨g3, ops3, hrun3, hem3, hf3, f3⟩ :=
    prologueCalls_clean canTrap later g2 block hb2 f21 (f22.trans f11)
  have hcur1 : g1.m_current_instruction_was_branch_taken_dirty = true := f12.trans h
  -- the effect of the lazy flag writes of the first call
  have heff : (execOps interp (g.resetDirtyFlagsCode x1.1) s).core
        .m_current_instruction_was_branch_taken = s.core .m_branch_was_taken % 2 ^ 8 ∧
      (execOps interp (g.resetDirtyFlagsCode x1.1) s).core .m_branch_was_taken = 0 := by
    unfold resetDirtyFlagsCode
    cases g.m_current_instruction_in_branch_delay_slot_dirty <;>
    cases x1.1.is_branch_delay_slot <;>
    simp [h, execOps, execOp, hs, Function.update, Value.eval, Value.scratchIn,
      Value.FromConstantU8, Value.FromConstant, RegSize.bits]
  refine ⟨g1, g2, g3, g.resetDirtyFlagsCode x1.1 ++ tail1,
    g1.resetDirtyFlagsCode x2.1 ++ tail2, ops3, hrun1, hem1, ?_, ?_, ?_, f11, hrun2, hem2, ?_,
    f21, hrun3, hem3, hf3, f3⟩
  · rw [List.filter_append, resetDirtyFlagsCode_branch_taken, h,
      filter_accessesBranchTaken_tail tail1 htail1]
    rfl
  · rw [execOps_append, execOps_core_of_no_write interp tail1 _ _
      (fun op hop => ⟨(htail1 op hop).2.2.1, (htail1 op hop).2.2.2⟩)]
    exact heff.1
  · rw [execOps_append, execOps_core_of_no_write interp tail1 _ _
      (fun op hop => ⟨(htail1 op hop).2.1, (htail1 op hop).2.2.2⟩)]
    exact heff.2
  · rw [List.filter_append, resetDirtyFlagsCode_branch_taken, f11, hcur1,
      filter_accessesBranchTaken_tail tail2 htail2]
    rfl

/-- Witness of C17: four prologue calls from the start of the sample block, where
`m_branch_was_taken_dirty` is set: a deferred `lui`, a forced `lw`, and two later calls, run
on the sample machine state in which branch-was-taken is 1. -/
theorem InstructionPrologue_lazy_branch_taken_witness :
    ∃ g1 g2 g3 ops1 ops2 ops3,
      InstructionPrologue sampleCanTrap sampleLui 1 false (fresh.CompileBlock_begin sampleBlock)
        = some g1 ∧
      g1.m_emit = (fresh.CompileBlock_begin sampleBlock).m_emit ++ ops1 ∧
      ops1.filter HostOp.accessesBranchTaken =
        [ .LoadCPUStructField 1 .RegSize_8 .m_branch_was_taken,
          .StoreCPUStructField .m_current_instruction_was_branch_taken
            (Value.scratchIn 1 .RegSize_8),
          .StoreCPUStructField .m_branch_was_taken (Value.FromConstantU8 0) ] ∧
      (execOps sampleInterp ops1 sampleHostState).core .m_current_instruction_was_branch_taken
        = 1 ∧
      (execOps sampleInterp ops1 sampleHostState).core .m_branch_was_taken = 0 ∧
      g1.m_branch_was_taken_dirty = false ∧
      InstructionPrologue sampleCanTrap sampleLw 1 true g1 = some g2 ∧
      g2.m_emit = g1.m_emit ++ ops2 ∧
      ops2.filter HostOp.accessesBranchTaken =
        [ .StoreCPUStructField .m_current_instruction_was_branch_taken
            (Value.FromConstantU8 0) ] ∧
      g2.m_branch_was_taken_dirty = false ∧
      prologueCalls sampleCanTrap [(sampleLui, 1, false), (sampleLw, 1, true)] g2 = some g3 ∧
      g3.m_emit = g2.m_emit ++ ops3 ∧
      ops3.filter HostOp.accessesBranchTaken = [] ∧
      g3.m_branch_was_taken_dirty = false :=
  InstructionPrologue_lazy_branch_taken sampleCanTrap (sampleLui, 1, false) (sampleLw, 1, true)
    [(sampleLui, 1, false), (sampleLw, 1, true)] (fresh.CompileBlock_begin sampleBlock)
    sampleBlock rfl rfl sampleInterp sampleHostState rfl

/-! ## The fallback leaves no binding -/

theorem epilogueCode_kinds (g : CodeGenerator) :
    ∀ op ∈ g.epilogueCode, op.isInterpreterCall = false ∧ op.isBlockExit = false ∧
      op.writesField .m_pending_ticks = false ∧ op.writesField .m_downcount = false := by
  unfold epilogueCode
  cases g.m_load_delay_dirty <;> cases g.m_next_load_delay_dirty <;>
    simp [HostOp.isInterpreterCall, HostOp.isBlockExit, HostOp.writesField]

theorem syncCode_kinds (cbi : CodeBlockInstruction) (cycles : Int) (g : CodeGenerator) :
    ∀ op ∈ g.syncCode cbi cycles, op.isInterpreterCall = false ∧ op.isBlockExit = false := by
  unfold syncCode
  cases cbi.is_branch_delay_slot <;> simp [HostOp.isInterpreterCall, HostOp.isBlockExit]

theorem flushCode_kinds (l : List (Reg × Value)) :
    ∀ op ∈ flushCode l, op.isInterpreterCall = false ∧ op.isBlockExit = false ∧
      op.writesField .m_pending_ticks = false ∧ op.writesField .m_downcount = false := by
  intro op hop
  unfold flushCode at hop
  obtain ⟨b, -, rfl⟩ := List.mem_map.mp hop
  simp [HostOp.isInterpreterCall, HostOp.isBlockExit, HostOp.writesField]

theorem filter_isInterpreterCall_eq_nil (ops : List HostOp)
    (h : ∀ op ∈ ops, op.isInterpreterCall = false) :
    ops.filter HostOp.isInterpreterCall = [] := by
  rw [List.filter_eq_nil_iff]
  intro op hop
  simp [h op hop]

/-- The code that `Compile_Fallback` appends, piece by piece. -/
theorem Compile_Fallback_emit (canTrap : Instruction → Bool → Bool)
    (cbi : CodeBlockInstruction) (block : CodeBlock) (g : CodeGenerator) :
    ∃ ct gc ge,
      ((g.fallbackBody canTrap cbi block).InstructionEpilogue cbi).m_emit =
        g.m_emit ++ (g.resetDirtyFlagsCode cbi ++
          (g.InstructionPrologue_resetDirtyFlags cbi).syncCode cbi 1) ++
          flushCode g.m_register_cache.m_guest_reg_cache ++
          ([HostOp.StoreCPUStructField .m_current_instruction_bits
              (Value.FromConstantU32 cbi.instruction.bits)] ++
            callCode ct gc ++ epilogueCode ge) := by
  refine ⟨canTrap cbi.instruction block.key.user_mode,
    (((g.InstructionPrologue_resetDirtyFlags cbi).InstructionPrologue_sync cbi
      1).FlushAllGuestRegisters true true).EmitStoreCPUStructField .m_current_instruction_bits
        (Value.FromConstantU32 cbi.instruction.bits),
    g.fallbackBody canTrap cbi block, ?_⟩
  rw [InstructionEpilogue_emit]
  show (Compile_Fallback_call _ _).m_emit ++ _ = _
  rw [Compile_Fallback_call_emit]
  show ((((g.InstructionPrologue_resetDirtyFlags cbi).InstructionPrologue_sync cbi
    1).FlushAllGuestRegisters true true).m_emit ++ [_]) ++ _ ++ _ = _
  rw [FlushAllGuestRegisters_emit, sync_emit, resetDirtyFlags_emit_eq, (sync_frame cbi 1 _).1,
    (resetDirtyFlags_frame cbi g).1]
  simp only [List.append_assoc]

/-- C14: with a block in place, after `Compile_Fallback` no guest register is bound in the
register cache. In the code it emits, the write-back of the bindings sits before the single
call of the interpreter: no call precedes it, and the call follows it together with the exit
check and the epilogue, after which the register cache is still empty. -/
theorem Compile_Fallback_no_bindings (canTrap : Instruction → Bool → Bool)
    (cbi : CodeBlockInstruction) (g : CodeGenerator) (block : CodeBlock)
    (hb : g.m_block = some block) :
    ∃ g1 before after rv, g.Compile_Fallback canTrap cbi = some (true, g1) ∧
      g1.m_register_cache.m_guest_reg_cache = [] ∧
      (∀ reg, g1.m_register_cache.binding reg = none) ∧
      g1.m_emit = g.m_emit ++ before ++ flushCode g.m_register_cache.m_guest_reg_cache ++ after ∧
      before.filter HostOp.isInterpreterCall = [] ∧
      (flushCode g.m_register_cache.m_guest_reg_cache).filter HostOp.isInterpreterCall = [] ∧
      after.filter HostOp.isInterpreterCall = [.FunctionCallInterpretInstruction rv] := by
  obtain ⟨ct, gc, ge, hem⟩ := Compile_Fallback_emit canTrap cbi block g
  have hguest : ((g.fallbackBody canTrap cbi block).InstructionEpilogue
      cbi).m_register_cache.m_guest_reg_cache = [] := by
    rw [(InstructionEpilogue_frame cbi _).1]
    show (Compile_Fallback_call _ _).m_register_cache.m_guest_reg_cache = []
    rw [(Compile_Fallback_call_frame _ _).1]
    exact (FlushAllGuestRegisters_invalidate true _).1
  refine ⟨_, _, _, (if ct then some (Value.scratchIn gc.AllocateHostReg.1 .RegSize_8) else none),
    Compile_Fallback_eq canTrap cbi g block hb, hguest, ?_, hem, ?_, ?_, ?_⟩
  · intro reg
    unfold RegisterCache.binding
    rw [hguest]
    rfl
  · apply filter_isInterpreterCall_eq_nil
    intro op hop
    rcases List.mem_append.mp hop with h | h
    · exact (resetDirtyFlagsCode_kinds cbi g op h).1
    · exact (syncCode_kinds cbi 1 _ op h).1
  · exact filter_isInterpreterCall_eq_nil _ (fun op hop => (flushCode_kinds _ op hop).1)
  · rw [List.filter_append, List.filter_append,
      filter_isInterpreterCall_eq_nil ge.epilogueCode
        (fun op hop => (epilogueCode_kinds ge op hop).1)]
    unfold callCode
    cases ct <;> simp [HostOp.isInterpreterCall]

/-- Witness of C14: the fallback for `lw` from the generator that holds guest register 4 in
host register 3 (dirty) and guest register 7 as a constant. -/
theorem Compile_Fallback_no_bindings_witness :
    ∃ g1 before after rv,
      cachedInBlock.Compile_Fallback sampleCanTrap sampleLw = some (true, g1) ∧
      g1.m_register_cache.m_guest_reg_cache = [] ∧
      (∀ reg, g1.m_register_cache.binding reg = none) ∧
      g1.m_emit = cachedInBlock.m_emit ++ before ++
        flushCode cachedInBlock.m_register_cache.m_guest_reg_cache ++ after ∧
      before.filter HostOp.isInterpreterCall = [] ∧
      (flushCode cachedInBlock.m_register_cache.m_guest_reg_cache).filter
        HostOp.isInterpreterCall = [] ∧
      after.filter HostOp.isInterpreterCall = [.FunctionCallInterpretInstruction rv] :=
  Compile_Fallback_no_bindings sampleCanTrap sampleLw cachedInBlock sampleBlock rfl

/-! ## Cycle accounting -/

theorem cycle_constants_cancel (c : Int) :
    (toU32 c + notU32 (toU32 (c - 1))) % 2 ^ 32 = 0 := by
  unfold toU32 notU32
  omega

theorem execOps_of_exited (interp : HostState → HostState × Bool) (ops : List HostOp)
    (s : HostState) (hs : s.exited = true) : execOps interp ops s = s := by
  induction ops with
  | nil => rfl
  | cons op t ih =>
    show execOps interp t (execOp interp op s) = s
    have : execOp interp op s = s := by
      unfold execOp
      simp [hs]
    rw [this, ih]

theorem CycleNeutral_nil (interp : HostState → HostState × Bool) : CycleNeutral interp [] :=
  fun _ => rfl

theorem CycleNeutral_append (interp : HostState → HostState × Bool) (a b : List HostOp)
    (ha : CycleNeutral interp a) (hb : CycleNeutral interp b) : CycleNeutral interp (a ++ b) := by
  intro s
  rw [execOps_append, hb, ha]

theorem CycleNeutral_of_no_write (interp : HostState → HostState × Bool) (ops : List HostOp)
    (h : ∀ op ∈ ops, op.isInterpreterCall = false ∧
      op.writesField .m_pending_ticks = false ∧ op.writesField .m_downcount = false) :
    CycleNeutral interp ops := by
  intro s
  unfold cycleSum
  rw [execOps_core_of_no_write interp ops s .m_pending_ticks
      (fun op hop => ⟨(h op hop).2.1, (h op hop).1⟩),
    execOps_core_of_no_write interp ops s .m_downcount
      (fun op hop => ⟨(h op hop).2.2, (h op hop).1⟩)]

theorem CycleNeutral_call (interp : HostState → HostState × Bool)
    (hinterp : ∀ s, cycleSum (interp s).1 = cycleSum s) (rv : Option Value) :
    CycleNeutral interp [.FunctionCallInterpretInstruction rv] := by
  intro s
  have e : execOps interp [.FunctionCallInterpretInstruction rv] s =
      execOp interp (.FunctionCallInterpretInstruction rv) s := rfl
  rw [e]
  unfold execOp
  cases hs : s.exited
  · have := hinterp s
    unfold cycleSum at this ⊢
    simpa using this
  · simp

theorem CycleNeutral_syncCode (interp : HostState → HostState × Bool)
    (cbi : CodeBlockInstruction) (cycles : Int) (g : CodeGenerator) :
    CycleNeutral interp (g.syncCode cbi cycles) := by
  intro s
  cases hs : s.exited
  · obtain ⟨-, -, -, e4, e5⟩ := execOps_syncCode interp cbi cycles g s hs
    unfold cycleSum
    rw [e4, e5]
    unfold toU32
    omega
  · rw [execOps_of_exited interp _ s hs]

theorem CycleNeutral_syncPointerCode (interp : HostState → HostState × Bool)
    (g : CodeGenerator) : CycleNeutral interp g.syncPointerCode := by
  intro s
  cases hs : s.exited
  · unfold syncPointerCode cycleSum
    by_cases h1 : g.m_delayed_pc_add > 0 <;> by_cases h2 : g.m_delayed_cycles_add > 0 <;>
      simp [h1, h2, execOps, execOp, hs, Function.update, Value.eval, Value.FromConstantU32,
        Value.FromConstant, RegSize.bits, toU32, notU32] <;>
      omega
  · rw [execOps_of_exited interp _ s hs]

theorem CycleNeutral_callCode (interp : HostState → HostState × Bool)
    (hinterp : ∀ s, cycleSum (interp s).1 = cycleSum s) (ct : Bool) (g : CodeGenerator) :
    CycleNeutral interp (g.callCode ct) := by
  unfold callCode
  cases ct
  · exact CycleNeutral_call interp hinterp none
  · exact CycleNeutral_append interp [_] [_] (CycleNeutral_call interp hinterp _)
      (CycleNeutral_of_no_write interp _
        (by simp [HostOp.isInterpreterCall, HostOp.writesField]))

theorem CycleNeutral_resetDirtyFlagsCode (interp : HostState → HostState × Bool)
    (cbi : CodeBlockInstruction) (g : CodeGenerator) :
    CycleNeutral interp (g.resetDirtyFlagsCode cbi) := by
  apply CycleNeutral_of_no_write
  intro op hop
  obtain ⟨-, -, -, h4, h5⟩ := resetDirtyFlagsCode_fields cbi g op hop
  exact ⟨(resetDirtyFlagsCode_kinds cbi g op hop).1, writesField_of_field_ne op _ h4,
    writesField_of_field_ne op _ h5⟩

theorem CycleNeutral_epilogueCode (interp : HostState → HostState × Bool)
    (g : CodeGenerator) : CycleNeutral interp g.epilogueCode := by
  apply CycleNeutral_of_no_write
  intro op hop
  obtain ⟨h1, -, h3, h4⟩ := epilogueCode_kinds g op hop
  exact ⟨h1, h3, h4⟩

theorem CycleNeutral_flushCode (interp : HostState → HostState × Bool)
    (l : List (Reg × Value)) : CycleNeutral interp (flushCode l) := by
  apply CycleNeutral_of_no_write
  intro op hop
  obtain ⟨h1, -, h3, h4⟩ := flushCode_kinds l op hop
  exact ⟨h1, h3, h4⟩

theorem ReleaseOperandMemoryAddresses_emit (g : CodeGenerator) :
    g.ReleaseOperandMemoryAddresses.m_emit = g.m_emit := by
  have hfold : ∀ (l : List Value) (a : CodeGenerator),
      (l.foldl (fun acc v => acc.ReleaseValue v) a).m_emit = a.m_emit := by
    intro l
    induction l with
    | nil => intro a; rfl
    | cons v t ih =>
      intro a
      rw [List.foldl_cons, ih]
      unfold ReleaseValue
      cases (v.IsInHostRegister && v.IsScratch) <;> rfl
  unfold ReleaseOperandMemoryAddresses
  exact hfold _ g

theorem WriteGuestRegister_frame (reg : Reg) (value : Value) (g : CodeGenerator) :
    (g.WriteGuestRegister reg value).m_emit = g.m_emit ∧
    (g.WriteGuestRegister reg value).m_block = g.m_block := by
  unfold WriteGuestRegister InvalidateGuestRegister
  cases g.m_register_cache.binding reg with
  | none => exact ⟨rfl, rfl⟩
  | some v => cases hv : v.IsInHostRegister <;> simp [hv, FreeHostReg]

/-- One instruction of a block: compilation succeeds, the block stays in place, and the code
appended for the instruction is neutral for the cycle sum. -/
theorem CompileInstruction_cycle_neutral (canTrap : Instruction → Bool → Bool)
    (interp : HostState → HostState × Bool)
    (hinterp : ∀ s, cycleSum (interp s).1 = cycleSum s)
    (cbi : CodeBlockInstruction) (g : CodeGenerator) (block : CodeBlock)
    (hb : g.m_block = some block) :
    ∃ g1 ops, CompileInstruction canTrap cbi g = some (true, g1) ∧ g1.m_block = some block ∧
      g1.m_emit = g.m_emit ++ ops ∧ CycleNeutral interp ops := by
  have hprob : ((g.InstructionPrologue_resetDirtyFlags cbi).InstructionPrologue_sync cbi
      1).m_block = some block := by
    rw [(sync_frame cbi 1 _).2.1, (resetDirtyFlags_frame cbi g).2.1, hb]
  have hpro : CycleNeutral interp (g.resetDirtyFlagsCode cbi ++
      (g.InstructionPrologue_resetDirtyFlags cbi).syncCode cbi 1) :=
    CycleNeutral_append interp _ _ (CycleNeutral_resetDirtyFlagsCode interp cbi g)
      (CycleNeutral_syncCode interp cbi 1 _)
  unfold CompileInstruction
  by_cases hop : cbi.instruction.op = InstructionOp_lui
  · have hrun : g.Compile_lui canTrap cbi = some (true,
        ((((g.InstructionPrologue_resetDirtyFlags cbi).InstructionPrologue_sync cbi
          1).WriteGuestRegister cbi.instruction.rt
          (Value.FromConstantU32 ((cbi.instruction.imm_zext32 * 2 ^ 16) % 2 ^ 32))).InstructionEpilogue
          cbi)) := by
      unfold Compile_lui
      rw [InstructionPrologue_forced canTrap cbi 1 g block hb]
    simp only [hop, if_true, hrun]
    refine ⟨_, _, rfl, ?_, ?_, CycleNeutral_append interp _ _ hpro
      (CycleNeutral_epilogueCode interp
        (((g.InstructionPrologue_resetDirtyFlags cbi).InstructionPrologue_sync cbi
          1).WriteGuestRegister cbi.instruction.rt
          (Value.FromConstantU32 ((cbi.instruction.imm_zext32 * 2 ^ 16) % 2 ^ 32))))⟩
    · rw [(ReleaseOperandMemoryAddresses_frame _).1, (InstructionEpilogue_frame cbi _).2.1,
        (WriteGuestRegister_frame _ _ _).2, hprob]
    · rw [ReleaseOperandMemoryAddresses_emit, InstructionEpilogue_emit,
        (WriteGuestRegister_frame _ _ _).1, sync_emit, resetDirtyFlags_emit_eq]
      simp only [List.append_assoc]
  · obtain ⟨ct, gc, ge, hem⟩ := Compile_Fallback_emit canTrap cbi block g
    simp only [hop, if_false, Compile_Fallback_eq canTrap cbi g block hb]
    refine ⟨_, (g.resetDirtyFlagsCode cbi ++
        (g.InstructionPrologue_resetDirtyFlags cbi).syncCode cbi 1) ++
        (flushCode g.m_register_cache.m_guest_reg_cache ++
          (([HostOp.StoreCPUStructField .m_current_instruction_bits
              (Value.FromConstantU32 cbi.instruction.bits)] ++ callCode ct gc) ++
            epilogueCode ge)), rfl, ?_, ?_, ?_⟩
    rotate_left
    · rw [ReleaseOperandMemoryAddresses_emit, hem]
      simp only [List.append_assoc]
    · exact CycleNeutral_append interp _ _ hpro
        (CycleNeutral_append interp _ _ (CycleNeutral_flushCode interp _)
          (CycleNeutral_append interp _ _
            (CycleNeutral_append interp [_] _
              (CycleNeutral_of_no_write interp _
                (by simp [HostOp.isInterpreterCall, HostOp.writesField]))
              (CycleNeutral_callCode interp hinterp ct gc))
            (CycleNeutral_epilogueCode interp ge)))
    · rw [(ReleaseOperandMemoryAddresses_frame _).1, (InstructionEpilogue_frame cbi _).2.1]
      show (Compile_Fallback_call _ _).m_block = some block
      rw [(Compile_Fallback_call_frame _ _).2.1]
      show (((g.InstructionPrologue_resetDirtyFlags cbi).InstructionPrologue_sync cbi
        1).FlushAllGuestRegisters true true).m_block = some block
      rw [FlushAllGuestRegisters_preserves (fun g => g.m_block) (fun _ _ => rfl)
        (fun _ _ => rfl) (fun _ _ => rfl), hprob]

theorem CompileBlock_loop_cycle_neutral (canTrap : Instruction → Bool → Bool)
    (interp : HostState → HostState × Bool)
    (hinterp : ∀ s, cycleSum (interp s).1 = cycleSum s)
    (instrs : List CodeBlockInstruction) (g : CodeGenerator) (block : CodeBlock)
    (hb : g.m_block = some block) :
    ∃ g1 ops, CompileBlock_loop canTrap instrs g = some (true, g1) ∧
      g1.m_emit = g.m_emit ++ ops ∧ CycleNeutral interp ops := by
  induction instrs generalizing g with
  | nil => exact ⟨g, [], rfl, by simp, CycleNeutral_nil interp⟩
  | cons cbi rest ih =>
    obtain ⟨g1, ops1, h1, hb1, he1, hn1⟩ :=
      CompileInstruction_cycle_neutral canTrap interp hinterp cbi g block hb
    obtain ⟨g2, ops2, h2, he2, hn2⟩ := ih g1 hb1
    refine ⟨g2, ops1 ++ ops2, by simp only [CompileBlock_loop_cons, h1, h2], ?_,
      CycleNeutral_append interp _ _ hn1 hn2⟩
    rw [he2, he1, List.append_assoc]

theorem syncCode_writesCycles (cbi : CodeBlockInstruction) (cycles : Int) (g : CodeGenerator) :
    (g.syncCode cbi cycles).filter HostOp.writesCycles =
      [ .AddCPUStructField .m_pending_ticks
          (Value.FromConstant (toU32 (g.m_delayed_cycles_add + cycles) % 2 ^ 32) .RegSize_32),
        .AddCPUStructField .m_downcount
          (Value.FromConstant
            (notU32 (toU32 (g.m_delayed_cycles_add + cycles - 1)) % 2 ^ 32) .RegSize_32) ] := by
  unfold syncCode
  cases cbi.is_branch_delay_slot <;>
    simp [HostOp.writesCycles, HostOp.writesField, Value.FromConstantU32]

theorem syncPointerCode_writesCycles (g : CodeGenerator) :
    g.syncPointerCode.filter HostOp.writesCycles =
      if g.m_delayed_cycles_add > 0 then
        [ .AddCPUStructField .m_pending_ticks
            (Value.FromConstant (toU32 g.m_delayed_cycles_add % 2 ^ 32) .RegSize_32),
          .AddCPUStructField .m_downcount
            (Value.FromConstant
              (notU32 (toU32 (g.m_delayed_cycles_add - 1)) % 2 ^ 32) .RegSize_32) ]
      else [] := by
  unfold syncPointerCode
  by_cases h1 : g.m_delayed_pc_add > 0 <;> by_cases h2 : g.m_delayed_cycles_add > 0 <;>
    simp [h1, h2, HostOp.writesCycles, HostOp.writesField, Value.FromConstantU32]

theorem cycle_payloads_cancel (c : Int) :
    (toU32 c % 2 ^ 32 + notU32 (toU32 (c - 1)) % 2 ^ 32) % 2 ^ 32 = 0 := by
  have := cycle_constants_cancel c
  omega

/-- C19: every cycle update that the generator emits is balanced. In the synchronising part
of `InstructionPrologue`, for every accumulator and cycle count (total `c = 0` included), the
writes to pending ticks and downcount are one addition of a constant `a` to pending ticks
and one addition of a constant `b` to the downcount with `a + b = 0` modulo `2^32`; in
`SyncInstructionPointer` there is either no such write or the same balanced pair. Running
either code leaves pending ticks plus downcount, modulo `2^32`, unchanged. Hence, for an
interpreter that keeps that sum, the code of every compiled block keeps it, from every
machine state. -/
theorem cycle_updates_balanced (canTrap : Instruction → Bool → Bool) (block : CodeBlock)
    (g : CodeGenerator) (interp : HostState → HostState × Bool)
    (hinterp : ∀ s, cycleSum (interp s).1 = cycleSum s) :
    (∀ (g0 : CodeGenerator) (cbi : CodeBlockInstruction) (cycles : Int),
      ∃ ops a b, (g0.InstructionPrologue_sync cbi cycles).m_emit = g0.m_emit ++ ops ∧
        ops.filter HostOp.writesCycles =
          [ .AddCPUStructField .m_pending_ticks (Value.FromConstant a .RegSize_32),
            .AddCPUStructField .m_downcount (Value.FromConstant b .RegSize_32) ] ∧
        a = toU32 (g0.m_delayed_cycles_add + cycles) ∧
        (a + b) % 2 ^ 32 = 0 ∧ CycleNeutral interp ops) ∧
    (∀ g0 : CodeGenerator,
      ∃ ops, g0.SyncInstructionPointer.m_emit = g0.m_emit ++ ops ∧
        (ops.filter HostOp.writesCycles = [] ∨
          ∃ a b, ops.filter HostOp.writesCycles =
              [ .AddCPUStructField .m_pending_ticks (Value.FromConstant a .RegSize_32),
                .AddCPUStructField .m_downcount (Value.FromConstant b .RegSize_32) ] ∧
            a = toU32 g0.m_delayed_cycles_add ∧ (a + b) % 2 ^ 32 = 0) ∧
        CycleNeutral interp ops) ∧
    (∃ r ops, CompileBlock canTrap block g = some r ∧ r.result = true ∧
      r.out_function_ptr = some (g.m_emit ++ ops) ∧ CycleNeutral interp ops) := by
  have hmod : ∀ c : Int, toU32 c % 2 ^ 32 = toU32 c := by
    intro c
    unfold toU32
    omega
  refine ⟨?_, ?_, ?_⟩
  · intro g0 cbi cycles
    refine ⟨_, _, _, sync_emit cbi cycles g0, syncCode_writesCycles cbi cycles g0, hmod _,
      cycle_payloads_cancel _, CycleNeutral_syncCode interp cbi cycles g0⟩
  · intro g0
    refine ⟨_, SyncInstructionPointer_emit g0, ?_, CycleNeutral_syncPointerCode interp g0⟩
    rw [syncPointerCode_writesCycles]
    by_cases h2 : g0.m_delayed_cycles_add > 0
    · right
      exact ⟨_, _, by simp [h2], hmod _, cycle_payloads_cancel _⟩
    · left
      simp [h2]
  · obtain ⟨g1, opsL, h1, he1, hn1⟩ := CompileBlock_loop_cycle_neutral canTrap interp hinterp
      block.instructions (g.CompileBlock_begin block) block rfl
    have hrun : CompileBlock canTrap block g = some
        { result := true,
          out_function_ptr := some (FinalizeBlock g1.BlockEpilogue.EmitEndBlock).1,
          out_code_size := some (FinalizeBlock g1.BlockEpilogue.EmitEndBlock).2,
          gen := { g1.BlockEpilogue.EmitEndBlock with
                   m_block_end := none, m_block_start := none, m_block := none } } := by
      simp only [CompileBlock_unfold, h1]
    have hbegin : (g.CompileBlock_begin block).m_emit =
        g.m_emit ++ [HostOp.BeginBlock,
          .StoreCPUStructField .m_exception_raised (Value.FromConstantU8 0)] := by
      simp [CompileBlock_begin, EmitBeginBlock, BlockPrologue, EmitStoreCPUStructField, Emit]
    have hend : g1.BlockEpilogue.EmitEndBlock.m_emit =
        g1.m_emit ++ (flushCode g1.m_register_cache.m_guest_reg_cache ++
          ((g1.FlushAllGuestRegisters true false).syncPointerCode ++
            [HostOp.StoreCPUStructField .m_next_instruction_is_branch_delay_slot
              (Value.FromConstantU8 0), .EndBlock])) := by
      show ((g1.FlushAllGuestRegisters true false).SyncInstructionPointer.m_emit ++ [_]) ++ [_]
        = _
      rw [SyncInstructionPointer_emit, FlushAllGuestRegisters_emit]
      simp only [List.append_assoc, List.cons_append, List.nil_append]
    refine ⟨_, [HostOp.BeginBlock,
        .StoreCPUStructField .m_exception_raised (Value.FromConstantU8 0)] ++ (opsL ++
        (flushCode g1.m_register_cache.m_guest_reg_cache ++
          ((g1.FlushAllGuestRegisters true false).syncPointerCode ++
            [HostOp.StoreCPUStructField .m_next_instruction_is_branch_delay_slot
              (Value.FromConstantU8 0), .EndBlock]))), hrun, rfl, ?_, ?_⟩
    · show some g1.BlockEpilogue.EmitEndBlock.m_emit = _
      rw [hend, he1, hbegin]
      simp only [List.append_assoc]
    · refine CycleNeutral_append interp _ _
        (CycleNeutral_of_no_write interp _
          (by simp [HostOp.isInterpreterCall, HostOp.writesField]))
        (CycleNeutral_append interp _ _ hn1
          (CycleNeutral_append interp _ _ (CycleNeutral_flushCode interp _)
            (CycleNeutral_append interp _ _ (CycleNeutral_syncPointerCode interp _)
              (CycleNeutral_of_no_write interp _
                (by simp [HostOp.isInterpreterCall, HostOp.writesField])))))

/-- Witness of C19: the sample block with the sample interpreter, which changes nothing. -/
theorem cycle_updates_balanced_witness :
    ∃ r ops, CompileBlock sampleCanTrap sampleBlock fresh = some r ∧ r.result = true ∧
      r.out_function_ptr = some (fresh.m_emit ++ ops) ∧ CycleNeutral sampleInterp ops :=
  (cycle_updates_balanced sampleCanTrap sampleBlock fresh sampleInterp (fun _ => rfl)).2.2

end CodeGenerator

end CPU.Recompiler

namespace GPU_HW

namespace HWVertex

theorem EncodeTexcoord_eq (x y : Nat) (hx : x < 2 ^ 8) (hy : y < 2 ^ 8) :
    EncodeTexcoord x y = 2 ^ 8 * y + x := by
  unfold EncodeTexcoord CPU.Recompiler.ZeroExtend16
  have h1 : x % 2 ^ 8 % 2 ^ 16 = x := by omega
  have h2 : y % 2 ^ 8 % 2 ^ 16 = y := by omega
  rw [h1, h2, Nat.shiftLeft_eq, Nat.or_comm, Nat.mul_comm y, ← Nat.mul_add_lt_is_or hx y]
  omega

/-- C20: `EncodeTexcoord` and `DecodeTexcoord` are mutually inverse: for bytes `x`, `y`,
decoding the encoding of `(x, y)` gives `(x, y)`, and for a 16-bit `t`, encoding the two
components of the decoding of `t` gives `t`; `x` is the low byte and `y` the high byte. -/
theorem Texcoord_round_trip :
    (∀ x y : Nat, x < 2 ^ 8 → y < 2 ^ 8 → DecodeTexcoord (EncodeTexcoord x y) = (x, y)) ∧
    (∀ t : Nat, t < 2 ^ 16 →
      EncodeTexcoord (DecodeTexcoord t).1 (DecodeTexcoord t).2 = t) ∧
    (∀ x y : Nat, x < 2 ^ 8 → y < 2 ^ 8 →
      EncodeTexcoord x y % 2 ^ 8 = x ∧ EncodeTexcoord x y / 2 ^ 8 = y) := by
  refine ⟨?_, ?_, ?_⟩
  · intro x y hx hy
    rw [EncodeTexcoord_eq x y hx hy]
    unfold DecodeTexcoord
    rw [Nat.shiftRight_eq_div_pow]
    ext <;> simp only <;> omega
  · intro t ht
    have h1 : (DecodeTexcoord t).1 < 2 ^ 8 := Nat.mod_lt _ (by decide)
    have h2 : (DecodeTexcoord t).2 < 2 ^ 8 := Nat.mod_lt _ (by decide)
    rw [EncodeTexcoord_eq _ _ h1 h2]
    unfold DecodeTexcoord
    rw [Nat.shiftRight_eq_div_pow]
    simp only
    omega
  · intro x y hx hy
    rw [EncodeTexcoord_eq x y hx hy]
    constructor <;> omega

/-- Witness of C20: the bytes `0x34`, `0x12` encode to `0x1234`, which decodes to them. -/
theorem Texcoord_round_trip_witness :
    DecodeTexcoord (EncodeTexcoord 0x34 0x12) = (0x34, 0x12) ∧
    EncodeTexcoord (DecodeTexcoord 0x1234).1 (DecodeTexcoord 0x1234).2 = 0x1234 ∧
    (EncodeTexcoord 0x34 0x12 % 2 ^ 8 = 0x34 ∧ EncodeTexcoord 0x34 0x12 / 2 ^ 8 = 0x12) :=
  ⟨Texcoord_round_trip.1 0x34 0x12 (by decide) (by decide),
   Texcoord_round_trip.2.1 0x1234 (by decide),
   Texcoord_round_trip.2.2 0x34 0x12 (by decide) (by decide)⟩

end HWVertex

end GPU_HW
